import Mathlib

/-!
# Gm-chicks: farm-visit admission, phone normalisation and payments

A shallow embedding of the booking model (`models/Visit.js`), the visit routes
(`routes/visits.js`), the operator routes `PUT /api/admin/visits/:id/status` and
`PUT /api/admin/orders/:id/status` (`routes/admin.js`), the M-Pesa service
(`services/mpesa.js`), the payment routes (`routes/payments.js`) and the
vaccination reference routes (`routes/vaccinations.js`).

Modelling conventions:
* a JavaScript `Date` is its epoch value in milliseconds (`Int`); local time is
  UTC shifted by a fixed offset `tzOffsetMs`;
* a Mongo `ObjectId` is a `Nat`; the collection is the list of its documents in
  insertion order, `findById` returns the first document carrying the id; an
  identifier as it arrives in a route parameter or a body is a string, which
  the lookup casts first (`IdCast`), throwing when it is not an `ObjectId`
  (`cancelVisitRoute`, `initiatePaymentRoute`);
* a number returned by `parseInt` is a double (`JsNumber`): the digits read are
  rounded to 53 significant binary digits;
* visitor counts and ordered quantities are integers (`Int`), amounts of money
  are rationals;
* handlers that `await` run to completion one after the other, so a handler
  is a function from the store to a response and a new store;
* the gateway is a parameter (`Gateway`) and the requests sent to it are returned
  as a list; a store operation of the callback handler that rejects is a
  parameter too (`StoreFault`), carried by every callback of a series;
* `models/Order.js` is not among the sources: the `Order` document follows the
  data model of the specification. Statements that tell documents apart by
  `_id` assume the ids of the collection pairwise distinct, as the store's
  `_id` index guarantees.
-/

namespace GmChicks

/-! ## Booking model: `models/Visit.js` -/

/-- A document of the `Visit` collection (`visitSchema`). -/
structure Visit where
  _id : Nat
  user : Nat
  visitDate : Int
  visitTime : String
  numberOfVisitors : Int
  purpose : String
  status : String
  notes : Option String
  confirmationSent : Bool
  reminderSent : Bool
  createdAt : Int
deriving DecidableEq, Repr

/-- The process environment read by the booking code: the value of
`parseInt(process.env.MAX_VISITORS_PER_DAY)` (`none` is `NaN`) and the offset
of local time from UTC in milliseconds. -/
structure Env where
  MAX_VISITORS_PER_DAY : Option Int
  tzOffsetMs : Int
deriving DecidableEq, Repr

/-- Result object of `checkAvailability`. -/
structure Availability where
  available : Bool
  spotsLeft : Int
  totalVisitors : Int
deriving DecidableEq, Repr

/-- Body of `POST /api/visits`; an absent (or, for the date, unparseable) field
is `none`. -/
structure VisitRequest where
  visitDate : Option Int
  visitTime : Option String
  numberOfVisitors : Option Int
  purpose : Option String
  notes : Option String
deriving DecidableEq, Repr

/-- The JSON answer of a visit route: HTTP status, `success`, `message` and the
`visit` document when one is returned. -/
structure VisitResponse where
  code : Nat
  success : Bool
  message : String
  visit : Option Visit
deriving DecidableEq, Repr

/-- `parseInt(process.env.MAX_VISITORS_PER_DAY) || 20`: `NaN` and `0` are falsy. -/
def maxVisitors (env : Env) : Int :=
  match env.MAX_VISITORS_PER_DAY with
  | some n => if n = 0 then 20 else n
  | none => 20

/-- Milliseconds in a day. -/
def msPerDay : Int := 86400000

/-- `d.setHours(0, 0, 0, 0)`: the local midnight at or before `date`. -/
def startOfDay (env : Env) (date : Int) : Int :=
  date - (date + env.tzOffsetMs) % msPerDay

/-- `d.setHours(23, 59, 59, 999)`: the last millisecond of the local day of `date`. -/
def endOfDay (env : Env) (date : Int) : Int :=
  startOfDay env date + (23 * 3600000 + 59 * 60000 + 59 * 1000 + 999)

/-- The filter `status: { $in: ['pending', 'confirmed'] }`. -/
def statusCounts (status : String) : Bool :=
  status == "pending" || status == "confirmed"

/-- The query of `checkAvailability`:
`find({ visitDate: { $gte: startOfDay, $lte: endOfDay }, status: { $in: [...] } })`. -/
def findForDay (env : Env) (store : List Visit) (date : Int) : List Visit :=
  store.filter (fun visit =>
    decide (startOfDay env date ≤ visit.visitDate) &&
    decide (visit.visitDate ≤ endOfDay env date) &&
    statusCounts visit.status)

/-- `visitSchema.statics.checkAvailability` for a valid date. -/
def checkAvailability (env : Env) (store : List Visit) (date : Int) : Availability :=
  let maxV := maxVisitors env
  let visits := findForDay env store date
  let totalVisitors := visits.foldl (fun sum visit => sum + visit.numberOfVisitors) 0
  { available := decide (totalVisitors < maxV)
    spotsLeft := maxV - totalVisitors
    totalVisitors := totalVisitors }

/-- The `enum` of the `purpose` path. -/
def purposeEnum : List String := ["tour", "purchase", "consultation", "inspection", "other"]

/-- Schema validation run by `Visit.create` on the fields taken from the request:
`visitDate`, `visitTime` and `numberOfVisitors` are required, the visitor count
obeys `min: 1` and `max: 10`, and a given `purpose` belongs to the enum. -/
def validatesCreate (req : VisitRequest) : Bool :=
  req.visitDate.isSome &&
  (match req.visitTime with
   | some t => t != ""
   | none => false) &&
  (match req.numberOfVisitors with
   | some n => decide (1 ≤ n) && decide (n ≤ 10)
   | none => false) &&
  (match req.purpose with
   | some p => purposeEnum.contains p
   | none => true)

/-- The `_id` given to a new document: one not carried by any stored document. -/
def freshId (store : List Visit) : Nat :=
  (store.map (fun v => v._id)).foldr max 0 + 1

/-- The document built by `Visit.create` with the schema defaults
(`purpose: 'tour'`, `status: 'pending'`, both flags `false`, `createdAt: Date.now`). -/
def newVisit (store : List Visit) (now : Int) (user : Nat) (visitDate : Int)
    (visitTime : String) (numberOfVisitors : Int) (req : VisitRequest) : Visit :=
  { _id := freshId store
    user := user
    visitDate := visitDate
    visitTime := visitTime
    numberOfVisitors := numberOfVisitors
    purpose := req.purpose.getD "tour"
    status := "pending"
    notes := req.notes
    confirmationSent := false
    reminderSent := false
    createdAt := now }

/-- The 500 answer of the `catch` blocks. -/
def serverError : VisitResponse :=
  { code := 500, success := false, message := "Server error", visit := none }

/-- The rejection message of `POST /api/visits`. -/
def rejectionMessage (spotsLeft : Int) : String :=
  "Sorry, only " ++ toString spotsLeft ++ " spots available on this date"

/-- The comparison `availability.spotsLeft < numberOfVisitors`; with
`numberOfVisitors` undefined it is `false`. -/
def spotsBelow (spotsLeft : Int) (numberOfVisitors : Option Int) : Bool :=
  match numberOfVisitors with
  | some n => decide (spotsLeft < n)
  | none => false

/-- Handler of `POST /api/visits` (`scheduleVisit`) for the authenticated `user` at
time `now`: the answer and the store afterwards. -/
def scheduleVisit (env : Env) (now : Int) (user : Nat) (req : VisitRequest)
    (store : List Visit) : VisitResponse × List Visit :=
  match req.visitDate with
  | none => (serverError, store)
  | some visitDate =>
    let availability := checkAvailability env store visitDate
    if !availability.available || spotsBelow availability.spotsLeft req.numberOfVisitors then
      ({ code := 400, success := false
         message := rejectionMessage availability.spotsLeft, visit := none }, store)
    else
      match req.visitTime, req.numberOfVisitors with
      | some visitTime, some numberOfVisitors =>
        if validatesCreate req then
          let visit := newVisit store now user visitDate visitTime numberOfVisitors req
          ({ code := 201, success := true
             message := "Visit scheduled successfully", visit := some visit },
           store ++ [visit])
        else (serverError, store)
      | _, _ => (serverError, store)

/-- `Visit.findById`. -/
def findById (store : List Visit) (id : Nat) : Option Visit :=
  store.find? (fun v => v._id == id)

/-- Writing a changed status back to the document with the given `_id`
(`visit.save()` after `visit.status = ...`, and the `$set` of `findByIdAndUpdate`). -/
def setStatus (id : Nat) (status : String) : List Visit → List Visit
  | [] => []
  | v :: rest =>
    if v._id == id then { v with status := status } :: rest
    else v :: setStatus id status rest

/-- Handler of `PUT /api/visits/:id/cancel` (`cancelVisit`). -/
def cancelVisit (id : Nat) (requester : Nat) (store : List Visit) :
    VisitResponse × List Visit :=
  match findById store id with
  | none => ({ code := 404, success := false, message := "Visit not found", visit := none },
             store)
  | some visit =>
    if visit.user != requester then
      ({ code := 403, success := false, message := "Not authorized", visit := none }, store)
    else
      ({ code := 200, success := true, message := "Visit cancelled successfully"
         visit := some { visit with status := "cancelled" } },
       setStatus id "cancelled" store)

/-- Handler of `PUT /api/admin/visits/:id/status`:
`Visit.findByIdAndUpdate(id, { status }, { new: true })`. -/
def updateVisitStatus (id : Nat) (status : String) (store : List Visit) :
    VisitResponse × List Visit :=
  match findById store id with
  | none => ({ code := 404, success := false, message := "Visit not found", visit := none },
             store)
  | some visit =>
    ({ code := 200, success := true, message := "Visit status updated"
       visit := some { visit with status := status } },
     setStatus id status store)

/-- One request of the sequential booking interface. -/
inductive VisitOp where
  | schedule (now : Int) (user : Nat) (req : VisitRequest)
  | cancel (id : Nat) (requester : Nat)
  | adminStatus (id : Nat) (status : String)
deriving DecidableEq, Repr

/-- The store after one request. -/
def applyOp (env : Env) (store : List Visit) : VisitOp → List Visit
  | .schedule now user req => (scheduleVisit env now user req store).2
  | .cancel id requester => (cancelVisit id requester store).2
  | .adminStatus id status => (updateVisitStatus id status store).2

/-- The store after a series of requests handled one after the other. -/
def runOps (env : Env) (ops : List VisitOp) (store : List Visit) : List Visit :=
  ops.foldl (applyOp env) store

/-- An operator update that moves a booking which does not count (completed,
cancelled, or any other status) to a status that counts (pending or confirmed). -/
def reactivates (store : List Visit) : VisitOp → Bool
  | .adminStatus id status =>
    statusCounts status &&
    (match findById store id with
     | some v => !statusCounts v.status
     | none => false)
  | _ => false

/-- No request of the series, at the store it meets, is a reactivating update. -/
def noReactivation (env : Env) : List VisitOp → List Visit → Bool
  | [], _ => true
  | op :: ops, store => !reactivates store op && noReactivation env ops (applyOp env store op)

/-! ## Phone normalisation: `services/mpesa.js` -/

/-- The characters matched by the regular expression class `\s`. -/
def isJsWhitespace (c : Char) : Bool :=
  let n := c.toNat
  n == 0x09 || n == 0x0A || n == 0x0B || n == 0x0C || n == 0x0D || n == 0x20 ||
  n == 0xA0 || n == 0x1680 || (decide (0x2000 ≤ n) && decide (n ≤ 0x200A)) ||
  n == 0x2028 || n == 0x2029 || n == 0x202F || n == 0x205F || n == 0x3000 || n == 0xFEFF

/-- `phone.replace(/\s/g, '')`. -/
def stripWhitespace (phone : String) : String :=
  String.mk (phone.data.filter (fun c => !isJsWhitespace c))

/-- `s.startsWith(p)`. -/
def startsWith (s p : String) : Bool :=
  p.data.isPrefixOf s.data

/-- `s.substring(1)`. -/
def substring1 (s : String) : String :=
  String.mk (s.data.drop 1)

/-- `MPesaService.formatPhoneNumber`. -/
def formatPhoneNumber (phone : String) : String :=
  let formatted := stripWhitespace phone
  if startsWith formatted "0" then
    "254" ++ substring1 formatted
  else if startsWith formatted "+254" then
    substring1 formatted
  else if !startsWith formatted "254" then
    "254" ++ formatted
  else
    formatted

/-! ## Orders, products and the payment routes: `routes/payments.js` -/

/-- A scalar JSON value, as carried by the `Value` of a callback metadata item
(numbers are integers here). -/
inductive JsonValue where
  | num (n : Int)
  | str (s : String)
deriving DecidableEq, Repr

/-- `value.toString()`. -/
def valueToString : JsonValue → String
  | .num n => toString n
  | .str s => s

/-- A line item of an order: the product it references, the ordered quantity and
the price at the time of the order. -/
structure OrderItem where
  product : Nat
  quantity : Int
  price : Rat
deriving DecidableEq, Repr

/-- An entry of `statusHistory`. -/
structure StatusEntry where
  status : String
  note : String
deriving DecidableEq, Repr

/-- Modelled from the spec: the `Order` document. `models/Order.js` is not among
the sources; the fields are those of the specification's data model, under the
names the routes read and write. Amounts are rationals. -/
structure Order where
  _id : Nat
  user : Nat
  orderNumber : String
  items : List OrderItem
  totalAmount : Rat
  paymentStatus : String
  orderStatus : String
  statusHistory : List StatusEntry
  phoneNumber : Option String
  mpesaReceiptNumber : Option JsonValue
  mpesaTransactionId : Option String
  createdAt : Int
deriving DecidableEq, Repr

/-- A document of the `Product` collection (`models/Product.js`), with the fields
the payment code and the specification name; the others are never written. -/
structure Product where
  _id : Nat
  name : String
  category : String
  price : Rat
  quantity : Int
  isAvailable : Bool
  sold : Int
deriving DecidableEq, Repr

/-- The two collections the payment routes work on. -/
structure PayState where
  orders : List Order
  products : List Product
deriving DecidableEq, Repr

/-- One element of `CallbackMetadata.Item`. -/
structure MetadataItem where
  Name : String
  Value : Option JsonValue
deriving DecidableEq, Repr

/-- The `CallbackMetadata` object of a callback. -/
structure Metadata where
  Item : Option (List MetadataItem)
deriving DecidableEq, Repr

/-- The `stkCallback` object of a callback; an absent field is `none`. -/
structure StkCallback where
  MerchantRequestID : Option String
  CheckoutRequestID : Option String
  ResultCode : Option Int
  ResultDesc : Option String
  CallbackMetadata : Option Metadata
deriving DecidableEq, Repr

/-- The `Body` object of a callback. -/
structure CallbackBody where
  stkCallback : Option StkCallback
deriving DecidableEq, Repr

/-- The parsed body (`req.body`) of `POST /api/payments/callback`. -/
structure CallbackRequest where
  Body : Option CallbackBody
deriving DecidableEq, Repr

/-- The JSON object answered by the callback route. -/
inductive CallbackAnswer where
  | ack (ResultCode : Int) (ResultDesc : String)
  | message (message : String)
deriving DecidableEq, Repr

/-- The answer of the callback route: HTTP status and JSON object. -/
structure CallbackResponse where
  code : Nat
  body : CallbackAnswer
deriving DecidableEq, Repr

/-- The store operation of the callback handler that rejects, if any: the
`findOne`, the `findByIdAndUpdate` of the line item at index `k`, or the
`order.save()`. -/
inductive StoreFault where
  | none
  | findOne
  | productUpdate (k : Nat)
  | save
deriving DecidableEq, Repr

/-- `metadata.find(item => item.Name === name)?.Value`. -/
def findValue (metadata : List MetadataItem) (name : String) : Option JsonValue :=
  match metadata.find? (fun item => item.Name == name) with
  | some item => item.Value
  | none => none

/-- The filter `{ phoneNumber: phone, paymentStatus: 'pending' }`. -/
def matchesPending (phone : String) (o : Order) : Bool :=
  o.phoneNumber == some phone && o.paymentStatus == "pending"

/-- The later-created of two documents, the first one on a tie. -/
def newer (best : Option Order) (o : Order) : Option Order :=
  match best with
  | none => some o
  | some b => if b.createdAt < o.createdAt then some o else some b

/-- `Order.findOne({ phoneNumber: phone, paymentStatus: 'pending' }).sort({ createdAt: -1 })`. -/
def findPendingByPhone (orders : List Order) (phone : String) : Option Order :=
  (orders.filter (matchesPending phone)).foldl newer none

/-- `Product.findByIdAndUpdate(id, { $inc: { quantity: -q, sold: q } })`. -/
def incProduct (id : Nat) (q : Int) : List Product → List Product
  | [] => []
  | p :: rest =>
    if p._id == id then { p with quantity := p.quantity + -q, sold := p.sold + q } :: rest
    else p :: incProduct id q rest

/-- The loop `for (const item of order.items) await Product.findByIdAndUpdate(...)`. -/
def applyItems (items : List OrderItem) (products : List Product) : List Product :=
  items.foldl (fun ps item => incProduct item.product item.quantity ps) products

/-- `order.save()`: the stored document with the order's `_id` is replaced. -/
def saveOrder (order : Order) : List Order → List Order
  | [] => []
  | o :: rest =>
    if o._id == order._id then order :: rest
    else o :: saveOrder order rest

/-- The assignments made to the matched order by the callback handler. -/
def markPaid (order : Order) (mpesaReceiptNumber : Option JsonValue)
    (CheckoutRequestID : Option String) : Order :=
  { order with
    paymentStatus := "completed"
    mpesaReceiptNumber := mpesaReceiptNumber
    mpesaTransactionId := CheckoutRequestID
    orderStatus := "processing"
    statusHistory := order.statusHistory ++
      [{ status := "processing", note := "Payment received successfully" }] }

/-- The answer `res.status(400).json({ message: 'Invalid callback data' })`. -/
def invalidCallback : CallbackResponse :=
  { code := 400, body := .message "Invalid callback data" }

/-- The answer `res.json({ ResultCode: 0, ResultDesc: 'Success' })`. -/
def successAck : CallbackResponse :=
  { code := 200, body := .ack 0 "Success" }

/-- The answer of the `catch` block, `res.json({ ResultCode: 1, ResultDesc: 'Failed' })`. -/
def failedAck : CallbackResponse :=
  { code := 200, body := .ack 1 "Failed" }

/-- Handler of `POST /api/payments/callback` (`handleCallback`). A `TypeError`
(absent `CallbackMetadata`, absent `Item`, absent `PhoneNumber` value) and a
rejected store operation both end in the `catch` block, with the writes made
before them kept. The values read for `Amount` and `TransactionDate` are bound
and, as in the source, never used. -/
def handleCallback (fault : StoreFault) (req : CallbackRequest) (s : PayState) :
    CallbackResponse × PayState :=
  match req.Body with
  | none => (invalidCallback, s)
  | some Body =>
    match Body.stkCallback with
    | none => (invalidCallback, s)
    | some stkCallback =>
      if stkCallback.ResultCode = some 0 then
        match stkCallback.CallbackMetadata with
        | none => (failedAck, s)
        | some callbackMetadata =>
          match callbackMetadata.Item with
          | none => (failedAck, s)
          | some metadata =>
            let _amount := findValue metadata "Amount"
            let mpesaReceiptNumber := findValue metadata "MpesaReceiptNumber"
            let _transactionDate := findValue metadata "TransactionDate"
            match findValue metadata "PhoneNumber" with
            | none => (failedAck, s)
            | some phoneNumber =>
              if fault = .findOne then (failedAck, s)
              else
                match findPendingByPhone s.orders
                    (formatPhoneNumber (valueToString phoneNumber)) with
                | none => (successAck, s)
                | some order =>
                  let paid := markPaid order mpesaReceiptNumber stkCallback.CheckoutRequestID
                  match fault with
                  | .productUpdate k =>
                    if k < order.items.length then
                      (failedAck, { s with products := applyItems (order.items.take k) s.products })
                    else
                      (successAck, { orders := saveOrder paid s.orders
                                     products := applyItems order.items s.products })
                  | .save =>
                    (failedAck, { s with products := applyItems order.items s.products })
                  | _ =>
                    (successAck, { orders := saveOrder paid s.orders
                                   products := applyItems order.items s.products })
      else (successAck, s)

/-- Body of `POST /api/payments/initiate`. -/
structure InitiateRequest where
  orderId : Option Nat
  phoneNumber : Option String
deriving DecidableEq, Repr

/-- The answer of `POST /api/payments/initiate`. -/
structure InitiateResponse where
  code : Nat
  success : Bool
  message : String
  checkoutRequestId : Option String
  merchantRequestId : Option String
deriving DecidableEq, Repr

/-- The settings and clock read by `MPesaService`: short code, pass key,
`MPESA_CALLBACK_URL`, the `getTimestamp()` string and the base64 encoder. -/
structure MpesaConfig where
  shortcode : String
  passkey : String
  callbackUrl : String
  timestamp : String
  base64 : String → String

/-- The JSON body posted to `/mpesa/stkpush/v1/processrequest`. -/
structure StkPayload where
  BusinessShortCode : String
  Password : String
  Timestamp : String
  TransactionType : String
  Amount : Int
  PartyA : String
  PartyB : String
  PhoneNumber : String
  CallBackURL : String
  AccountReference : String
  TransactionDesc : String
deriving DecidableEq, Repr

/-- What the gateway does with a push request: it accepts and returns its
correlation identifiers, or the request fails with `error.response?.data?.errorMessage`. -/
inductive PushReply where
  | accepted (CheckoutRequestID : Option String) (MerchantRequestID : Option String)
  | rejected (errorMessage : Option String)
deriving DecidableEq, Repr

/-- The gateway as seen by the service: the access token it issues (`none` when
the token request fails) and its reply to a push carrying a token. -/
structure Gateway where
  token : Option String
  push : String → StkPayload → PushReply

/-- A request sent to the gateway. -/
inductive GatewayCall where
  | token
  | stkPush (accessToken : String) (payload : StkPayload)
deriving DecidableEq, Repr

/-- The object returned by `initiateSTKPush`. -/
structure StkResult where
  success : Bool
  CheckoutRequestID : Option String
  MerchantRequestID : Option String
  message : Option String
deriving DecidableEq, Repr

/-- `x || 'Payment initiation failed'` for an optional string. -/
def orInitiationFailed (x : Option String) : String :=
  match x with
  | some m => if m = "" then "Payment initiation failed" else m
  | none => "Payment initiation failed"

/-- The `payload` object built by `initiateSTKPush`. -/
def stkPayload (cfg : MpesaConfig) (phone : String) (amount : Rat)
    (accountReference : String) (transactionDesc : String) : StkPayload :=
  let formattedPhone := formatPhoneNumber phone
  { BusinessShortCode := cfg.shortcode
    Password := cfg.base64 (cfg.shortcode ++ cfg.passkey ++ cfg.timestamp)
    Timestamp := cfg.timestamp
    TransactionType := "CustomerPayBillOnline"
    Amount := Rat.ceil amount
    PartyA := formattedPhone
    PartyB := cfg.shortcode
    PhoneNumber := formattedPhone
    CallBackURL := cfg.callbackUrl
    AccountReference := accountReference
    TransactionDesc := transactionDesc }

/-- `MPesaService.initiateSTKPush`: the result object and the requests sent. -/
def initiateSTKPush (cfg : MpesaConfig) (gw : Gateway) (phone : String) (amount : Rat)
    (accountReference : String) (transactionDesc : String) : StkResult × List GatewayCall :=
  match gw.token with
  | none =>
    ({ success := false, CheckoutRequestID := none, MerchantRequestID := none
       message := some (orInitiationFailed none) }, [.token])
  | some accessToken =>
    let payload := stkPayload cfg phone amount accountReference transactionDesc
    match gw.push accessToken payload with
    | .accepted checkoutRequestID merchantRequestID =>
      ({ success := true, CheckoutRequestID := checkoutRequestID
         MerchantRequestID := merchantRequestID, message := none },
       [.token, .stkPush accessToken payload])
    | .rejected errorMessage =>
      ({ success := false, CheckoutRequestID := none, MerchantRequestID := none
         message := some (orInitiationFailed errorMessage) },
       [.token, .stkPush accessToken payload])

/-- `Order.findById`. -/
def findOrderById (orders : List Order) (id : Nat) : Option Order :=
  orders.find? (fun o => o._id == id)

/-- An answer of the initiate route that carries no identifiers. -/
def initiateRejection (code : Nat) (message : String) : InitiateResponse :=
  { code := code, success := false, message := message
    checkoutRequestId := none, merchantRequestId := none }

/-- Handler of `POST /api/payments/initiate` (`initiatePayment`) for the
authenticated `requester`: the answer, the orders afterwards and the requests
sent to the gateway. -/
def initiatePayment (cfg : MpesaConfig) (gw : Gateway) (requester : Nat)
    (req : InitiateRequest) (orders : List Order) :
    InitiateResponse × List Order × List GatewayCall :=
  match req.orderId, req.phoneNumber with
  | some orderId, some phoneNumber =>
    if phoneNumber = "" then
      (initiateRejection 400 "Order ID and phone number are required", orders, [])
    else
      match findOrderById orders orderId with
      | none => (initiateRejection 404 "Order not found", orders, [])
      | some order =>
        if order.user != requester then
          (initiateRejection 403 "Not authorized", orders, [])
        else if order.paymentStatus = "completed" then
          (initiateRejection 400 "Order already paid", orders, [])
        else
          let result := initiateSTKPush cfg gw phoneNumber order.totalAmount order.orderNumber
            ("Payment for order " ++ order.orderNumber)
          if result.1.success then
            ({ code := 200, success := true
               message := "Payment initiated. Please check your phone."
               checkoutRequestId := result.1.CheckoutRequestID
               merchantRequestId := result.1.MerchantRequestID },
             saveOrder { order with phoneNumber := some (formatPhoneNumber phoneNumber) } orders,
             result.2)
          else
            (initiateRejection 400 (orInitiationFailed result.1.message), orders, result.2)
  | _, _ => (initiateRejection 400 "Order ID and phone number are required", orders, [])

/-- Handler of `PUT /api/admin/orders/:id/status`; the answer is its HTTP status. -/
def updateOrderStatus (id : Nat) (status : String) (note : Option String)
    (orders : List Order) : Nat × List Order :=
  match findOrderById orders id with
  | none => (404, orders)
  | some order =>
    let entryNote :=
      match note with
      | some n => if n = "" then "Status updated to " ++ status ++ " by admin" else n
      | none => "Status updated to " ++ status ++ " by admin"
    (200, saveOrder { order with
                      orderStatus := status
                      statusHistory := order.statusHistory ++
                        [{ status := status, note := entryNote }] } orders)

/-- One request of the sequential payment interface; a callback comes with the
store operation that rejects while it is handled, if any. -/
inductive PayOp where
  | initiate (cfg : MpesaConfig) (gw : Gateway) (requester : Nat) (req : InitiateRequest)
  | callback (fault : StoreFault) (req : CallbackRequest)
  | adminStatus (id : Nat) (status : String) (note : Option String)

/-- The state after one request. -/
def payStep (s : PayState) : PayOp → PayState
  | .initiate cfg gw requester req =>
    { s with orders := (initiatePayment cfg gw requester req s.orders).2.1 }
  | .callback fault req => (handleCallback fault req s).2
  | .adminStatus id status note =>
    { s with orders := (updateOrderStatus id status note s.orders).2 }

/-- The state after a series of requests handled one after the other. -/
def payRun (ops : List PayOp) (s : PayState) : PayState :=
  ops.foldl payStep s

/-! ## Vaccination reference: `routes/vaccinations.js` -/

/-- An entry of the vaccination schedule. -/
structure VaccinationEntry where
  day : Int
  vaccine : String
  method : String
  note : String
deriving DecidableEq, Repr

/-- The constant `vaccinationSchedule`. -/
def vaccinationSchedule : List VaccinationEntry :=
  [ { day := 1, vaccine := "Marek's Disease", method := "Subcutaneous injection"
      note := "Given at hatchery" },
    { day := 7, vaccine := "Newcastle Disease (ND) + Infectious Bronchitis (IB)"
      method := "Eye drop", note := "Important for respiratory protection" },
    { day := 14, vaccine := "Gumboro (IBD)", method := "Drinking water", note := "First dose" },
    { day := 21, vaccine := "Newcastle Disease (ND) Booster", method := "Drinking water"
      note := "Booster dose" },
    { day := 28, vaccine := "Gumboro (IBD) Booster", method := "Drinking water"
      note := "Second dose" },
    { day := 42, vaccine := "Fowl Pox", method := "Wing web stab", note := "For layers only" },
    { day := 56, vaccine := "Newcastle Disease (ND)", method := "Intramuscular injection"
      note := "For layers - 8 weeks" },
    { day := 112, vaccine := "Fowl Typhoid", method := "Intramuscular injection"
      note := "For layers - 16 weeks" },
    { day := 119, vaccine := "Newcastle Disease (ND) + IB + EDS"
      method := "Intramuscular injection", note := "For layers - 17 weeks, before lay" } ]

/-- The answer of `GET /api/vaccinations/schedule`. -/
structure ScheduleResponse where
  code : Nat
  success : Bool
  chickType : String
  schedule : List VaccinationEntry
deriving DecidableEq, Repr

/-- Handler of `GET /api/vaccinations/schedule`; the argument is the `chickType`
query parameter, `none` when absent. -/
def getSchedule (queryChickType : Option String) : ScheduleResponse :=
  let chickType := queryChickType.getD "layer"
  let schedule :=
    if chickType = "broiler" then vaccinationSchedule.filter (fun v => decide (v.day ≤ 42))
    else vaccinationSchedule
  { code := 200, success := true, chickType := chickType, schedule := schedule }

/-- The value of a character as a digit of `parseInt`. -/
def digitValue (c : Char) : Option Nat :=
  let n := c.toNat
  if 48 ≤ n ∧ n ≤ 57 then some (n - 48)
  else if 97 ≤ n ∧ n ≤ 122 then some (n - 87)
  else if 65 ≤ n ∧ n ≤ 90 then some (n - 55)
  else none

/-- The values of the longest prefix made of digits of the radix. -/
def radixDigits (radix : Nat) : List Char → List Nat
  | [] => []
  | c :: cs =>
    match digitValue c with
    | some d => if d < radix then d :: radixDigits radix cs else []
    | none => []

/-- A number that `parseInt` returns: an integer-valued double, an infinity or
`NaN`. A zero stands for both `0` and `-0`, which compare and serialise alike. -/
inductive JsNumber where
  | nan
  | finite (value : Int)
  | posInf
  | negInf
deriving DecidableEq, Repr

/-- The number of binary digits of `n` beyond the 53 that the significand of a
double holds; the first argument bounds the halvings and `n` itself is enough. -/
def excessBits : Nat → Nat → Nat
  | 0, _ => 0
  | fuel + 1, n => if n < 2 ^ 53 then 0 else excessBits fuel (n / 2) + 1

/-- The double nearest to the natural number `n`, ties going to the even
significand: the low `e` binary digits are rounded away; `none` is `Infinity`,
reached beyond the largest double `(2 ^ 53 - 1) * 2 ^ 971`. -/
def roundToDouble (n : Nat) : Option Nat :=
  let e := excessBits n n
  let q := n / 2 ^ e
  let r := n % 2 ^ e
  let m := if 2 ^ e < 2 * r ∨ (2 * r = 2 ^ e ∧ q % 2 = 1) then q + 1 else q
  if e < 971 ∨ (e = 971 ∧ m < 2 ^ 53) then some (m * 2 ^ e) else none

/-- The text after an optional leading sign. -/
def stripSign : List Char → List Char
  | '-' :: rest => rest
  | '+' :: rest => rest
  | cs => cs

/-- The radix `parseInt` reads when none is given: 16 after `0x` / `0X`, else 10. -/
def radixOf : List Char → Nat
  | '0' :: 'x' :: _ => 16
  | '0' :: 'X' :: _ => 16
  | _ => 10

/-- `parseInt(s)` without a radix: leading white space is skipped, a sign and a
`0x` / `0X` mark are read, then the longest run of digits, whose value is
rounded to a double. -/
def parseInt (s : String) : JsNumber :=
  let trimmed := s.data.dropWhile isJsWhitespace
  let negative := trimmed.head? == some '-'
  let unsigned := stripSign trimmed
  let radix := radixOf unsigned
  let body := if radix = 16 then unsigned.drop 2 else unsigned
  let digits := radixDigits radix body
  if digits.isEmpty then .nan
  else
    match roundToDouble (digits.foldl (fun acc d => acc * radix + d) 0) with
    | some v => .finite (if negative then -(v : Int) else v)
    | none => if negative then .negInf else .posInf

/-- The query of `GET /api/vaccinations/upcoming`. -/
structure UpcomingQuery where
  chickAge : Option String
  chickType : Option String
deriving DecidableEq, Repr

/-- The answer of `GET /api/vaccinations/upcoming`: a rejection, or the age, the
chick type and the two lists. -/
inductive UpcomingResponse where
  | rejected (code : Nat) (message : String)
  | ok (currentAge : JsNumber) (chickType : String)
      (upcomingVaccinations : List VaccinationEntry)
      (recentVaccinations : List VaccinationEntry)
deriving DecidableEq, Repr

/-- `day > age`, false when the age is `NaN`. -/
def dayAfter (age : JsNumber) (day : Int) : Bool :=
  match age with
  | .nan => false
  | .finite a => decide (day > a)
  | .posInf => false
  | .negInf => true

/-- `day <= age`, false when the age is `NaN`. -/
def dayUpTo (age : JsNumber) (day : Int) : Bool :=
  match age with
  | .nan => false
  | .finite a => decide (day ≤ a)
  | .posInf => true
  | .negInf => false

/-- `xs.slice(-2)`. -/
def sliceLast2 (xs : List VaccinationEntry) : List VaccinationEntry :=
  xs.drop (xs.length - 2)

/-- Handler of `GET /api/vaccinations/upcoming`. -/
def getUpcoming (query : UpcomingQuery) : UpcomingResponse :=
  let chickType := query.chickType.getD "layer"
  match query.chickAge with
  | none => .rejected 400 "Please provide chick age in days"
  | some chickAge =>
    if chickAge = "" then .rejected 400 "Please provide chick age in days"
    else
      let age := parseInt chickAge
      let schedule :=
        if chickType = "broiler" then vaccinationSchedule.filter (fun v => decide (v.day ≤ 42))
        else vaccinationSchedule
      let upcoming := schedule.filter (fun v => dayAfter age v.day)
      let recent := sliceLast2 (schedule.filter (fun v => dayUpTo age v.day))
      .ok age chickType upcoming recent

/-! ## Identifiers as received: the cast to `ObjectId` -/

/-- The cast that `findById` applies to the identifier it is given: `some` of the
`ObjectId` that the string writes, `none` when the cast throws. The cast is
the database driver's; the handlers are modelled for every cast. -/
abbrev IdCast := String → Option Nat

/-- A cast for the scenarios: a string of 24 hexadecimal digits is the
`ObjectId` of that value, every other string fails. -/
def hexObjectId : IdCast := fun s =>
  if s.data.length = 24 ∧ (radixDigits 16 s.data).length = 24 then
    some ((radixDigits 16 s.data).foldl (fun acc d => acc * 16 + d) 0)
  else none

/-- Handler of `PUT /api/visits/:id/cancel` on the route parameter as received:
`Visit.findById(req.params.id)` throws when the cast fails, and the `catch`
answers 500. -/
def cancelVisitRoute (cast : IdCast) (rawId : String) (requester : Nat)
    (store : List Visit) : VisitResponse × List Visit :=
  match cast rawId with
  | none => (serverError, store)
  | some id => cancelVisit id requester store

/-- Body of `POST /api/payments/initiate` as received, with string fields. -/
structure InitiateBody where
  orderId : Option String
  phoneNumber : Option String
deriving DecidableEq, Repr

/-- Handler of `POST /api/payments/initiate` on the body as received: the guard
`!orderId || !phoneNumber` comes first, then `Order.findById(orderId)` throws
when the cast fails, and the `catch` answers 500. -/
def initiatePaymentRoute (cast : IdCast) (cfg : MpesaConfig) (gw : Gateway) (requester : Nat)
    (body : InitiateBody) (orders : List Order) :
    InitiateResponse × List Order × List GatewayCall :=
  match body.orderId, body.phoneNumber with
  | some rawId, some phoneNumber =>
    if rawId = "" ∨ phoneNumber = "" then
      (initiateRejection 400 "Order ID and phone number are required", orders, [])
    else
      match cast rawId with
      | none => (initiateRejection 500 "Server error", orders, [])
      | some id =>
        initiatePayment cfg gw requester { orderId := some id, phoneNumber := some phoneNumber }
          orders
  | _, _ => (initiateRejection 400 "Order ID and phone number are required", orders, [])

/-! ## Specification-side notions -/

/-- The calendar day (days since the epoch, local time) of an instant. -/
def calendarDay (env : Env) (t : Int) : Int :=
  (t + env.tzOffsetMs) / msPerDay

/-- The visitor counts the specification sums for a date: those of the bookings
whose `visitDate` falls on the calendar day of `date` and whose status is
pending or confirmed. -/
def activeCountsOn (env : Env) (store : List Visit) (date : Int) : List Int :=
  (store.filter (fun v =>
    decide (calendarDay env v.visitDate = calendarDay env date) &&
    (v.status == "pending" || v.status == "confirmed"))).map (fun v => v.numberOfVisitors)

/-- What a single booking adds to the total of `date`. -/
def countedOn (env : Env) (date : Int) (v : Visit) : Int :=
  if calendarDay env v.visitDate = calendarDay env date ∧ statusCounts v.status = true then
    v.numberOfVisitors
  else 0

/-- The normalisation rule in the words of the specification, over the input with
its whitespace removed: a leading "0" is replaced by the country code; a leading
"+254" loses only the "+"; a number with neither prefix and not already starting
with the country code gets it prepended; a number already starting with the
country code is untouched. -/
def normalizeSpec (phone : String) : String :=
  let s := stripWhitespace phone
  match s.data with
  | '0' :: rest => "254" ++ String.mk rest
  | '+' :: '2' :: '5' :: '4' :: rest => String.mk ('2' :: '5' :: '4' :: rest)
  | '2' :: '5' :: '4' :: _ => s
  | _ => "254" ++ s

/-- A string of decimal digits. -/
def isDigits (d : String) : Bool := d.data.all Char.isDigit

/-- The normalised phone number a callback is matched on: that of a callback with
the envelope, `ResultCode` 0 and a `PhoneNumber` metadata value. -/
def callbackPhone (req : CallbackRequest) : Option String :=
  match req.Body with
  | none => none
  | some body =>
    match body.stkCallback with
    | none => none
    | some cb =>
      if cb.ResultCode = some 0 then
        match cb.CallbackMetadata with
        | none => none
        | some md =>
          match md.Item with
          | none => none
          | some metadata =>
            (findValue metadata "PhoneNumber").map
              (fun v => formatPhoneNumber (valueToString v))
      else none

/-- The order a callback finalizes at a store, if any. -/
def finalizedOrder (req : CallbackRequest) (orders : List Order) : Option Order :=
  match callbackPhone req with
  | none => none
  | some phone => findPendingByPhone orders phone

/-- The total quantity ordered of a product by a list of line items. -/
def orderedQty (items : List OrderItem) (productId : Nat) : Int :=
  ((items.filter (fun item => item.product == productId)).map (fun item => item.quantity)).sum

/-- A product after the line items that reference it are taken out of stock. -/
def settle (items : List OrderItem) (p : Product) : Product :=
  { p with quantity := p.quantity - orderedQty items p._id
           sold := p.sold + orderedQty items p._id }

/-- Whether the handler, having matched the order, reaches `order.save()` and the
save succeeds. -/
def savesOrder (fault : StoreFault) (o : Order) : Bool :=
  match fault with
  | .none => true
  | .findOne => false
  | .productUpdate k => decide (o.items.length ≤ k)
  | .save => false

/-- The line items of the matched order whose stock update is performed. -/
def stockItems (fault : StoreFault) (o : Order) : List OrderItem :=
  match fault with
  | .none => o.items
  | .findOne => []
  | .productUpdate k => o.items.take k
  | .save => o.items

/-- The order a request of the payment interface finalizes (saves as paid) at a
state, if any. -/
def finalizedBy (s : PayState) : PayOp → Option Order
  | .callback fault req =>
    match finalizedOrder req s.orders with
    | some o => if savesOrder fault o then some o else none
    | none => none
  | _ => none

/-- The line items a request of the payment interface takes out of stock at a state. -/
def stockTakenBy (s : PayState) : PayOp → List OrderItem
  | .callback fault req =>
    match finalizedOrder req s.orders with
    | some o => stockItems fault o
    | none => []
  | _ => []

/-- The line items taken out of stock along a series of requests, in order. -/
def stockTakenAlong : List PayOp → PayState → List OrderItem
  | [], _ => []
  | op :: ops, s => stockTakenBy s op ++ stockTakenAlong ops (payStep s op)

/-- No store operation rejects during the series. -/
def faultFree (ops : List PayOp) : Bool :=
  ops.all (fun op =>
    match op with
    | .callback fault _ => fault == .none
    | _ => true)

/-- The status of the history entry a request appends to the order with the given
id, if it appends one: 'processing' for the order a callback finalizes, the
given status for the order an operator update addresses. -/
def historyEntryFor (s : PayState) (op : PayOp) (id : Nat) : Option String :=
  match op with
  | .initiate _ _ _ _ => none
  | .callback fault req =>
    match finalizedBy s (.callback fault req) with
    | some o => if o._id = id then some "processing" else none
    | none => none
  | .adminStatus oid status _ => if oid = id then some status else none

/-- The orders finalized along a series of requests, in order of finalization. -/
def finalizedAlong : List PayOp → PayState → List Order
  | [], _ => []
  | op :: ops, s => (finalizedBy s op).toList ++ finalizedAlong ops (payStep s op)

/-- The payment status stored for an order id. -/
def paymentStatusOf (orders : List Order) (id : Nat) : Option String :=
  (findOrderById orders id).map (fun o => o.paymentStatus)

/-- Two metadata lists that differ at most in the values of their `Amount` and
`TransactionDate` items. -/
def sameButAmount : List MetadataItem → List MetadataItem → Bool
  | [], [] => true
  | a :: as, b :: bs =>
    a.Name == b.Name &&
    (a.Name == "Amount" || a.Name == "TransactionDate" || a.Value == b.Value) &&
    sameButAmount as bs
  | _, _ => false

/-- The callback `cb` carrying the metadata item list `metadata`. -/
def withMetadata (cb : StkCallback) (metadata : List MetadataItem) : CallbackRequest :=
  { Body := some
      { stkCallback := some
          ({ cb with CallbackMetadata := some { Item := some metadata } } : StkCallback) } }

/-- An integer that a double holds exactly: its magnitude is `m * 2 ^ e` for a
significand `m` below `2 ^ 53` and an exponent `e` of at most 971. -/
def exactDouble (a : Int) : Prop :=
  ∃ m e : Nat, m < 2 ^ 53 ∧ e ≤ 971 ∧ a.natAbs = m * 2 ^ e

/-- The decimal digits of `n`, most significant first, put in front of `ds`: the
values of the characters that `Nat.toDigitsCore 10` writes. -/
def decDigits : Nat → Nat → List Nat → List Nat
  | 0, _, ds => ds
  | fuel + 1, n, ds =>
    if n / 10 = 0 then (n % 10) :: ds else decDigits fuel (n / 10) ((n % 10) :: ds)

/-! ## Invariant and concrete scenarios -/

/-- The booking invariant carried along a series of requests: stored visitor
counts are non-negative and no date is over the cap. -/
def CapInv (env : Env) (store : List Visit) : Prop :=
  (∀ v ∈ store, 0 ≤ v.numberOfVisitors) ∧
  ∀ date, (checkAvailability env store date).totalVisitors ≤ maxVisitors env

/-- The default environment: `MAX_VISITORS_PER_DAY` unset, local time UTC. -/
def defaultEnv : Env := { MAX_VISITORS_PER_DAY := none, tzOffsetMs := 0 }

/-- The instant 2025-06-01T00:00:00Z. -/
def june1 : Int := 1748736000000

/-- A request for `n` visitors on 2025-06-01 at 10:00. -/
def requestFor (n : Int) : VisitRequest :=
  { visitDate := some june1, visitTime := some "10:00", numberOfVisitors := some n
    purpose := some "tour", notes := none }

/-- A series that fills 2025-06-01 after a cancellation and then has the operator
confirm the cancelled booking again. -/
def reactivationOps : List VisitOp :=
  [ .schedule 0 1 (requestFor 10), .cancel 1 1, .schedule 0 2 (requestFor 10),
    .schedule 0 3 (requestFor 10), .adminStatus 1 "confirmed" ]

/-- A stored booking of user 7 on 2025-06-01 with the given id, count and status. -/
def bookingOn1June (id : Nat) (n : Int) (status : String) : Visit :=
  { _id := id, user := 7, visitDate := june1, visitTime := "10:00", numberOfVisitors := n
    purpose := "tour", status := status, notes := none, confirmationSent := false
    reminderSent := false, createdAt := 0 }

/-- Three pending bookings on 2025-06-01 with 5, 6 and 4 visitors. -/
def scenarioStore : List Visit :=
  [bookingOn1June 1 5 "pending", bookingOn1June 2 6 "pending", bookingOn1June 3 4 "pending"]

/-- An order of user 7 with the given id, phone, payment status, creation time and
a single line item of `qty` units of product 1. -/
def sampleOrder (id : Nat) (phone : Option String) (paymentStatus : String)
    (createdAt : Int) (qty : Int) : Order :=
  { _id := id, user := 7, orderNumber := "ORD-1", items := [{ product := 1, quantity := qty, price := 100 }]
    totalAmount := 200, paymentStatus := paymentStatus, orderStatus := "pending"
    statusHistory := [], phoneNumber := phone, mpesaReceiptNumber := none
    mpesaTransactionId := none, createdAt := createdAt }

/-- A product with the given id, stock and sold counter. -/
def sampleProduct (id : Nat) (quantity sold : Int) : Product :=
  { _id := id, name := "Kienyeji chick", category := "chick", price := 100
    quantity := quantity, isAvailable := true, sold := sold }

/-- The metadata of a success callback for phone 254712345678. -/
def sampleMetadata : List MetadataItem :=
  [ { Name := "Amount", Value := some (.num 200) },
    { Name := "MpesaReceiptNumber", Value := some (.str "NLJ7RT61SV") },
    { Name := "TransactionDate", Value := some (.num 20250601101010) },
    { Name := "PhoneNumber", Value := some (.num 254712345678) } ]

/-- The `stkCallback` of a callback with the given result code and the sample metadata. -/
def sampleStk (resultCode : Int) : StkCallback :=
  { MerchantRequestID := some "29115-34620561-1", CheckoutRequestID := some "ws_CO_191220191020363925"
    ResultCode := some resultCode, ResultDesc := some "The service request is processed successfully."
    CallbackMetadata := some { Item := some sampleMetadata } }

/-- A well-formed callback with the given result code. -/
def sampleCallback (resultCode : Int) : CallbackRequest :=
  { Body := some { stkCallback := some (sampleStk resultCode) } }

/-- One pending order for 254712345678 (2 units), one completed order for the same
phone and one pending order for another phone; product 1 has 10 in stock. -/
def payScenario : PayState :=
  { orders := [ sampleOrder 1 (some "254712345678") "completed" 30 1,
                sampleOrder 2 (some "254712345678") "pending" 20 2,
                sampleOrder 3 (some "254700000000") "pending" 40 4 ]
    products := [sampleProduct 1 10 0, sampleProduct 2 5 0] }

/-- Two pending orders for 254712345678 (2 and 3 units); product 1 has 10 in stock. -/
def twoPendingScenario : PayState :=
  { orders := [ sampleOrder 1 (some "254712345678") "pending" 10 2,
                sampleOrder 2 (some "254712345678") "pending" 20 3 ]
    products := [sampleProduct 1 10 0] }

/-- Sample service settings; the encoder is left as the identity. -/
def sampleConfig : MpesaConfig :=
  { shortcode := "174379", passkey := "passkey", callbackUrl := "https://example.org/callback"
    timestamp := "20250601101010", base64 := fun x => x }

/-- A gateway that issues a token and accepts every push. -/
def acceptingGateway : Gateway :=
  { token := some "token"
    push := fun _ _ => .accepted (some "ws_CO_191220191020363925") (some "29115-34620561-1") }

/-- A request to pay the given order from 0712 345 678. -/
def payRequest (orderId : Nat) : InitiateRequest :=
  { orderId := some orderId, phoneNumber := some "0712 345 678" }

/-- A series on the scenario store: the owner initiates payment of order 2, the
gateway delivers the success callback twice, and the operator ships the order. -/
def paySeries : List PayOp :=
  [ .initiate sampleConfig acceptingGateway 7 (payRequest 2), .callback .none (sampleCallback 0),
    .callback .none (sampleCallback 0), .adminStatus 2 "shipped" none ]

/-- The success callback delivered while `order.save()` rejects, then delivered again. -/
def failedSaveSeries : List PayOp :=
  [ .callback .save (sampleCallback 0), .callback .none (sampleCallback 0) ]

/-- A gateway whose token request fails. -/
def offlineGateway : Gateway :=
  { token := none, push := fun _ _ => .rejected none }

/-- A gateway that issues a token and rejects every push with an error message. -/
def rejectingGateway : Gateway :=
  { token := some "token", push := fun _ _ => .rejected (some "Invalid PhoneNumber") }

/-- The metadata of a success callback of 200 for the given phone number. -/
def metadataFrom (phone : Int) : List MetadataItem :=
  [ { Name := "Amount", Value := some (.num 200) },
    { Name := "MpesaReceiptNumber", Value := some (.str "NLJ7RT61SV") },
    { Name := "TransactionDate", Value := some (.num 20250601101010) },
    { Name := "PhoneNumber", Value := some (.num phone) } ]

/-- A success callback of 200 for the given phone number. -/
def callbackFrom (phone : Int) : CallbackRequest :=
  withMetadata (sampleStk 0) (metadataFrom phone)

/-- A success `stkCallback` whose metadata carries the amount only. -/
def amountOnlyStk : StkCallback :=
  { MerchantRequestID := some "29115-34620561-1", CheckoutRequestID := some "ws_CO_191220191020363925"
    ResultCode := some 0, ResultDesc := some "The service request is processed successfully."
    CallbackMetadata := some { Item := some [{ Name := "Amount", Value := some (.num 200) }] } }

/-- Two pending orders of two units each, from two phones, against a stock of three. -/
def lowStockScenario : PayState :=
  { orders := [ sampleOrder 1 (some "254712345678") "pending" 10 2,
                sampleOrder 2 (some "254700000000") "pending" 20 2 ]
    products := [sampleProduct 1 3 0] }

/-- The sample metadata with another amount and transaction date. -/
def otherAmountMetadata : List MetadataItem :=
  [ { Name := "Amount", Value := some (.num 1) },
    { Name := "MpesaReceiptNumber", Value := some (.str "NLJ7RT61SV") },
    { Name := "TransactionDate", Value := none },
    { Name := "PhoneNumber", Value := some (.num 254712345678) } ]

/-! ## Auxiliary lemmas -/

theorem inDay_iff (env : Env) (date t : Int) :
    (startOfDay env date ≤ t ∧ t ≤ endOfDay env date) ↔
      calendarDay env t = calendarDay env date := by
  unfold endOfDay startOfDay calendarDay msPerDay
  constructor
  · intro h; omega
  · intro h; omega

theorem foldl_visitors (l : List Visit) (acc : Int) :
    l.foldl (fun sum visit => sum + visit.numberOfVisitors) acc =
      acc + (l.map (fun v => v.numberOfVisitors)).sum := by
  induction l generalizing acc with
  | nil => simp
  | cons v l ih => simp [List.foldl_cons, ih, add_assoc]

theorem findForDay_eq (env : Env) (store : List Visit) (date : Int) :
    findForDay env store date =
      store.filter (fun v =>
        decide (calendarDay env v.visitDate = calendarDay env date) &&
        (v.status == "pending" || v.status == "confirmed")) := by
  unfold findForDay statusCounts
  apply List.filter_congr
  intro v _
  have h := inDay_iff env date v.visitDate
  by_cases h1 : calendarDay env v.visitDate = calendarDay env date
  · have h2 := h.mpr h1
    simp [h1, h2.1, h2.2]
  · have h2 : ¬ (startOfDay env date ≤ v.visitDate ∧ v.visitDate ≤ endOfDay env date) :=
      fun hh => h1 (h.mp hh)
    simp only [h1, decide_False, Bool.false_and]
    by_cases h3 : startOfDay env date ≤ v.visitDate
    · have h4 : ¬ v.visitDate ≤ endOfDay env date := fun hh => h2 ⟨h3, hh⟩
      simp [h4]
    · simp [h3]

theorem totalVisitors_eq (env : Env) (store : List Visit) (date : Int) :
    (checkAvailability env store date).totalVisitors = (activeCountsOn env store date).sum := by
  simp [checkAvailability, activeCountsOn, foldl_visitors, findForDay_eq]

theorem totalVisitors_eq_counted (env : Env) (store : List Visit) (date : Int) :
    (checkAvailability env store date).totalVisitors = (store.map (countedOn env date)).sum := by
  rw [totalVisitors_eq]
  unfold activeCountsOn
  induction store with
  | nil => simp
  | cons v l ih =>
    by_cases h : calendarDay env v.visitDate = calendarDay env date ∧ statusCounts v.status = true
    · have h2 := h.2
      unfold statusCounts at h2
      simp [List.filter_cons, countedOn, h, h.1, h2, ih]
    · have hc : countedOn env date v = 0 := by simp [countedOn, h]
      have hf : (decide (calendarDay env v.visitDate = calendarDay env date) &&
          (v.status == "pending" || v.status == "confirmed")) = false := by
        unfold statusCounts at h
        by_cases h1 : calendarDay env v.visitDate = calendarDay env date
        · simp [h1] at h ⊢; exact h
        · simp [h1]
      simp [List.filter_cons, hf, hc, ih]

theorem countedOn_sameDay (env : Env) (d1 d2 : Int) (v : Visit)
    (h : calendarDay env d1 = calendarDay env d2) :
    countedOn env d1 v = countedOn env d2 v := by
  simp [countedOn, h]

theorem total_sameDay (env : Env) (store : List Visit) (d1 d2 : Int)
    (h : calendarDay env d1 = calendarDay env d2) :
    (checkAvailability env store d1).totalVisitors =
      (checkAvailability env store d2).totalVisitors := by
  rw [totalVisitors_eq_counted, totalVisitors_eq_counted]
  congr 1
  apply List.map_congr_left
  intro v _
  exact countedOn_sameDay env d1 d2 v h

theorem total_append (env : Env) (store : List Visit) (v : Visit) (date : Int) :
    (checkAvailability env (store ++ [v]) date).totalVisitors =
      (checkAvailability env store date).totalVisitors + countedOn env date v := by
  simp [totalVisitors_eq_counted]

theorem findById_cons (v : Visit) (rest : List Visit) (id : Nat) :
    findById (v :: rest) id = if v._id = id then some v else findById rest id := by
  by_cases h : v._id = id <;> simp [findById, List.find?_cons, h]

theorem setStatus_split (id : Nat) (status : String) (store : List Visit) (v : Visit)
    (h : findById store id = some v) :
    ∃ pre post, store = pre ++ v :: post ∧
      setStatus id status store = pre ++ { v with status := status } :: post ∧
      ∀ w ∈ pre, w._id ≠ id := by
  induction store with
  | nil => simp [findById] at h
  | cons w rest ih =>
    rw [findById_cons] at h
    by_cases hw : w._id = id
    · simp only [hw, if_true, Option.some.injEq] at h
      subst h
      exact ⟨[], rest, by simp, by simp [setStatus, hw], by simp⟩
    · simp only [hw, if_false] at h
      obtain ⟨pre, post, h1, h2, h3⟩ := ih h
      refine ⟨w :: pre, post, by simp [h1], ?_, ?_⟩
      · simp [setStatus, hw, h2]
      · intro x hx
        rcases List.mem_cons.mp hx with hx | hx
        · subst hx; exact hw
        · exact h3 x hx

theorem setStatus_none (id : Nat) (status : String) (store : List Visit)
    (h : findById store id = none) : setStatus id status store = store := by
  induction store with
  | nil => rfl
  | cons w rest ih =>
    rw [findById_cons] at h
    by_cases hw : w._id = id
    · simp [hw] at h
    · simp only [hw, if_false] at h
      simp [setStatus, hw, ih h]

theorem total_split (env : Env) (pre post : List Visit) (v : Visit) (date : Int) :
    (checkAvailability env (pre ++ v :: post) date).totalVisitors =
      (pre.map (countedOn env date)).sum + countedOn env date v +
        (post.map (countedOn env date)).sum := by
  simp [totalVisitors_eq_counted, add_assoc]

theorem scheduleVisit_cases (env : Env) (now : Int) (user : Nat) (req : VisitRequest)
    (store : List Visit) :
    ((scheduleVisit env now user req store).2 = store ∧
      (scheduleVisit env now user req store).1.code ≠ 201) ∨
    ∃ d t n, req.visitDate = some d ∧ req.visitTime = some t ∧
      req.numberOfVisitors = some n ∧ 1 ≤ n ∧ n ≤ 10 ∧
      (checkAvailability env store d).available = true ∧
      n ≤ (checkAvailability env store d).spotsLeft ∧
      scheduleVisit env now user req store =
        ({ code := 201, success := true, message := "Visit scheduled successfully"
           visit := some (newVisit store now user d t n req) },
         store ++ [newVisit store now user d t n req]) := by
  unfold scheduleVisit
  cases hd : req.visitDate with
  | none => left; simp [serverError]
  | some d =>
    simp only
    by_cases hrej : (!(checkAvailability env store d).available ||
        spotsBelow (checkAvailability env store d).spotsLeft req.numberOfVisitors) = true
    · left; simp [hrej]
    · rw [if_neg hrej]
      cases ht : req.visitTime with
      | none => left; simp [serverError]
      | some t =>
        cases hn : req.numberOfVisitors with
        | none => left; simp [serverError]
        | some n =>
          simp only
          by_cases hv : validatesCreate req = true
          · right
            refine ⟨d, t, n, rfl, rfl, rfl, ?_⟩
            rw [if_pos hv]
            simp only [Bool.not_eq_true, Bool.or_eq_false_iff, Bool.not_eq_false_eq_eq_true,
              hn, spotsBelow, decide_eq_false_iff_not, not_lt] at hrej
            simp only [validatesCreate, hd, ht, hn, Bool.and_eq_true, decide_eq_true_eq] at hv
            exact ⟨hv.1.2.1, hv.1.2.2, hrej.1, hrej.2, rfl⟩
          · left; simp [hv, serverError]

theorem capInv_schedule (env : Env) (now : Int) (user : Nat) (req : VisitRequest)
    (store : List Visit) (h : CapInv env store) :
    CapInv env (scheduleVisit env now user req store).2 := by
  rcases scheduleVisit_cases env now user req store with hsame | ⟨d, t, n, _, _, _, h1, _, hav, hsp, heq⟩
  · rw [hsame.1]; exact h
  · rw [heq]
    constructor
    · intro v hv
      rcases List.mem_append.mp hv with hv | hv
      · exact h.1 v hv
      · simp only [List.mem_singleton] at hv
        subst hv
        simp only [newVisit]; omega
    · intro date
      rw [total_append]
      by_cases hday : calendarDay env d = calendarDay env date
      · have hs : (checkAvailability env store d).spotsLeft =
            maxVisitors env - (checkAvailability env store d).totalVisitors := rfl
        have ht := total_sameDay env store d date hday
        have hc : countedOn env date (newVisit store now user d t n req) = n := by
          simp [countedOn, newVisit, hday, statusCounts]
        rw [hc]; omega
      · have hc : countedOn env date (newVisit store now user d t n req) = 0 := by
          simp [countedOn, newVisit, hday]
        rw [hc]; have := h.2 date; omega

theorem capInv_setStatus (env : Env) (id : Nat) (status : String) (store : List Visit)
    (h : CapInv env store)
    (hre : statusCounts status = true →
      ∀ v, findById store id = some v → statusCounts v.status = true) :
    CapInv env (setStatus id status store) := by
  cases hf : findById store id with
  | none => rw [setStatus_none id status store hf]; exact h
  | some v =>
    obtain ⟨pre, post, h1, h2, _⟩ := setStatus_split id status store v hf
    rw [h2]
    have hvmem : v ∈ store := by rw [h1]; simp
    have hvn := h.1 v hvmem
    constructor
    · intro w hw
      rcases List.mem_append.mp hw with hw | hw
      · exact h.1 w (by rw [h1]; simp [hw])
      · rcases List.mem_cons.mp hw with hw | hw
        · subst hw; exact hvn
        · exact h.1 w (by rw [h1]; simp [hw])
    · intro date
      have hb := h.2 date
      rw [h1, total_split] at hb
      rw [total_split]
      have hle : countedOn env date { v with status := status } ≤ countedOn env date v := by
        by_cases hs : statusCounts status = true
        · have hv := hre hs v hf
          simp [countedOn, hs, hv]
        · have h0 : countedOn env date { v with status := status } = 0 := by
            simp [countedOn, hs]
          rw [h0]
          unfold countedOn
          split <;> omega
      omega

theorem capInv_applyOp (env : Env) (store : List Visit) (op : VisitOp)
    (h : CapInv env store) (hre : reactivates store op = false) :
    CapInv env (applyOp env store op) := by
  cases op with
  | schedule now user req => exact capInv_schedule env now user req store h
  | cancel id requester =>
    simp only [applyOp, cancelVisit]
    cases hf : findById store id with
    | none => exact h
    | some v =>
      simp only
      by_cases hu : (v.user != requester) = true
      · rw [if_pos hu]; exact h
      · rw [if_neg hu]
        exact capInv_setStatus env id "cancelled" store h (by simp [statusCounts])
  | adminStatus id status =>
    simp only [applyOp, updateVisitStatus]
    cases hf : findById store id with
    | none => exact h
    | some v =>
      simp only
      apply capInv_setStatus env id status store h
      intro hs w hw
      rw [hf] at hw
      cases hw
      simpa [reactivates, hs, hf] using hre

theorem capInv_runOps (env : Env) (ops : List VisitOp) (store : List Visit)
    (h : CapInv env store) (hre : noReactivation env ops store = true) :
    CapInv env (runOps env ops store) := by
  induction ops generalizing store with
  | nil => exact h
  | cons op ops ih =>
    simp only [noReactivation, Bool.and_eq_true, Bool.not_eq_true'] at hre
    simp only [runOps, List.foldl_cons]
    exact ih (applyOp env store op) (capInv_applyOp env store op h hre.1) hre.2

theorem startsWith_zero (s : String) :
    startsWith s "0" = true ↔ ∃ rest, s.data = '0' :: rest := by
  have hl : "0".data = ['0'] := rfl
  unfold startsWith
  rw [hl]
  cases s.data with
  | nil => simp
  | cons c rest =>
    simp only [List.isPrefixOf, Bool.and_true, beq_iff_eq, List.cons.injEq, exists_eq_right']
    exact eq_comm

theorem startsWith_plus254 (s : String) :
    startsWith s "+254" = true ↔ ∃ rest, s.data = '+' :: '2' :: '5' :: '4' :: rest := by
  have hl : "+254".data = ['+', '2', '5', '4'] := rfl
  unfold startsWith
  rw [hl, List.isPrefixOf_iff_prefix]
  constructor
  · rintro ⟨t, ht⟩; exact ⟨t, ht.symm⟩
  · rintro ⟨t, ht⟩; exact ⟨t, ht.symm⟩

theorem startsWith_254 (s : String) :
    startsWith s "254" = true ↔ ∃ rest, s.data = '2' :: '5' :: '4' :: rest := by
  have hl : "254".data = ['2', '5', '4'] := rfl
  unfold startsWith
  rw [hl, List.isPrefixOf_iff_prefix]
  constructor
  · rintro ⟨t, ht⟩; exact ⟨t, ht.symm⟩
  · rintro ⟨t, ht⟩; exact ⟨t, ht.symm⟩

theorem append254 (s : String) : "254" ++ s = String.mk ('2' :: '5' :: '4' :: s.data) := by
  apply String.ext
  rw [String.data_append]
  rfl

theorem formatPhoneNumber_zero (phone : String) (rest : List Char)
    (h : (stripWhitespace phone).data = '0' :: rest) :
    formatPhoneNumber phone = String.mk ('2' :: '5' :: '4' :: rest) := by
  have h0 := (startsWith_zero _).mpr ⟨rest, h⟩
  unfold formatPhoneNumber
  simp only [h0, if_true]
  rw [append254]
  simp [substring1, h]

theorem formatPhoneNumber_plus (phone : String) (rest : List Char)
    (h : (stripWhitespace phone).data = '+' :: '2' :: '5' :: '4' :: rest) :
    formatPhoneNumber phone = String.mk ('2' :: '5' :: '4' :: rest) := by
  have h0 : ¬ startsWith (stripWhitespace phone) "0" = true := by
    rw [startsWith_zero]; rintro ⟨r, hr⟩; rw [h] at hr; simp at hr
  have h1 := (startsWith_plus254 _).mpr ⟨rest, h⟩
  unfold formatPhoneNumber
  simp only [h0, h1, if_true, if_false]
  simp [substring1, h]

theorem formatPhoneNumber_254 (phone : String) (rest : List Char)
    (h : (stripWhitespace phone).data = '2' :: '5' :: '4' :: rest) :
    formatPhoneNumber phone = stripWhitespace phone := by
  have h0 : ¬ startsWith (stripWhitespace phone) "0" = true := by
    rw [startsWith_zero]; rintro ⟨r, hr⟩; rw [h] at hr; simp at hr
  have h1 : ¬ startsWith (stripWhitespace phone) "+254" = true := by
    rw [startsWith_plus254]; rintro ⟨r, hr⟩; rw [h] at hr; simp at hr
  have h2 := (startsWith_254 _).mpr ⟨rest, h⟩
  unfold formatPhoneNumber
  simp [h0, h1, h2]

theorem formatPhoneNumber_other (phone : String)
    (h0 : ∀ rest, (stripWhitespace phone).data ≠ '0' :: rest)
    (h1 : ∀ rest, (stripWhitespace phone).data ≠ '+' :: '2' :: '5' :: '4' :: rest)
    (h2 : ∀ rest, (stripWhitespace phone).data ≠ '2' :: '5' :: '4' :: rest) :
    formatPhoneNumber phone =
      String.mk ('2' :: '5' :: '4' :: (stripWhitespace phone).data) := by
  have k0 : ¬ startsWith (stripWhitespace phone) "0" = true := by
    rw [startsWith_zero]; rintro ⟨r, hr⟩; exact h0 r hr
  have k1 : ¬ startsWith (stripWhitespace phone) "+254" = true := by
    rw [startsWith_plus254]; rintro ⟨r, hr⟩; exact h1 r hr
  have k2 : ¬ startsWith (stripWhitespace phone) "254" = true := by
    rw [startsWith_254]; rintro ⟨r, hr⟩; exact h2 r hr
  unfold formatPhoneNumber
  simp [k0, k1, k2, append254]

theorem stripWhitespace_clean (phone : String) :
    ∀ c ∈ (stripWhitespace phone).data, isJsWhitespace c = false := by
  intro c hc
  simp only [stripWhitespace, List.mem_filter] at hc
  simpa using hc.2

theorem stripWhitespace_of_clean (s : String) (h : ∀ c ∈ s.data, isJsWhitespace c = false) :
    stripWhitespace s = s := by
  apply String.ext
  simp only [stripWhitespace]
  rw [List.filter_eq_self]
  intro c hc
  simp [h c hc]

/-- Every result of `formatPhoneNumber` is free of whitespace and begins with "254". -/
theorem formatPhoneNumber_shape (phone : String) :
    ∃ rest, (formatPhoneNumber phone).data = '2' :: '5' :: '4' :: rest ∧
      ∀ c ∈ rest, isJsWhitespace c = false := by
  have hclean := stripWhitespace_clean phone
  by_cases h0 : ∃ rest, (stripWhitespace phone).data = '0' :: rest
  · obtain ⟨rest, h⟩ := h0
    refine ⟨rest, by rw [formatPhoneNumber_zero phone rest h], ?_⟩
    intro c hc; exact hclean c (by rw [h]; simp [hc])
  · by_cases h1 : ∃ rest, (stripWhitespace phone).data = '+' :: '2' :: '5' :: '4' :: rest
    · obtain ⟨rest, h⟩ := h1
      refine ⟨rest, by rw [formatPhoneNumber_plus phone rest h], ?_⟩
      intro c hc; exact hclean c (by rw [h]; simp [hc])
    · by_cases h2 : ∃ rest, (stripWhitespace phone).data = '2' :: '5' :: '4' :: rest
      · obtain ⟨rest, h⟩ := h2
        refine ⟨rest, by rw [formatPhoneNumber_254 phone rest h, h], ?_⟩
        intro c hc; exact hclean c (by rw [h]; simp [hc])
      · refine ⟨(stripWhitespace phone).data, ?_, hclean⟩
        rw [formatPhoneNumber_other phone (fun r hr => h0 ⟨r, hr⟩) (fun r hr => h1 ⟨r, hr⟩)
          (fun r hr => h2 ⟨r, hr⟩)]

/-- A whitespace-free string beginning with "254" is a fixed point. -/
theorem formatPhoneNumber_fixed (s : String) (rest : List Char)
    (h : s.data = '2' :: '5' :: '4' :: rest) (hc : ∀ c ∈ rest, isJsWhitespace c = false) :
    formatPhoneNumber s = s := by
  have hs : stripWhitespace s = s := by
    apply stripWhitespace_of_clean
    intro c hcm
    rw [h] at hcm
    simp only [List.mem_cons] at hcm
    rcases hcm with rfl | rfl | rfl | hcm
    · decide
    · decide
    · decide
    · exact hc c hcm
  have := formatPhoneNumber_254 s rest (by rw [hs]; exact h)
  rw [this, hs]

theorem digit_not_whitespace (c : Char) (h : c.isDigit = true) : isJsWhitespace c = false := by
  simp only [Char.isDigit, Bool.and_eq_true, decide_eq_true_eq] at h
  have h1 : 48 ≤ c.toNat := by
    have := h.1; simpa [Char.toNat, UInt32.le_def] using this
  have h2 : c.toNat ≤ 57 := by
    have := h.2; simpa [Char.toNat, UInt32.le_def] using this
  simp only [isJsWhitespace]
  simp
  omega


theorem stripWhitespace_digits (pre d : String) (hpre : ∀ c ∈ pre.data, isJsWhitespace c = false)
    (hd : isDigits d = true) : (stripWhitespace (pre ++ d)).data = pre.data ++ d.data := by
  rw [stripWhitespace_of_clean, String.data_append]
  intro c hc
  rw [String.data_append, List.mem_append] at hc
  rcases hc with hc | hc
  · exact hpre c hc
  · simp only [isDigits, List.all_eq_true] at hd
    exact digit_not_whitespace c (hd c hc)

theorem foldl_newer_spec (l : List Order) (b : Option Order) :
    (l.foldl newer b = none ∧ b = none ∧ l = []) ∨
    ∃ r, l.foldl newer b = some r ∧ (b = some r ∨ r ∈ l) ∧
      (∀ x ∈ l, x.createdAt ≤ r.createdAt) ∧ ∀ y, b = some y → y.createdAt ≤ r.createdAt := by
  induction l generalizing b with
  | nil =>
    cases b with
    | none => left; simp
    | some y =>
      right
      exact ⟨y, rfl, Or.inl rfl, by simp, by intro z hz; cases hz; exact le_refl _⟩
  | cons o l ih =>
    right
    rw [List.foldl_cons]
    rcases ih (newer b o) with ⟨_, hb, _⟩ | ⟨r, hr, hmem, hall, hb⟩
    · cases b with
      | none => simp [newer] at hb
      | some y => simp only [newer] at hb; split at hb <;> simp at hb
    · refine ⟨r, hr, ?_, ?_, ?_⟩
      · rcases hmem with hmem | hmem
        · cases b with
          | none =>
            simp only [newer, Option.some.injEq] at hmem
            right; rw [← hmem]; simp
          | some y =>
            simp only [newer] at hmem
            split at hmem
            · simp only [Option.some.injEq] at hmem
              right; rw [← hmem]; simp
            · left; exact hmem
        · right; simp [hmem]
      · intro x hx
        rcases List.mem_cons.mp hx with hx | hx
        · subst hx
          cases b with
          | none => exact hb x (by simp [newer])
          | some y =>
            by_cases hlt : y.createdAt < x.createdAt
            · exact hb x (by simp [newer, hlt])
            · have := hb y (by simp [newer, hlt])
              omega
        · exact hall x hx
      · intro y hy
        subst hy
        by_cases hlt : y.createdAt < o.createdAt
        · have := hb o (by simp [newer, hlt])
          omega
        · exact hb y (by simp [newer, hlt])

theorem findPendingByPhone_some (orders : List Order) (phone : String) (o : Order)
    (h : findPendingByPhone orders phone = some o) :
    o ∈ orders ∧ o.phoneNumber = some phone ∧ o.paymentStatus = "pending" ∧
    ∀ x ∈ orders, x.phoneNumber = some phone → x.paymentStatus = "pending" →
      x.createdAt ≤ o.createdAt := by
  unfold findPendingByPhone at h
  rcases foldl_newer_spec (orders.filter (matchesPending phone)) none with ⟨hn, _, _⟩ |
    ⟨r, hr, hmem, hall, _⟩
  · rw [hn] at h; cases h
  · rw [hr] at h
    simp only [Option.some.injEq] at h
    subst h
    rcases hmem with hmem | hmem
    · cases hmem
    · rw [List.mem_filter] at hmem
      have hm := hmem.2
      simp only [matchesPending, Bool.and_eq_true, beq_iff_eq] at hm
      refine ⟨hmem.1, hm.1, hm.2, ?_⟩
      intro x hx hp hs
      exact hall x (by rw [List.mem_filter]; exact ⟨hx, by simp [matchesPending, hp, hs]⟩)

theorem findPendingByPhone_none (orders : List Order) (phone : String) :
    findPendingByPhone orders phone = none ↔
      ∀ x ∈ orders, ¬ (x.phoneNumber = some phone ∧ x.paymentStatus = "pending") := by
  unfold findPendingByPhone
  constructor
  · intro h x hx hm
    rcases foldl_newer_spec (orders.filter (matchesPending phone)) none with ⟨_, _, hnil⟩ |
      ⟨r, hr, _, _, _⟩
    · have : x ∈ orders.filter (matchesPending phone) := by
        rw [List.mem_filter]; exact ⟨hx, by simp [matchesPending, hm.1, hm.2]⟩
      rw [hnil] at this
      exact absurd this (List.not_mem_nil x)
    · rw [hr] at h; cases h
  · intro h
    have hnil : orders.filter (matchesPending phone) = [] := by
      rw [List.filter_eq_nil_iff]
      intro x hx hm
      simp only [matchesPending, Bool.and_eq_true, beq_iff_eq] at hm
      exact h x hx hm
    rw [hnil]; rfl

theorem findOrderById_cons (o : Order) (rest : List Order) (id : Nat) :
    findOrderById (o :: rest) id = if o._id = id then some o else findOrderById rest id := by
  by_cases h : o._id = id <;> simp [findOrderById, List.find?_cons, h]

theorem findOrderById_some (orders : List Order) (id : Nat) (o : Order)
    (h : findOrderById orders id = some o) : o ∈ orders ∧ o._id = id := by
  unfold findOrderById at h
  have h1 := List.mem_of_find?_eq_some h
  have h2 := List.find?_some h
  exact ⟨h1, by simpa using h2⟩

theorem findOrderById_of_mem (orders : List Order) (o : Order) (hmem : o ∈ orders)
    (hids : (orders.map (fun x => x._id)).Nodup) : findOrderById orders o._id = some o := by
  induction orders with
  | nil => simp at hmem
  | cons x rest ih =>
    rw [findOrderById_cons]
    simp only [List.map_cons, List.nodup_cons, List.mem_map, not_exists, not_and] at hids
    rcases List.mem_cons.mp hmem with hx | hx
    · subst hx; simp
    · have hne : x._id ≠ o._id := fun he => hids.1 o hx he.symm
      simp only [hne, if_false]
      exact ih hx hids.2

theorem saveOrder_ids (o : Order) (orders : List Order) :
    (saveOrder o orders).map (fun x => x._id) = orders.map (fun x => x._id) := by
  induction orders with
  | nil => rfl
  | cons x rest ih =>
    by_cases h : x._id = o._id
    · simp [saveOrder, h]
    · simp [saveOrder, h, ih]

theorem findOrderById_saveOrder (o : Order) (orders : List Order) (id : Nat) :
    findOrderById (saveOrder o orders) id =
      if id = o._id then (findOrderById orders id).map (fun _ => o)
      else findOrderById orders id := by
  induction orders with
  | nil => simp [saveOrder, findOrderById]
  | cons x rest ih =>
    by_cases h : x._id = o._id
    · by_cases hid : id = o._id
      · simp [saveOrder, h, hid, findOrderById_cons]
      · have hne : ¬ x._id = id := fun he => hid (by rw [← he, h])
        have hne2 : ¬ o._id = id := fun he => hid he.symm
        simp [saveOrder, h, hid, findOrderById_cons, hne, hne2]
    · by_cases hid : id = o._id
      · have hne : ¬ x._id = id := fun he => h (by rw [he, hid])
        rw [if_pos hid] at ih
        simp only [saveOrder, beq_iff_eq, h, if_false, findOrderById_cons, hne, ih, if_pos hid]
      · simp only [saveOrder, beq_iff_eq, h, if_false, findOrderById_cons, ih, hid]

theorem saveOrder_split (orders : List Order) (o : Order) (hmem : o ∈ orders)
    (hids : (orders.map (fun x => x._id)).Nodup) :
    ∃ pre post, orders = pre ++ o :: post ∧
      ∀ o2, o2._id = o._id → saveOrder o2 orders = pre ++ o2 :: post := by
  induction orders with
  | nil => simp at hmem
  | cons x rest ih =>
    simp only [List.map_cons, List.nodup_cons, List.mem_map, not_exists, not_and] at hids
    rcases List.mem_cons.mp hmem with hx | hx
    · subst hx
      exact ⟨[], rest, rfl, by intro o2 h2; simp [saveOrder, h2]⟩
    · have hne : x._id ≠ o._id := fun he => hids.1 o hx he.symm
      obtain ⟨pre, post, h1, h2⟩ := ih hx hids.2
      refine ⟨x :: pre, post, by simp [h1], ?_⟩
      intro o2 ho2
      have hne2 : ¬ x._id = o2._id := by rw [ho2]; exact hne
      simp [saveOrder, hne2, h2 o2 ho2]

theorem saveOrder_first (orders : List Order) (id : Nat) (o : Order)
    (h : findOrderById orders id = some o) :
    ∃ pre post, orders = pre ++ o :: post ∧
      ∀ o2, o2._id = id → saveOrder o2 orders = pre ++ o2 :: post := by
  induction orders with
  | nil => simp [findOrderById] at h
  | cons x rest ih =>
    rw [findOrderById_cons] at h
    by_cases hx : x._id = id
    · simp only [hx, if_true, Option.some.injEq] at h
      subst h
      exact ⟨[], rest, rfl, by intro o2 h2; simp [saveOrder, h2, hx]⟩
    · simp only [hx, if_false] at h
      obtain ⟨pre, post, h1, h2⟩ := ih h
      refine ⟨x :: pre, post, by simp [h1], ?_⟩
      intro o2 ho2
      have hne2 : ¬ x._id = o2._id := by rw [ho2]; exact hx
      simp [saveOrder, hne2, h2 o2 ho2]

/-- A callback that finalizes no order leaves both collections as they were. -/
theorem handleCallback_idle (req : CallbackRequest) (s : PayState)
    (h : finalizedOrder req s.orders = none) : (handleCallback .none req s).2 = s := by
  unfold finalizedOrder callbackPhone at h
  unfold handleCallback
  cases hB : req.Body with
  | none => rfl
  | some body =>
    rw [hB] at h
    simp only at h ⊢
    cases hcb : body.stkCallback with
    | none => rfl
    | some cb =>
      rw [hcb] at h
      simp only at h ⊢
      by_cases hrc : cb.ResultCode = some 0
      · rw [if_pos hrc] at h
        rw [if_pos hrc]
        cases hmd : cb.CallbackMetadata with
        | none => rfl
        | some md =>
          rw [hmd] at h
          simp only at h ⊢
          cases hit : md.Item with
          | none => rfl
          | some metadata =>
            rw [hit] at h
            simp only at h ⊢
            cases hph : findValue metadata "PhoneNumber" with
            | none => rfl
            | some phone =>
              rw [hph] at h
              simp only [Option.map_some'] at h
              simp [h]
      · rw [if_neg hrc]

/-- A callback that finalizes an order saves it as paid and takes its line items
out of stock. -/
theorem handleCallback_finalizes (req : CallbackRequest) (s : PayState) (o : Order)
    (h : finalizedOrder req s.orders = some o) :
    ∃ cb metadata, req.Body = some { stkCallback := some cb } ∧ cb.ResultCode = some 0 ∧
      cb.CallbackMetadata = some { Item := some metadata } ∧
      handleCallback .none req s =
        (successAck,
         { orders := saveOrder
             (markPaid o (findValue metadata "MpesaReceiptNumber") cb.CheckoutRequestID) s.orders
           products := applyItems o.items s.products }) := by
  unfold finalizedOrder callbackPhone at h
  unfold handleCallback
  cases hB : req.Body with
  | none => rw [hB] at h; simp at h
  | some body =>
    rw [hB] at h
    simp only at h ⊢
    cases hcb : body.stkCallback with
    | none => rw [hcb] at h; simp at h
    | some cb =>
      rw [hcb] at h
      simp only at h ⊢
      by_cases hrc : cb.ResultCode = some 0
      · rw [if_pos hrc] at h
        cases hmd : cb.CallbackMetadata with
        | none => rw [hmd] at h; simp at h
        | some md =>
          rw [hmd] at h
          simp only at h
          cases hit : md.Item with
          | none => rw [hit] at h; simp at h
          | some metadata =>
            rw [hit] at h
            simp only at h
            cases hph : findValue metadata "PhoneNumber" with
            | none => rw [hph] at h; simp at h
            | some phone =>
              rw [hph] at h
              simp only [Option.map_some'] at h
              refine ⟨cb, metadata, ?_, hrc, ?_, ?_⟩
              · cases body; simp_all
              · cases md; simp_all
              · simp [hrc, hmd, hit, hph, h]
      · rw [if_neg hrc] at h; simp at h

/-- The effect of a success callback that has a matching pending order, in a
collection with unique ids. -/
theorem callback_effect (s : PayState) (cb : StkCallback) (metadata : List MetadataItem)
    (phone : JsonValue) (hrc : cb.ResultCode = some 0)
    (hmd : cb.CallbackMetadata = some { Item := some metadata })
    (hph : findValue metadata "PhoneNumber" = some phone)
    (hex : ∃ x ∈ s.orders, x.phoneNumber = some (formatPhoneNumber (valueToString phone)) ∧
      x.paymentStatus = "pending")
    (hids : (s.orders.map (fun x => x._id)).Nodup) :
    ∃ pre o post, s.orders = pre ++ o :: post ∧
      o.phoneNumber = some (formatPhoneNumber (valueToString phone)) ∧
      o.paymentStatus = "pending" ∧
      (∀ x ∈ s.orders, x.phoneNumber = some (formatPhoneNumber (valueToString phone)) →
        x.paymentStatus = "pending" → x.createdAt ≤ o.createdAt) ∧
      handleCallback .none { Body := some { stkCallback := some cb } } s =
        (successAck,
         { orders := pre ++
             markPaid o (findValue metadata "MpesaReceiptNumber") cb.CheckoutRequestID :: post
           products := applyItems o.items s.products }) := by
  cases hfind : findPendingByPhone s.orders (formatPhoneNumber (valueToString phone)) with
  | none =>
    obtain ⟨x, hx, hxp, hxs⟩ := hex
    exact absurd ⟨hxp, hxs⟩ ((findPendingByPhone_none _ _).mp hfind x hx)
  | some o =>
    obtain ⟨hmem, hp, hs, hmax⟩ := findPendingByPhone_some _ _ o hfind
    obtain ⟨pre, post, h1, h2⟩ := saveOrder_split s.orders o hmem hids
    refine ⟨pre, o, post, h1, hp, hs, hmax, ?_⟩
    have hsave := h2 (markPaid o (findValue metadata "MpesaReceiptNumber") cb.CheckoutRequestID) rfl
    simp [handleCallback, hrc, hmd, hph, hfind, hsave]

theorem incProduct_ids (id : Nat) (q : Int) (ps : List Product) :
    (incProduct id q ps).map (fun p => p._id) = ps.map (fun p => p._id) := by
  induction ps with
  | nil => rfl
  | cons p rest ih =>
    by_cases h : p._id = id
    · simp [incProduct, h]
    · simp [incProduct, h, ih]

theorem incProduct_eq_map (id : Nat) (q : Int) (ps : List Product)
    (hids : (ps.map (fun p => p._id)).Nodup) :
    incProduct id q ps =
      ps.map (fun p =>
        if p._id = id then { p with quantity := p.quantity + -q, sold := p.sold + q } else p) := by
  induction ps with
  | nil => rfl
  | cons p rest ih =>
    simp only [List.map_cons, List.nodup_cons, List.mem_map, not_exists, not_and] at hids
    by_cases h : p._id = id
    · have hrest : rest.map (fun p =>
          if p._id = id then { p with quantity := p.quantity + -q, sold := p.sold + q } else p)
          = rest := by
        conv_rhs => rw [← List.map_id rest]
        apply List.map_congr_left
        intro x hx
        have hne : ¬ x._id = id := fun he => hids.1 x hx (by rw [he, h])
        simp [hne]
      simp only [incProduct, List.map_cons, h, beq_self_eq_true, if_true, hrest]
    · simp only [incProduct, beq_iff_eq, h, if_false, List.map_cons, ih hids.2]

theorem orderedQty_cons (item : OrderItem) (items : List OrderItem) (productId : Nat) :
    orderedQty (item :: items) productId =
      (if item.product = productId then item.quantity else 0) + orderedQty items productId := by
  by_cases h : item.product = productId <;> simp [orderedQty, List.filter_cons, h]

theorem settle_nil (p : Product) : settle [] p = p := by
  cases p
  simp [settle, orderedQty]

theorem settle_cons (item : OrderItem) (items : List OrderItem) (p : Product) :
    settle items
      (if p._id = item.product then
        { p with quantity := p.quantity + -item.quantity, sold := p.sold + item.quantity }
       else p) = settle (item :: items) p := by
  cases p with
  | mk id name category price quantity isAvailable sold =>
    by_cases h : id = item.product
    · have h2 : item.product = id := h.symm
      simp only [settle, orderedQty_cons, h, if_true, Product.mk.injEq, true_and]
      constructor <;> omega
    · have h2 : ¬ item.product = id := fun he => h he.symm
      simp only [settle, orderedQty_cons, h, h2, if_false, Product.mk.injEq, true_and]
      constructor <;> omega

/-- With unique product ids, the update loop settles every product by the total
quantity ordered of it. -/
theorem applyItems_eq_map (items : List OrderItem) (ps : List Product)
    (hids : (ps.map (fun p => p._id)).Nodup) :
    applyItems items ps = ps.map (settle items) := by
  induction items generalizing ps with
  | nil =>
    simp only [applyItems, List.foldl_nil]
    conv_lhs => rw [← List.map_id ps]
    apply List.map_congr_left
    intro p _
    simp [settle_nil]
  | cons item items ih =>
    have hstep : applyItems (item :: items) ps =
        applyItems items (incProduct item.product item.quantity ps) := by
      simp [applyItems]
    rw [hstep, ih _ (by rw [incProduct_ids]; exact hids), incProduct_eq_map _ _ _ hids,
      List.map_map]
    apply List.map_congr_left
    intro p _
    exact settle_cons item items p

theorem findOrderById_isSome_of_mem (orders : List Order) (o : Order) (hmem : o ∈ orders) :
    ∃ x, findOrderById orders o._id = some x := by
  induction orders with
  | nil => simp at hmem
  | cons y rest ih =>
    rw [findOrderById_cons]
    by_cases hy : y._id = o._id
    · exact ⟨y, by simp [hy]⟩
    · rcases List.mem_cons.mp hmem with hx | hx
      · subst hx; exact absurd rfl hy
      · simp only [hy, if_false]; exact ih hx

/-- Saving a document whose payment status is that of the stored one keeps every
stored payment status. -/
theorem paymentStatusOf_saveOrder_same (orders : List Order) (o o2 : Order)
    (hf : findOrderById orders o2._id = some o) (hs : o2.paymentStatus = o.paymentStatus)
    (id : Nat) :
    paymentStatusOf (saveOrder o2 orders) id = paymentStatusOf orders id := by
  unfold paymentStatusOf
  rw [findOrderById_saveOrder]
  by_cases hid : id = o2._id
  · rw [if_pos hid, hid, hf]
    simp [hs]
  · rw [if_neg hid]

theorem paymentStatusOf_saveOrder_paid (orders : List Order) (o : Order) (hmem : o ∈ orders)
    (receipt : Option JsonValue) (checkoutId : Option String) (id : Nat) :
    paymentStatusOf (saveOrder (markPaid o receipt checkoutId) orders) id =
      if id = o._id then some "completed" else paymentStatusOf orders id := by
  unfold paymentStatusOf
  rw [findOrderById_saveOrder]
  have hid2 : (markPaid o receipt checkoutId)._id = o._id := rfl
  rw [hid2]
  by_cases hid : id = o._id
  · obtain ⟨x, hx⟩ := findOrderById_isSome_of_mem orders o hmem
    rw [if_pos hid, if_pos hid, hid, hx]
    rfl
  · rw [if_neg hid, if_neg hid]

/-- The orders after initiatePayment: unchanged, or one stored order saved with a
new phone number. -/
theorem initiatePayment_orders (cfg : MpesaConfig) (gw : Gateway) (requester : Nat)
    (req : InitiateRequest) (orders : List Order) :
    (initiatePayment cfg gw requester req orders).2.1 = orders ∨
    ∃ id o phone, findOrderById orders id = some o ∧
      (initiatePayment cfg gw requester req orders).2.1 =
        saveOrder { o with phoneNumber := some phone } orders := by
  unfold initiatePayment
  cases hid : req.orderId with
  | none => left; rfl
  | some id =>
    cases hp : req.phoneNumber with
    | none => left; rfl
    | some phone =>
      simp only
      split
      · left; rfl
      · cases hf : findOrderById orders id with
        | none => left; rfl
        | some o =>
          simp only
          split
          · left; rfl
          · split
            · left; rfl
            · split
              · right; exact ⟨id, o, formatPhoneNumber phone, hf, rfl⟩
              · left; rfl

/-- A callback that matches no order leaves both collections as they were,
whichever store operation would reject. -/
theorem handleCallback_unmatched (fault : StoreFault) (req : CallbackRequest) (s : PayState)
    (h : finalizedOrder req s.orders = none) : (handleCallback fault req s).2 = s := by
  unfold finalizedOrder callbackPhone at h
  unfold handleCallback
  cases hB : req.Body with
  | none => rfl
  | some body =>
    rw [hB] at h
    simp only at h ⊢
    cases hcb : body.stkCallback with
    | none => rfl
    | some cb =>
      rw [hcb] at h
      simp only at h ⊢
      by_cases hrc : cb.ResultCode = some 0
      · rw [if_pos hrc] at h
        rw [if_pos hrc]
        cases hmd : cb.CallbackMetadata with
        | none => rfl
        | some md =>
          rw [hmd] at h
          simp only at h ⊢
          cases hit : md.Item with
          | none => rfl
          | some metadata =>
            rw [hit] at h
            simp only at h ⊢
            cases hph : findValue metadata "PhoneNumber" with
            | none => rfl
            | some phone =>
              rw [hph] at h
              simp only [Option.map_some'] at h
              by_cases hf : fault = StoreFault.findOne
              · simp [hf]
              · simp [hf, h]
      · rw [if_neg hrc]

/-- A callback that matches an order saves it as paid if the handler gets that far,
and takes out of stock the line items whose update is performed. -/
theorem handleCallback_matched (fault : StoreFault) (req : CallbackRequest) (s : PayState)
    (o : Order) (h : finalizedOrder req s.orders = some o) :
    ∃ receipt checkoutId, (handleCallback fault req s).2 =
      { orders := if savesOrder fault o = true then
                    saveOrder (markPaid o receipt checkoutId) s.orders
                  else s.orders
        products := applyItems (stockItems fault o) s.products } := by
  unfold finalizedOrder callbackPhone at h
  unfold handleCallback
  cases hB : req.Body with
  | none => rw [hB] at h; simp at h
  | some body =>
    rw [hB] at h
    simp only at h ⊢
    cases hcb : body.stkCallback with
    | none => rw [hcb] at h; simp at h
    | some cb =>
      rw [hcb] at h
      simp only at h ⊢
      by_cases hrc : cb.ResultCode = some 0
      · rw [if_pos hrc] at h
        rw [if_pos hrc]
        cases hmd : cb.CallbackMetadata with
        | none => rw [hmd] at h; simp at h
        | some md =>
          rw [hmd] at h
          simp only at h ⊢
          cases hit : md.Item with
          | none => rw [hit] at h; simp at h
          | some metadata =>
            rw [hit] at h
            simp only at h ⊢
            cases hph : findValue metadata "PhoneNumber" with
            | none => rw [hph] at h; simp at h
            | some phone =>
              rw [hph] at h
              simp only [Option.map_some'] at h
              refine ⟨findValue metadata "MpesaReceiptNumber", cb.CheckoutRequestID, ?_⟩
              simp only [h]
              cases fault with
              | none => simp [savesOrder, stockItems]
              | findOne => cases s; simp [savesOrder, stockItems, applyItems]
              | save => simp [savesOrder, stockItems]
              | productUpdate k =>
                by_cases hk : k < o.items.length
                · have hk2 : ¬ o.items.length ≤ k := by omega
                  simp [savesOrder, stockItems, hk, hk2]
                · have hk2 : o.items.length ≤ k := by omega
                  simp [savesOrder, stockItems, hk, hk2, List.take_of_length_le hk2]
      · rw [if_neg hrc] at h; simp at h

theorem finalizedOrder_pending (req : CallbackRequest) (orders : List Order) (o : Order)
    (h : finalizedOrder req orders = some o) : o ∈ orders ∧ o.paymentStatus = "pending" := by
  unfold finalizedOrder at h
  cases hph : callbackPhone req with
  | none => rw [hph] at h; cases h
  | some phone =>
    rw [hph] at h
    obtain ⟨hm, _, hs, _⟩ := findPendingByPhone_some _ _ o h
    exact ⟨hm, hs⟩

/-- A callback that finalizes no order leaves the orders as they were. -/
theorem handleCallback_orders_kept (fault : StoreFault) (req : CallbackRequest) (s : PayState)
    (h : finalizedBy s (.callback fault req) = none) :
    (handleCallback fault req s).2.orders = s.orders := by
  simp only [finalizedBy] at h
  cases hfin : finalizedOrder req s.orders with
  | none => rw [handleCallback_unmatched fault req s hfin]
  | some o =>
    rw [hfin] at h
    simp only at h
    have hsv : ¬ savesOrder fault o = true := by
      intro hs; rw [if_pos hs] at h; cases h
    obtain ⟨r, c, heq⟩ := handleCallback_matched fault req s o hfin
    rw [heq, if_neg hsv]

/-- The orders after a request that finalizes none: as before, up to a phone number
or an order status with its history entry, the payment statuses being kept. -/
theorem payStep_orders_idle (s : PayState) (op : PayOp) (h : finalizedBy s op = none) :
    (payStep s op).orders = s.orders ∨
    ∃ o o2, findOrderById s.orders o2._id = some o ∧ o2.paymentStatus = o.paymentStatus ∧
      (payStep s op).orders = saveOrder o2 s.orders := by
  cases op with
  | initiate cfg gw requester req =>
    simp only [payStep]
    rcases initiatePayment_orders cfg gw requester req s.orders with h | ⟨oid, o, phone, hf, h⟩
    · exact Or.inl h
    · right
      have hid := (findOrderById_some s.orders oid o hf).2
      refine ⟨o, { o with phoneNumber := some phone }, ?_, rfl, h⟩
      show findOrderById s.orders o._id = some o
      rw [hid]; exact hf
  | callback fault req =>
    left
    exact handleCallback_orders_kept fault req s h
  | adminStatus oid status note =>
    simp only [payStep, updateOrderStatus]
    cases hf : findOrderById s.orders oid with
    | none => exact Or.inl rfl
    | some o =>
      right
      have hid := (findOrderById_some s.orders oid o hf).2
      refine ⟨o, _, ?_, ?_, rfl⟩
      · show findOrderById s.orders o._id = some o
        rw [hid]; exact hf
      · rfl

/-- The orders after a request that finalizes an order: that order, which was stored
as pending, is saved as paid. -/
theorem payStep_orders_final (s : PayState) (op : PayOp) (o : Order)
    (h : finalizedBy s op = some o) :
    o ∈ s.orders ∧ o.paymentStatus = "pending" ∧
    ∃ receipt checkoutId,
      (payStep s op).orders = saveOrder (markPaid o receipt checkoutId) s.orders := by
  cases op with
  | initiate cfg gw requester req => simp [finalizedBy] at h
  | adminStatus oid status note => simp [finalizedBy] at h
  | callback fault req =>
    simp only [finalizedBy] at h
    cases hfin : finalizedOrder req s.orders with
    | none => rw [hfin] at h; cases h
    | some o1 =>
      rw [hfin] at h
      simp only at h
      by_cases hsv : savesOrder fault o1 = true
      · rw [if_pos hsv] at h
        have ho : o1 = o := by simpa using h
        subst ho
        obtain ⟨hm, hs⟩ := finalizedOrder_pending req s.orders o1 hfin
        obtain ⟨r, c, heq⟩ := handleCallback_matched fault req s o1 hfin
        refine ⟨hm, hs, r, c, ?_⟩
        simp only [payStep]
        rw [heq, if_pos hsv]
      · rw [if_neg hsv] at h; cases h

/-- The products after a request: the line items it takes out of stock are applied. -/
theorem payStep_products (s : PayState) (op : PayOp) :
    (payStep s op).products = applyItems (stockTakenBy s op) s.products := by
  cases op with
  | initiate cfg gw requester req => rfl
  | adminStatus oid status note => rfl
  | callback fault req =>
    simp only [payStep, stockTakenBy]
    cases hfin : finalizedOrder req s.orders with
    | none => rw [handleCallback_unmatched fault req s hfin]; rfl
    | some o =>
      obtain ⟨r, c, heq⟩ := handleCallback_matched fault req s o hfin
      rw [heq]

theorem payStep_ids (s : PayState) (op : PayOp) :
    (payStep s op).orders.map (fun x => x._id) = s.orders.map (fun x => x._id) := by
  cases hfin : finalizedBy s op with
  | none =>
    rcases payStep_orders_idle s op hfin with h | ⟨o, o2, _, _, h⟩
    · rw [h]
    · rw [h, saveOrder_ids]
  | some o =>
    obtain ⟨_, _, r, c, h⟩ := payStep_orders_final s op o hfin
    rw [h, saveOrder_ids]

/-- A request that finalizes no order keeps every payment status. -/
theorem payStep_idle (s : PayState) (op : PayOp) (h : finalizedBy s op = none) (id : Nat) :
    paymentStatusOf (payStep s op).orders id = paymentStatusOf s.orders id := by
  rcases payStep_orders_idle s op h with h1 | ⟨o, o2, hf, hs, h1⟩
  · rw [h1]
  · rw [h1]
    exact paymentStatusOf_saveOrder_same s.orders o o2 hf hs id

/-- A request that finalizes an order turns exactly that order, which was stored
as pending, to completed. -/
theorem payStep_final (s : PayState) (op : PayOp) (o : Order) (h : finalizedBy s op = some o) :
    o ∈ s.orders ∧ o.paymentStatus = "pending" ∧
    ∀ id, paymentStatusOf (payStep s op).orders id =
      if id = o._id then some "completed" else paymentStatusOf s.orders id := by
  obtain ⟨hm, hs, r, c, h1⟩ := payStep_orders_final s op o h
  refine ⟨hm, hs, ?_⟩
  intro id
  rw [h1]
  exact paymentStatusOf_saveOrder_paid s.orders o hm r c id

theorem applyItems_append (a b : List OrderItem) (ps : List Product) :
    applyItems (a ++ b) ps = applyItems b (applyItems a ps) := by
  simp [applyItems, List.foldl_append]

/-- The products after a series: the line items taken out of stock along it are
applied to the initial products. -/
theorem payRun_products (ops : List PayOp) (s : PayState) :
    (payRun ops s).products = applyItems (stockTakenAlong ops s) s.products := by
  induction ops generalizing s with
  | nil => rfl
  | cons op ops ih =>
    have hrun : payRun (op :: ops) s = payRun ops (payStep s op) := by simp [payRun]
    rw [hrun, ih (payStep s op), payStep_products]
    simp only [stockTakenAlong]
    rw [applyItems_append]

/-- When no store operation rejects, the line items taken out of stock along a
series are those of the orders finalized along it, each order's once. -/
theorem stockTakenAlong_faultFree (ops : List PayOp) (s : PayState)
    (hff : faultFree ops = true) :
    stockTakenAlong ops s = (finalizedAlong ops s).flatMap (fun o => o.items) := by
  induction ops generalizing s with
  | nil => rfl
  | cons op ops ih =>
    simp only [faultFree, List.all_cons, Bool.and_eq_true] at hff
    have hrest : faultFree ops = true := by simpa [faultFree] using hff.2
    have hop : stockTakenBy s op = (finalizedBy s op).toList.flatMap (fun o => o.items) := by
      cases op with
      | initiate cfg gw requester req => rfl
      | adminStatus oid status note => rfl
      | callback fault req =>
        have hf : fault = StoreFault.none := by simpa using hff.1
        subst hf
        simp only [stockTakenBy, finalizedBy]
        cases hfin : finalizedOrder req s.orders with
        | none => rfl
        | some o => simp [savesOrder, stockItems]
    simp only [stockTakenAlong, finalizedAlong, List.flatMap_append]
    rw [hop, ih (payStep s op) hrest]

/-- Along every series, whichever store operations reject: no order is finalized
twice, every finalized order was pending, and an order is completed exactly
when it was finalized. -/
theorem finalized_once_aux (ops : List PayOp) (s : PayState)
    (hids : (s.orders.map (fun x => x._id)).Nodup) :
    ((finalizedAlong ops s).map (fun o => o._id)).Nodup ∧
    (∀ o ∈ finalizedAlong ops s, paymentStatusOf s.orders o._id = some "pending") ∧
    (∀ id, paymentStatusOf (payRun ops s).orders id =
      if id ∈ (finalizedAlong ops s).map (fun o => o._id) then some "completed"
      else paymentStatusOf s.orders id) := by
  induction ops generalizing s with
  | nil => simp [finalizedAlong, payRun]
  | cons op ops ih =>
    have hids2 : ((payStep s op).orders.map (fun x => x._id)).Nodup := by
      rw [payStep_ids]; exact hids
    obtain ⟨ih1, ih2, ih3⟩ := ih (payStep s op) hids2
    have hrun : payRun (op :: ops) s = payRun ops (payStep s op) := by
      simp [payRun]
    cases hfin : finalizedBy s op with
    | none =>
      have hst := payStep_idle s op hfin
      have hfa : finalizedAlong (op :: ops) s = finalizedAlong ops (payStep s op) := by
        simp [finalizedAlong, hfin]
      rw [hfa, hrun]
      refine ⟨ih1, ?_, ?_⟩
      · intro o ho
        rw [← hst]; exact ih2 o ho
      · intro id
        rw [ih3 id, hst id]
    | some o =>
      obtain ⟨hmem, hpend, hst⟩ := payStep_final s op o hfin
      have hfa : finalizedAlong (op :: ops) s = o :: finalizedAlong ops (payStep s op) := by
        simp [finalizedAlong, hfin]
      have hnot : o._id ∉ (finalizedAlong ops (payStep s op)).map (fun x => x._id) := by
        intro hin
        obtain ⟨x, hx, hxid⟩ := List.mem_map.mp hin
        have h1 := ih2 x hx
        rw [hxid, hst o._id, if_pos rfl] at h1
        exact absurd h1 (by decide)
      rw [hfa, hrun]
      refine ⟨?_, ?_, ?_⟩
      · rw [List.map_cons, List.nodup_cons]
        exact ⟨hnot, ih1⟩
      · intro x hx
        rcases List.mem_cons.mp hx with hx | hx
        · subst hx
          unfold paymentStatusOf
          rw [findOrderById_of_mem s.orders x hmem hids]
          simp [hpend]
        · have h1 := ih2 x hx
          rw [hst x._id] at h1
          by_cases hxo : x._id = o._id
          · rw [if_pos hxo] at h1
            exact absurd h1 (by decide)
          · rw [if_neg hxo] at h1
            exact h1
      · intro id
        rw [ih3 id, hst id]
        by_cases hin : id ∈ (finalizedAlong ops (payStep s op)).map (fun x => x._id)
        · simp [hin]
        · by_cases hid : id = o._id
          · simp [hid]
          · simp [hin, hid]

theorem filter_split_of_sorted (l : List VaccinationEntry) (a : Int)
    (h : l.Pairwise (fun x y => x.day < y.day)) :
    l.filter (fun v => decide (v.day ≤ a)) ++ l.filter (fun v => decide (v.day > a)) = l := by
  induction l with
  | nil => rfl
  | cons x rest ih =>
    rw [List.pairwise_cons] at h
    by_cases hx : x.day ≤ a
    · have hx2 : ¬ x.day > a := by omega
      simp only [List.filter_cons, hx, hx2, decide_True, decide_False, if_true, List.cons_append]
      simp only [Bool.false_eq_true, if_false]
      rw [ih h.2]
    · have hx2 : x.day > a := by omega
      have h1 : rest.filter (fun v => decide (v.day ≤ a)) = [] := by
        rw [List.filter_eq_nil_iff]
        intro y hy
        have := h.1 y hy
        simp only [decide_eq_true_eq]
        omega
      have h2 : rest.filter (fun v => decide (v.day > a)) = rest := by
        rw [List.filter_eq_self]
        intro y hy
        have := h.1 y hy
        simp only [decide_eq_true_eq]
        omega
      simp only [List.filter_cons, hx, hx2, decide_True, decide_False, if_true, h1, h2,
        List.nil_append]
      simp

theorem vaccinationSchedule_sorted :
    vaccinationSchedule.Pairwise (fun x y => x.day < y.day) := by
  decide

theorem getSchedule_sorted (chickType : Option String) :
    (getSchedule chickType).schedule.Pairwise (fun x y => x.day < y.day) := by
  unfold getSchedule
  simp only
  split
  · exact List.Pairwise.filter _ vaccinationSchedule_sorted
  · exact vaccinationSchedule_sorted

theorem sliceLast2_spec (xs : List VaccinationEntry) :
    xs = xs.take (xs.length - 2) ++ sliceLast2 xs ∧
    (sliceLast2 xs).length = min 2 xs.length := by
  constructor
  · exact (List.take_append_drop _ _).symm
  · simp only [sliceLast2, List.length_drop]
    omega

theorem parseInt_empty : parseInt "" = .nan := by decide

theorem excessBits_le (fuel m e : Nat) (hm : m < 2 ^ 53) :
    excessBits fuel (m * 2 ^ e) ≤ e := by
  induction fuel generalizing e with
  | zero => simp [excessBits]
  | succ fuel ih =>
    unfold excessBits
    split
    · exact Nat.zero_le _
    · rename_i hge
      cases e with
      | zero => simp at hge; omega
      | succ e =>
        have h2 : m * 2 ^ (e + 1) / 2 = m * 2 ^ e := by
          rw [pow_succ, ← Nat.mul_assoc]; exact Nat.mul_div_cancel _ (by decide)
        rw [h2]
        exact Nat.succ_le_succ (ih e)

theorem roundToDouble_exact (m e : Nat) (hm : m < 2 ^ 53) (he : e ≤ 971) :
    roundToDouble (m * 2 ^ e) = some (m * 2 ^ e) := by
  have hk := excessBits_le (m * 2 ^ e) m e hm
  unfold roundToDouble
  generalize excessBits (m * 2 ^ e) (m * 2 ^ e) = k at hk
  obtain ⟨j, rfl⟩ : ∃ j, e = j + k := ⟨e - k, by omega⟩
  have hn : m * 2 ^ (j + k) = m * 2 ^ j * 2 ^ k := by rw [pow_add, Nat.mul_assoc]
  have hpos : 0 < 2 ^ k := Nat.two_pow_pos k
  have hr : m * 2 ^ (j + k) % 2 ^ k = 0 := by rw [hn]; exact Nat.mul_mod_left _ _
  have hq : m * 2 ^ (j + k) / 2 ^ k = m * 2 ^ j := by rw [hn]; exact Nat.mul_div_cancel _ hpos
  simp only [hr, hq, Nat.mul_zero]
  have hc : ¬ (2 ^ k < 0 ∨ (0 = 2 ^ k ∧ m * 2 ^ j % 2 = 1)) := by
    rintro (h | ⟨h, _⟩) <;> omega
  rw [if_neg hc]
  have hc2 : k < 971 ∨ (k = 971 ∧ m * 2 ^ j < 2 ^ 53) := by
    by_cases h : k < 971
    · exact Or.inl h
    · have hj : j = 0 := by omega
      subst hj
      exact Or.inr ⟨by omega, by simpa using hm⟩
  rw [if_pos hc2, hn]

theorem toDigitsCore_eq (fuel n : Nat) (ds : List Nat) :
    Nat.toDigitsCore 10 fuel n (ds.map Nat.digitChar) = (decDigits fuel n ds).map Nat.digitChar := by
  induction fuel generalizing n ds with
  | zero => simp [Nat.toDigitsCore, decDigits]
  | succ fuel ih =>
    simp only [Nat.toDigitsCore, decDigits]
    split
    · simp
    · rw [← List.map_cons, ih]

theorem decDigits_lt (fuel n : Nat) (ds : List Nat) (h : ∀ d ∈ ds, d < 10) :
    ∀ d ∈ decDigits fuel n ds, d < 10 := by
  induction fuel generalizing n ds with
  | zero => simpa [decDigits] using h
  | succ fuel ih =>
    simp only [decDigits]
    have hcons : ∀ d ∈ (n % 10) :: ds, d < 10 := by
      intro d hd
      rcases List.mem_cons.1 hd with rfl | hd
      · exact Nat.mod_lt _ (by decide)
      · exact h d hd
    split
    · exact hcons
    · exact ih _ _ hcons

theorem decDigits_ne_nil (fuel n : Nat) (ds : List Nat) :
    decDigits (fuel + 1) n ds ≠ [] := by
  induction fuel generalizing n ds with
  | zero => simp [decDigits]
  | succ fuel ih =>
    rw [decDigits]
    split
    · simp
    · exact ih _ _

theorem decDigits_value (fuel n : Nat) (ds : List Nat) (h : n < fuel) :
    (decDigits fuel n ds).foldl (fun acc d => acc * 10 + d) 0 =
      ds.foldl (fun acc d => acc * 10 + d) n := by
  induction fuel generalizing n ds with
  | zero => omega
  | succ fuel ih =>
    simp only [decDigits]
    split
    · rename_i h0
      simp only [List.foldl_cons, Nat.zero_mul, Nat.zero_add]
      congr 1
      omega
    · rename_i h0
      rw [ih _ _ (by omega)]
      simp only [List.foldl_cons]
      congr 1
      omega

theorem toDigits_spec (n : Nat) :
    ∃ ds : List Nat, ds ≠ [] ∧ (∀ d ∈ ds, d < 10) ∧
      Nat.toDigits 10 n = ds.map Nat.digitChar ∧
      ds.foldl (fun acc d => acc * 10 + d) 0 = n := by
  refine ⟨decDigits (n + 1) n [], decDigits_ne_nil _ _ _, decDigits_lt _ _ _ (by simp), ?_, ?_⟩
  · have := toDigitsCore_eq (n + 1) n []
    simpa [Nat.toDigits] using this
  · rw [decDigits_value _ _ _ (Nat.lt_succ_self n)]
    rfl

theorem digitValue_digitChar (d : Nat) (h : d < 10) : digitValue (Nat.digitChar d) = some d := by
  interval_cases d <;> rfl

theorem isJsWhitespace_digitChar (d : Nat) (h : d < 10) :
    isJsWhitespace (Nat.digitChar d) = false := by
  interval_cases d <;> rfl

theorem radixDigits_digitChar (ds : List Nat) (h : ∀ d ∈ ds, d < 10) :
    radixDigits 10 (ds.map Nat.digitChar) = ds := by
  induction ds with
  | nil => rfl
  | cons d ds ih =>
    have hd := h d (List.mem_cons_self _ _)
    simp only [List.map_cons, radixDigits, digitValue_digitChar d hd, if_pos hd]
    rw [ih (fun x hx => h x (List.mem_cons_of_mem _ hx))]

theorem radixOf_digitChar (ds : List Nat) (h : ∀ d ∈ ds, d < 10) :
    radixOf (ds.map Nat.digitChar) = 10 := by
  match ds, h with
  | [], _ => rfl
  | [d], h =>
    have hd := h d (List.mem_cons_self _ _)
    interval_cases d <;> rfl
  | d :: d2 :: ds, h =>
    have hd := h d (List.mem_cons_self _ _)
    have hd2 := h d2 (List.mem_cons_of_mem _ (List.mem_cons_self _ _))
    interval_cases d <;> interval_cases d2 <;> rfl

theorem stripSign_digitChar (ds : List Nat) (h : ∀ d ∈ ds, d < 10) :
    stripSign (ds.map Nat.digitChar) = ds.map Nat.digitChar := by
  match ds, h with
  | [], _ => rfl
  | d :: ds, h =>
    have hd := h d (List.mem_cons_self _ _)
    interval_cases d <;> rfl

theorem head_digitChar (ds : List Nat) (h : ∀ d ∈ ds, d < 10) :
    ((ds.map Nat.digitChar).head? == some '-') = false := by
  match ds, h with
  | [], _ => rfl
  | d :: ds, h =>
    have hd := h d (List.mem_cons_self _ _)
    interval_cases d <;> rfl

theorem dropWhile_digitChar (ds : List Nat) (h : ∀ d ∈ ds, d < 10) :
    (ds.map Nat.digitChar).dropWhile isJsWhitespace = ds.map Nat.digitChar := by
  match ds, h with
  | [], _ => rfl
  | d :: ds, h =>
    have hd := h d (List.mem_cons_self _ _)
    simp [List.dropWhile, isJsWhitespace_digitChar d hd]

theorem parseInt_natRepr (n : Nat) :
    parseInt (toString n) =
      match roundToDouble n with
      | some v => .finite (v : Int)
      | none => .posInf := by
  obtain ⟨ds, hne, hlt, hds, hval⟩ := toDigits_spec n
  have hs : (toString n).data = ds.map Nat.digitChar := by
    show (Nat.toDigits 10 n).asString.data = _
    rw [hds]
    rfl
  unfold parseInt
  rw [hs]
  simp only [dropWhile_digitChar ds hlt, head_digitChar ds hlt, stripSign_digitChar ds hlt,
    radixOf_digitChar ds hlt]
  simp [radixDigits_digitChar ds hlt, hval, hne]

theorem parseInt_negRepr (n : Nat) :
    parseInt ("-" ++ toString n) =
      match roundToDouble n with
      | some v => .finite (-(v : Int))
      | none => .negInf := by
  obtain ⟨ds, hne, hlt, hds, hval⟩ := toDigits_spec n
  have hs : ("-" ++ toString n).data = '-' :: ds.map Nat.digitChar := by
    show ("-" ++ (Nat.toDigits 10 n).asString).data = _
    rw [hds]
    rfl
  have h1 : ('-' :: ds.map Nat.digitChar).dropWhile isJsWhitespace =
      '-' :: ds.map Nat.digitChar := rfl
  unfold parseInt
  rw [hs]
  simp only [h1, stripSign, List.head?_cons, radixOf_digitChar ds hlt]
  simp [radixDigits_digitChar ds hlt, hval, hne]

theorem parseInt_toString (a : Int) (h : exactDouble a) :
    parseInt (toString a) = .finite a := by
  obtain ⟨m, e, hm, he, ha⟩ := h
  have hr := roundToDouble_exact m e hm he
  rw [← ha] at hr
  cases a with
  | ofNat n =>
    show parseInt (toString n) = _
    rw [parseInt_natRepr]
    have hn : (Int.ofNat n).natAbs = n := rfl
    rw [hn] at hr
    rw [hr]
    rfl
  | negSucc n =>
    show parseInt ("-" ++ toString (n + 1)) = _
    rw [parseInt_negRepr]
    have : (Int.negSucc n).natAbs = n + 1 := rfl
    rw [this] at hr
    rw [hr]
    rfl

/-- A callback that carries the envelope is answered with one of the two
acknowledgements, whichever store operation fails. -/
theorem handleCallback_answer (fault : StoreFault) (cb : StkCallback) (s : PayState) :
    (handleCallback fault { Body := some { stkCallback := some cb } } s).1 = successAck ∨
    (handleCallback fault { Body := some { stkCallback := some cb } } s).1 = failedAck := by
  unfold handleCallback
  simp only
  split
  · split
    · right; rfl
    · split
      · right; rfl
      · split
        · right; rfl
        · split
          · right; rfl
          · split
            · left; rfl
            · split
              · split
                · right; rfl
                · left; rfl
              · right; rfl
              · left; rfl
  · left; rfl

theorem findValue_none_of_absent (metadata : List MetadataItem) (tag : String)
    (h : ∀ item ∈ metadata, item.Name ≠ tag) : findValue metadata tag = none := by
  unfold findValue
  have : metadata.find? (fun item => item.Name == tag) = none := by
    rw [List.find?_eq_none]
    intro item hi
    simpa using h item hi
  rw [this]

theorem findValue_sameButAmount (m1 m2 : List MetadataItem) (tag : String)
    (h : sameButAmount m1 m2 = true) (h1 : tag ≠ "Amount") (h2 : tag ≠ "TransactionDate") :
    findValue m1 tag = findValue m2 tag := by
  induction m1 generalizing m2 with
  | nil =>
    cases m2 with
    | nil => rfl
    | cons b bs => simp [sameButAmount] at h
  | cons a as ih =>
    cases m2 with
    | nil => simp [sameButAmount] at h
    | cons b bs =>
      simp only [sameButAmount, Bool.and_eq_true, Bool.or_eq_true, beq_iff_eq] at h
      obtain ⟨⟨hname, hval⟩, hrest⟩ := h
      have ihr := ih bs hrest
      unfold findValue at ihr ⊢
      by_cases ha : a.Name = tag
      · have hb : b.Name = tag := by rw [← hname]; exact ha
        have hv : a.Value = b.Value := by
          rcases hval with (hv | hv) | hv
          · exact absurd (ha ▸ hv) h1
          · exact absurd (ha ▸ hv) h2
          · exact hv
        simp [List.find?_cons, ha, hb, hv]
      · have hb : ¬ b.Name = tag := by rw [← hname]; exact ha
        have hab : (a.Name == tag) = false := by simpa using ha
        have hbb : (b.Name == tag) = false := by simpa using hb
        simp only [List.find?_cons, hab, hbb]
        exact ihr

theorem ratCeil_eq (a : Rat) : Rat.ceil a = ⌈a⌉ := by
  unfold Rat.ceil
  split
  · next h =>
    have h1 : ((a.num : Int) : Rat) = a := Rat.coe_int_num_of_den_eq_one h
    conv_rhs => rw [← h1]
    exact (Int.ceil_intCast a.num).symm
  · next h =>
    symm
    rw [Int.ceil_eq_iff]
    have hf : ⌊a⌋ = a.num / a.den := Rat.floor_def
    rw [← hf]
    have hle : (⌊a⌋ : Rat) ≤ a := Int.floor_le a
    have hne : (⌊a⌋ : Rat) ≠ a := by
      intro he
      apply h
      rw [← he]
      exact Rat.intCast_den _
    have hlt : (⌊a⌋ : Rat) < a := lt_of_le_of_ne hle hne
    have hlt2 : a < ⌊a⌋ + 1 := Int.lt_floor_add_one a
    constructor
    · push_cast; linarith
    · push_cast; linarith

/-- The answer of `GET /api/vaccinations/upcoming` when `parseInt` reads the age
`a`: the age and chick type are echoed, the upcoming entries are those with
day above `a`, the recent ones the last at most two with day up to `a`. -/
theorem getUpcoming_of_age (query : UpcomingQuery) (chickAge : String) (a : Int)
    (hq : query.chickAge = some chickAge) (ha : parseInt chickAge = .finite a) :
    ∃ upcoming recent, getUpcoming query =
        .ok (.finite a) (query.chickType.getD "layer") upcoming recent ∧
      upcoming = (getSchedule query.chickType).schedule.filter (fun v => decide (v.day > a)) ∧
      (∃ older, (getSchedule query.chickType).schedule.filter (fun v => decide (v.day ≤ a)) =
        older ++ recent) ∧
      recent.length = min 2
        ((getSchedule query.chickType).schedule.filter (fun v => decide (v.day ≤ a))).length ∧
      (∀ r ∈ recent, ∀ u ∈ upcoming, r.day ≤ a ∧ a < u.day ∧ r.day < u.day) ∧
      (∃ earlier, (getSchedule query.chickType).schedule = earlier ++ recent ++ upcoming) := by
  have hne : chickAge ≠ "" := by
    intro h
    rw [h, parseInt_empty] at ha
    cases ha
  have hsplit := filter_split_of_sorted (getSchedule query.chickType).schedule a
    (getSchedule_sorted query.chickType)
  obtain ⟨hold, hlen⟩ := sliceLast2_spec
    ((getSchedule query.chickType).schedule.filter (fun v => decide (v.day ≤ a)))
  refine ⟨(getSchedule query.chickType).schedule.filter (fun v => decide (v.day > a)),
    sliceLast2 ((getSchedule query.chickType).schedule.filter (fun v => decide (v.day ≤ a))),
    ?_, rfl, ⟨_, hold⟩, hlen, ?_, ?_⟩
  · unfold getUpcoming
    rw [hq]
    simp only [hne, if_false, ha, dayAfter, dayUpTo, getSchedule]
  · intro r hr u hu
    have hr2 : r ∈ (getSchedule query.chickType).schedule.filter (fun v => decide (v.day ≤ a)) :=
      List.mem_of_mem_drop hr
    rw [List.mem_filter] at hr2 hu
    have h1 := hr2.2
    have h2 := hu.2
    simp only [decide_eq_true_eq] at h1 h2
    omega
  · refine ⟨((getSchedule query.chickType).schedule.filter (fun v => decide (v.day ≤ a))).take
      (((getSchedule query.chickType).schedule.filter (fun v => decide (v.day ≤ a))).length - 2),
      ?_⟩
    rw [← hold, hsplit]

/-! ## Theorems -/

/-- C1: for every store, configured cap and date, `checkAvailability` returns as
`totalVisitors` the sum of `numberOfVisitors` over exactly the bookings whose
`visitDate` falls on the calendar day of the date and whose status is pending or
confirmed, as `spotsLeft` the cap minus that total, and as `available` whether
the total is below the cap. -/
theorem checkAvailability_contract (env : Env) (store : List Visit) (date : Int) :
    (checkAvailability env store date).totalVisitors = (activeCountsOn env store date).sum ∧
    (checkAvailability env store date).spotsLeft =
      maxVisitors env - (activeCountsOn env store date).sum ∧
    (checkAvailability env store date).available =
      decide ((activeCountsOn env store date).sum < maxVisitors env) := by
  have h := totalVisitors_eq env store date
  refine ⟨h, ?_, ?_⟩
  · rw [← h]; rfl
  · rw [← h]; rfl

/-- C2 (as stated, refuted): with the default cap of 20, booking 10 visitors,
cancelling, booking 10 and 10 again and having the operator set the cancelled
booking to confirmed reaches a store with 30 counted visitors on one date; and
with a configured cap of -5 the empty store already exceeds the cap. -/
theorem cap_invariant_fails :
    maxVisitors defaultEnv = 20 ∧
    (checkAvailability defaultEnv (runOps defaultEnv reactivationOps []) june1).totalVisitors
      = 30 ∧
    ¬ (checkAvailability defaultEnv (runOps defaultEnv reactivationOps []) june1).totalVisitors
      ≤ maxVisitors defaultEnv ∧
    ¬ (checkAvailability { MAX_VISITORS_PER_DAY := some (-5), tzOffsetMs := 0 }
        (runOps { MAX_VISITORS_PER_DAY := some (-5), tzOffsetMs := 0 } [] []) june1).totalVisitors
      ≤ maxVisitors { MAX_VISITORS_PER_DAY := some (-5), tzOffsetMs := 0 } := by
  refine ⟨by decide, by decide, by decide, by decide⟩

/-- C2 (amended): under a non-negative cap, in every state reached from the empty
store by a sequential series of scheduleVisit, cancelVisit and operator status
updates none of which moves a non-counting booking to pending or confirmed, the
counted visitors of any date do not exceed the cap. -/
theorem cap_invariant_without_reactivation (env : Env) (ops : List VisitOp) (date : Int)
    (hcap : 0 ≤ maxVisitors env) (hre : noReactivation env ops [] = true) :
    (checkAvailability env (runOps env ops []) date).totalVisitors ≤ maxVisitors env := by
  have h0 : CapInv env [] := by
    constructor
    · intro v hv; simp at hv
    · intro d; simpa [checkAvailability, findForDay] using hcap
  exact (capInv_runOps env ops [] h0 hre).2 date

/-- Witness for C2 (amended): a booking, its confirmation by the operator, a
second booking and a cancellation under the default cap. -/
theorem cap_invariant_without_reactivation_witness :
    (checkAvailability defaultEnv
      (runOps defaultEnv
        [.schedule 0 1 (requestFor 10), .adminStatus 1 "confirmed",
         .schedule 0 2 (requestFor 10), .cancel 2 2] []) june1).totalVisitors
      ≤ maxVisitors defaultEnv :=
  cap_invariant_without_reactivation defaultEnv
    [.schedule 0 1 (requestFor 10), .adminStatus 1 "confirmed",
     .schedule 0 2 (requestFor 10), .cancel 2 2] june1 (by decide) (by decide)

/-- C3: for a request with a valid date, whenever `available` is false or
`spotsLeft` is below the requested visitor count, scheduleVisit answers 400,
returns no booking, leaves the store unchanged, and its message carries the
current `spotsLeft` value. -/
theorem scheduleVisit_rejects (env : Env) (now : Int) (user : Nat) (req : VisitRequest)
    (store : List Visit) (d : Int) (hd : req.visitDate = some d)
    (h : (checkAvailability env store d).available = false ∨
      ∃ n, req.numberOfVisitors = some n ∧ (checkAvailability env store d).spotsLeft < n) :
    scheduleVisit env now user req store =
      ({ code := 400, success := false
         message := "Sorry, only " ++ toString (checkAvailability env store d).spotsLeft ++
           " spots available on this date"
         visit := none }, store) := by
  have hrej : (!(checkAvailability env store d).available ||
      spotsBelow (checkAvailability env store d).spotsLeft req.numberOfVisitors) = true := by
    rcases h with h | ⟨n, hn, hlt⟩
    · simp [h]
    · simp [hn, spotsBelow, hlt]
  unfold scheduleVisit
  rw [hd]
  simp only
  rw [if_pos hrej]
  rfl

/-- Witness for C3: 6 visitors asked for when 5 spots are left. -/
theorem scheduleVisit_rejects_witness :
    scheduleVisit defaultEnv 0 9 (requestFor 6) scenarioStore =
      ({ code := 400, success := false
         message := "Sorry, only " ++
           toString (checkAvailability defaultEnv scenarioStore june1).spotsLeft ++
           " spots available on this date"
         visit := none }, scenarioStore) :=
  scheduleVisit_rejects defaultEnv 0 9 (requestFor 6) scenarioStore june1 rfl
    (Or.inr ⟨6, rfl, by decide⟩)

/-- C4: when scheduleVisit accepts a request (answer 201), the request carried a
date and a visitor count with `available` true, `spotsLeft` at least the count
and the count in [1,10]; the store afterwards is the old store followed by
exactly one new booking, which has status pending, the requester as owner and
the requested visitor count; and `totalVisitors` for that date has grown by
exactly the count. -/
theorem scheduleVisit_accepts (env : Env) (now : Int) (user : Nat) (req : VisitRequest)
    (store : List Visit) (hacc : (scheduleVisit env now user req store).1.code = 201) :
    ∃ d n v, req.visitDate = some d ∧ req.numberOfVisitors = some n ∧
      (checkAvailability env store d).available = true ∧
      n ≤ (checkAvailability env store d).spotsLeft ∧ 1 ≤ n ∧ n ≤ 10 ∧
      (scheduleVisit env now user req store).1.visit = some v ∧
      (scheduleVisit env now user req store).2 = store ++ [v] ∧
      v.status = "pending" ∧ v.user = user ∧ v.numberOfVisitors = n ∧ v.visitDate = d ∧
      (checkAvailability env (scheduleVisit env now user req store).2 d).totalVisitors =
        (checkAvailability env store d).totalVisitors + n := by
  rcases scheduleVisit_cases env now user req store with hsame | ⟨d, t, n, hd, _, hn, h1, h10, hav, hsp, heq⟩
  · exact absurd hacc hsame.2
  · refine ⟨d, n, newVisit store now user d t n req, hd, hn, hav, hsp, h1, h10, ?_, ?_,
      rfl, rfl, rfl, rfl, ?_⟩
    · rw [heq]
    · rw [heq]
    · rw [heq, total_append]
      simp [countedOn, newVisit, statusCounts]

/-- Witness for C4: 5 visitors asked for when 5 spots are left. -/
theorem scheduleVisit_accepts_witness :
    ∃ d n v, (requestFor 5).visitDate = some d ∧ (requestFor 5).numberOfVisitors = some n ∧
      (checkAvailability defaultEnv scenarioStore d).available = true ∧
      n ≤ (checkAvailability defaultEnv scenarioStore d).spotsLeft ∧ 1 ≤ n ∧ n ≤ 10 ∧
      (scheduleVisit defaultEnv 0 9 (requestFor 5) scenarioStore).1.visit = some v ∧
      (scheduleVisit defaultEnv 0 9 (requestFor 5) scenarioStore).2 = scenarioStore ++ [v] ∧
      v.status = "pending" ∧ v.user = 9 ∧ v.numberOfVisitors = n ∧ v.visitDate = d ∧
      (checkAvailability defaultEnv
        (scheduleVisit defaultEnv 0 9 (requestFor 5) scenarioStore).2 d).totalVisitors =
        (checkAvailability defaultEnv scenarioStore d).totalVisitors + n :=
  scheduleVisit_accepts defaultEnv 0 9 (requestFor 5) scenarioStore (by decide)

/-- A request meeting the admission conditions whose other fields pass the schema
validation is accepted. -/
theorem scheduleVisit_accepts_of_valid (env : Env) (now : Int) (user : Nat)
    (req : VisitRequest) (store : List Visit) (d n : Int) (t : String)
    (hd : req.visitDate = some d) (ht : req.visitTime = some t) (ht0 : t ≠ "")
    (hn : req.numberOfVisitors = some n) (h1 : 1 ≤ n) (h10 : n ≤ 10)
    (hp : ∀ p, req.purpose = some p → p ∈ purposeEnum)
    (hav : (checkAvailability env store d).available = true)
    (hsp : n ≤ (checkAvailability env store d).spotsLeft) :
    scheduleVisit env now user req store =
      ({ code := 201, success := true, message := "Visit scheduled successfully"
         visit := some (newVisit store now user d t n req) },
       store ++ [newVisit store now user d t n req]) := by
  have hv : validatesCreate req = true := by
    unfold validatesCreate
    rw [hd, ht, hn]
    cases hpp : req.purpose with
    | none => simp [ht0, h1, h10]
    | some p =>
      have := hp p hpp
      simp [ht0, h1, h10, this]
  have hrej : ¬ (!(checkAvailability env store d).available ||
      spotsBelow (checkAvailability env store d).spotsLeft req.numberOfVisitors) = true := by
    simp [hav, hn, spotsBelow, hsp]
  unfold scheduleVisit
  rw [hd]
  simp only
  rw [if_neg hrej, ht, hn]
  simp only
  rw [if_pos hv]

/-- C5: for a booking with status pending or confirmed, cancelVisit by its owner
answers 200 and changes the store in that single booking only, whose status
becomes cancelled and whose other fields are kept; `totalVisitors` of every
instant on the booking's date drops by exactly its visitor count. -/
theorem cancelVisit_frees (env : Env) (id : Nat) (requester : Nat) (store : List Visit)
    (v : Visit) (hf : findById store id = some v) (hown : v.user = requester)
    (hst : v.status = "pending" ∨ v.status = "confirmed") :
    (cancelVisit id requester store).1.code = 200 ∧
    (∃ pre post, store = pre ++ v :: post ∧
      (cancelVisit id requester store).2 = pre ++ { v with status := "cancelled" } :: post) ∧
    ∀ date, calendarDay env date = calendarDay env v.visitDate →
      (checkAvailability env (cancelVisit id requester store).2 date).totalVisitors =
        (checkAvailability env store date).totalVisitors - v.numberOfVisitors := by
  have hc : cancelVisit id requester store =
      ({ code := 200, success := true, message := "Visit cancelled successfully"
         visit := some { v with status := "cancelled" } },
       setStatus id "cancelled" store) := by
    unfold cancelVisit
    rw [hf]
    simp [hown]
  obtain ⟨pre, post, h1, h2, _⟩ := setStatus_split id "cancelled" store v hf
  rw [hc]
  refine ⟨rfl, ⟨pre, post, h1, h2⟩, ?_⟩
  intro date hday
  have hcounts : statusCounts v.status = true := by
    rcases hst with h | h <;> simp [statusCounts, h]
  simp only [h2]
  rw [h1, total_split, total_split]
  have ha : countedOn env date v = v.numberOfVisitors := by
    simp [countedOn, hday, hcounts]
  have hb : countedOn env date { v with status := "cancelled" } = 0 := by
    simp [countedOn, statusCounts]
  rw [ha, hb]
  omega

/-- Witness for C5: user 7 cancels the 6-visitor booking of the scenario store. -/
theorem cancelVisit_frees_witness :
    (cancelVisit 2 7 scenarioStore).1.code = 200 ∧
    (∃ pre post, scenarioStore = pre ++ bookingOn1June 2 6 "pending" :: post ∧
      (cancelVisit 2 7 scenarioStore).2 =
        pre ++ { bookingOn1June 2 6 "pending" with status := "cancelled" } :: post) ∧
    ∀ date, calendarDay defaultEnv date =
        calendarDay defaultEnv (bookingOn1June 2 6 "pending").visitDate →
      (checkAvailability defaultEnv (cancelVisit 2 7 scenarioStore).2 date).totalVisitors =
        (checkAvailability defaultEnv scenarioStore date).totalVisitors -
          (bookingOn1June 2 6 "pending").numberOfVisitors :=
  cancelVisit_frees defaultEnv 2 7 scenarioStore (bookingOn1June 2 6 "pending")
    (by decide) rfl (Or.inl rfl)

/-- C6: the end-to-end scenario with cap 20 and three pending bookings of 5, 6 and
4 visitors on 2025-06-01: availability is (true, 5, 15); a request for 6 is
rejected and the store kept; a request for 5 is accepted, after which the total
is 20 and the date is no longer available. -/
theorem scenario_2025_06_01 :
    maxVisitors defaultEnv = 20 ∧
    checkAvailability defaultEnv scenarioStore june1 =
      { available := true, spotsLeft := 5, totalVisitors := 15 } ∧
    (scheduleVisit defaultEnv 0 9 (requestFor 6) scenarioStore).1.code = 400 ∧
    (scheduleVisit defaultEnv 0 9 (requestFor 6) scenarioStore).2 = scenarioStore ∧
    (scheduleVisit defaultEnv 0 9 (requestFor 5) scenarioStore).1.code = 201 ∧
    (checkAvailability defaultEnv
      (scheduleVisit defaultEnv 0 9 (requestFor 5) scenarioStore).2 june1).totalVisitors = 20 ∧
    (checkAvailability defaultEnv
      (scheduleVisit defaultEnv 0 9 (requestFor 5) scenarioStore).2 june1).available = false := by
  refine ⟨by decide, by decide, by decide, by decide, by decide, by decide, by decide⟩

/-- C7 (as stated, refuted): a single completed booking with 5 visitors is a list
of non-cancelled bookings on one date, yet the computed total is 0, not 5. -/
theorem completed_not_counted :
    (∀ v ∈ [bookingOn1June 1 5 "completed"],
      calendarDay defaultEnv v.visitDate = calendarDay defaultEnv june1 ∧
      (v.status = "pending" ∨ v.status = "confirmed" ∨ v.status = "completed")) ∧
    (checkAvailability defaultEnv [bookingOn1June 1 5 "completed"] june1).totalVisitors = 0 ∧
    (([bookingOn1June 1 5 "completed"]).map (fun v => v.numberOfVisitors)).sum = 5 ∧
    (checkAvailability defaultEnv [bookingOn1June 1 5 "completed"] june1).totalVisitors ≠
      (([bookingOn1June 1 5 "completed"]).map (fun v => v.numberOfVisitors)).sum := by
  refine ⟨?_, by decide, by decide, by decide⟩
  intro v hv
  simp only [List.mem_singleton] at hv
  subst hv
  exact ⟨rfl, Or.inr (Or.inr rfl)⟩

/-- C7 (amended): for every list of bookings on a single date whose status is
pending or confirmed, the `totalVisitors` computed for that date is the exact
sum of all their visitor counts, and `available` is true if and only if
`totalVisitors` is below the cap. -/
theorem total_of_active_bookings (env : Env) (bookings : List Visit) (date : Int)
    (h : ∀ v ∈ bookings, calendarDay env v.visitDate = calendarDay env date ∧
      (v.status = "pending" ∨ v.status = "confirmed")) :
    (checkAvailability env bookings date).totalVisitors =
      (bookings.map (fun v => v.numberOfVisitors)).sum ∧
    ((checkAvailability env bookings date).available = true ↔
      (checkAvailability env bookings date).totalVisitors < maxVisitors env) := by
  constructor
  · rw [totalVisitors_eq_counted]
    congr 1
    apply List.map_congr_left
    intro v hv
    obtain ⟨hday, hst⟩ := h v hv
    have hcounts : statusCounts v.status = true := by
      rcases hst with h | h <;> simp [statusCounts, h]
    simp [countedOn, hday, hcounts]
  · simp [checkAvailability]

/-- Witness for C7 (amended): the three pending bookings of the scenario store. -/
theorem total_of_active_bookings_witness :
    (checkAvailability defaultEnv scenarioStore june1).totalVisitors =
      (scenarioStore.map (fun v => v.numberOfVisitors)).sum ∧
    ((checkAvailability defaultEnv scenarioStore june1).available = true ↔
      (checkAvailability defaultEnv scenarioStore june1).totalVisitors
        < maxVisitors defaultEnv) :=
  total_of_active_bookings defaultEnv scenarioStore june1 (by decide)

/-- C8 (as stated, refuted): "254712345" and "012345678" are digit strings whose
bare form does not normalize to "254" followed by the digits, while their
"0"-prefixed form does. -/
theorem four_forms_fail :
    isDigits "254712345" = true ∧
    formatPhoneNumber "254712345" ≠ "254" ++ "254712345" ∧
    formatPhoneNumber ("0" ++ "254712345") = "254" ++ "254712345" ∧
    isDigits "012345678" = true ∧
    formatPhoneNumber "012345678" ≠ "254" ++ "012345678" ∧
    formatPhoneNumber ("0" ++ "012345678") = "254" ++ "012345678" := by
  refine ⟨by decide, by decide, by decide, by decide, by decide, by decide⟩

/-- C8 (amended): for every digit string `d` that begins with neither "0" nor
"254", the four input forms "0"+d, "+254"+d, "254"+d and d all normalize to the
same canonical value "254"+d. -/
theorem four_forms_agree (d : String) (hd : isDigits d = true)
    (h0 : startsWith d "0" = false) (h254 : startsWith d "254" = false) :
    formatPhoneNumber ("0" ++ d) = "254" ++ d ∧
    formatPhoneNumber ("+254" ++ d) = "254" ++ d ∧
    formatPhoneNumber ("254" ++ d) = "254" ++ d ∧
    formatPhoneNumber d = "254" ++ d := by
  have hempty : (stripWhitespace d).data = d.data := by
    have := stripWhitespace_digits "" d (by simp) hd
    simpa using this
  refine ⟨?_, ?_, ?_, ?_⟩
  · have h := stripWhitespace_digits "0" d (by decide) hd
    rw [formatPhoneNumber_zero _ d.data h, append254]
  · have h := stripWhitespace_digits "+254" d (by decide) hd
    rw [formatPhoneNumber_plus _ d.data h, append254]
  · have h := stripWhitespace_digits "254" d (by decide) hd
    rw [formatPhoneNumber_254 _ d.data h]
    apply String.ext
    rw [h, String.data_append]
  · have hs : stripWhitespace d = d := String.ext hempty
    have k0 : ∀ rest, (stripWhitespace d).data ≠ '0' :: rest := by
      intro r hr
      have := (startsWith_zero (stripWhitespace d)).mpr ⟨r, hr⟩
      rw [hs, h0] at this
      exact Bool.noConfusion this
    have k2 : ∀ rest, (stripWhitespace d).data ≠ '2' :: '5' :: '4' :: rest := by
      intro r hr
      have := (startsWith_254 (stripWhitespace d)).mpr ⟨r, hr⟩
      rw [hs, h254] at this
      exact Bool.noConfusion this
    have k1 : ∀ rest, (stripWhitespace d).data ≠ '+' :: '2' :: '5' :: '4' :: rest := by
      intro r hr
      rw [hempty] at hr
      simp only [isDigits, List.all_eq_true] at hd
      have := hd '+' (by rw [hr]; simp)
      exact absurd this (by decide)
    rw [formatPhoneNumber_other d k0 k1 k2, hempty, append254]

/-- Witness for C8 (amended): the digits 712345678. -/
theorem four_forms_agree_witness :
    formatPhoneNumber ("0" ++ "712345678") = "254" ++ "712345678" ∧
    formatPhoneNumber ("+254" ++ "712345678") = "254" ++ "712345678" ∧
    formatPhoneNumber ("254" ++ "712345678") = "254" ++ "712345678" ∧
    formatPhoneNumber "712345678" = "254" ++ "712345678" :=
  four_forms_agree "712345678" (by decide) (by decide) (by decide)

/-- C9: `formatPhoneNumber` is idempotent on every input string, and in
particular on 0712345678, +254712345678, 254712345678 and 712345678. -/
theorem formatPhoneNumber_idempotent (p : String) :
    formatPhoneNumber (formatPhoneNumber p) = formatPhoneNumber p ∧
    formatPhoneNumber (formatPhoneNumber "0712345678") = formatPhoneNumber "0712345678" ∧
    formatPhoneNumber (formatPhoneNumber "+254712345678") = formatPhoneNumber "+254712345678" ∧
    formatPhoneNumber (formatPhoneNumber "254712345678") = formatPhoneNumber "254712345678" ∧
    formatPhoneNumber (formatPhoneNumber "712345678") = formatPhoneNumber "712345678" := by
  have key : ∀ q, formatPhoneNumber (formatPhoneNumber q) = formatPhoneNumber q := by
    intro q
    obtain ⟨rest, h, hc⟩ := formatPhoneNumber_shape q
    exact formatPhoneNumber_fixed _ rest h hc
  exact ⟨key p, key _, key _, key _, key _⟩

/-- C10: `formatPhoneNumber` computes the rule of the specification: on the input
with whitespace removed, a leading "0" is replaced by "254", a leading "+254"
loses its "+", a string not beginning with "254" gets "254" prepended, and a
string beginning with "254" is returned untouched. -/
theorem formatPhoneNumber_eq_normalizeSpec (phone : String) :
    formatPhoneNumber phone = normalizeSpec phone := by
  unfold normalizeSpec
  simp only
  split
  · next rest h => rw [formatPhoneNumber_zero phone rest h, append254]
  · next rest h => rw [formatPhoneNumber_plus phone rest h]
  · next rest h => rw [formatPhoneNumber_254 phone rest h]
  · next h0 h1 h2 => rw [formatPhoneNumber_other phone h0 h1 h2, append254]

/-- C11: a callback with `ResultCode` 0 whose metadata carries the phone number,
when at least one pending order stores that number normalised (order ids being
unique), changes exactly one order: its `paymentStatus` becomes completed, its
`orderStatus` processing, its `mpesaReceiptNumber` the callback's
`MpesaReceiptNumber`, its `mpesaTransactionId` the callback's
`CheckoutRequestID`, and one history entry with status processing is appended;
every other order is unchanged. -/
theorem handleCallback_finalizes_one (s : PayState) (cb : StkCallback)
    (metadata : List MetadataItem) (phone : JsonValue) (hrc : cb.ResultCode = some 0)
    (hmd : cb.CallbackMetadata = some { Item := some metadata })
    (hph : findValue metadata "PhoneNumber" = some phone)
    (hex : ∃ x ∈ s.orders, x.phoneNumber = some (formatPhoneNumber (valueToString phone)) ∧
      x.paymentStatus = "pending")
    (hids : (s.orders.map (fun x => x._id)).Nodup) :
    ∃ pre o post, s.orders = pre ++ o :: post ∧
      o.phoneNumber = some (formatPhoneNumber (valueToString phone)) ∧
      o.paymentStatus = "pending" ∧
      (handleCallback .none { Body := some { stkCallback := some cb } } s).2.orders =
        pre ++ { o with
                 paymentStatus := "completed"
                 orderStatus := "processing"
                 mpesaReceiptNumber := findValue metadata "MpesaReceiptNumber"
                 mpesaTransactionId := cb.CheckoutRequestID
                 statusHistory := o.statusHistory ++
                   [{ status := "processing", note := "Payment received successfully" }] }
               :: post := by
  obtain ⟨pre, o, post, h1, hp, hs, _, heq⟩ :=
    callback_effect s cb metadata phone hrc hmd hph hex hids
  refine ⟨pre, o, post, h1, hp, hs, ?_⟩
  rw [heq]
  rfl

/-- Witness for C11: the sample callback on the scenario store finalizes order 2. -/
theorem handleCallback_finalizes_one_witness :
    ∃ pre o post, payScenario.orders = pre ++ o :: post ∧
      o.phoneNumber = some (formatPhoneNumber (valueToString (.num 254712345678))) ∧
      o.paymentStatus = "pending" ∧
      (handleCallback .none { Body := some { stkCallback := some (sampleStk 0) } }
        payScenario).2.orders =
        pre ++ { o with
                 paymentStatus := "completed"
                 orderStatus := "processing"
                 mpesaReceiptNumber := findValue sampleMetadata "MpesaReceiptNumber"
                 mpesaTransactionId := (sampleStk 0).CheckoutRequestID
                 statusHistory := o.statusHistory ++
                   [{ status := "processing", note := "Payment received successfully" }] }
               :: post :=
  handleCallback_finalizes_one payScenario (sampleStk 0) sampleMetadata (.num 254712345678)
    rfl rfl (by decide)
    ⟨sampleOrder 2 (some "254712345678") "pending" 20 2, by simp [payScenario], by decide, rfl⟩
    (by decide)

/-- C12: when a callback finalizes an order (product ids being unique), every
product's quantity decreases and its sold counter increases by exactly the
total quantity of the order's line items that reference it, so that quantity
plus sold is kept and the other fields are untouched; a product no line item
references is unchanged. -/
theorem handleCallback_inventory (req : CallbackRequest) (s : PayState) (o : Order)
    (hfin : finalizedOrder req s.orders = some o)
    (hids : (s.products.map (fun p => p._id)).Nodup) :
    (handleCallback .none req s).2.products =
      s.products.map (fun p =>
        { p with quantity := p.quantity - orderedQty o.items p._id
                 sold := p.sold + orderedQty o.items p._id }) ∧
    (∀ p, (settle o.items p).quantity + (settle o.items p).sold = p.quantity + p.sold) ∧
    (∀ p, (∀ item ∈ o.items, item.product ≠ p._id) → settle o.items p = p) := by
  obtain ⟨cb, metadata, _, _, _, heq⟩ := handleCallback_finalizes req s o hfin
  refine ⟨?_, ?_, ?_⟩
  · rw [heq]
    exact applyItems_eq_map o.items s.products hids
  · intro p
    simp only [settle]
    omega
  · intro p hp
    have h0 : orderedQty o.items p._id = 0 := by
      unfold orderedQty
      have : o.items.filter (fun item => item.product == p._id) = [] := by
        rw [List.filter_eq_nil_iff]
        intro item hi
        simpa using hp item hi
      rw [this]; rfl
    cases p
    simp_all [settle]

/-- Witness for C12: the sample callback on the scenario store. -/
theorem handleCallback_inventory_witness :
    (handleCallback .none (sampleCallback 0) payScenario).2.products =
      payScenario.products.map (fun p =>
        { p with
          quantity := p.quantity -
            orderedQty (sampleOrder 2 (some "254712345678") "pending" 20 2).items p._id
          sold := p.sold +
            orderedQty (sampleOrder 2 (some "254712345678") "pending" 20 2).items p._id }) ∧
    (∀ p, (settle (sampleOrder 2 (some "254712345678") "pending" 20 2).items p).quantity +
        (settle (sampleOrder 2 (some "254712345678") "pending" 20 2).items p).sold =
        p.quantity + p.sold) ∧
    (∀ p, (∀ item ∈ (sampleOrder 2 (some "254712345678") "pending" 20 2).items,
        item.product ≠ p._id) →
      settle (sampleOrder 2 (some "254712345678") "pending" 20 2).items p = p) :=
  handleCallback_inventory (sampleCallback 0) payScenario
    (sampleOrder 2 (some "254712345678") "pending" 20 2) (by decide) (by decide)

/-- C13 (the code at the failing input): with two pending orders for the callback's
phone, the second delivery of the same success callback finalizes the other
order and takes its items out of stock as well, so that two deliveries do not
leave the state of one: product 1 goes from 10 to 7 after one delivery and to
5 after two. -/
theorem callback_twice_differs :
    ((handleCallback .none (sampleCallback 0) twoPendingScenario).2.products.map
      (fun p => p.quantity)) = [7] ∧
    ((handleCallback .none (sampleCallback 0)
      (handleCallback .none (sampleCallback 0) twoPendingScenario).2).2.products.map
      (fun p => p.quantity)) = [5] ∧
    ((handleCallback .none (sampleCallback 0) twoPendingScenario).2.orders.map
      (fun o => o.paymentStatus)) = ["pending", "completed"] ∧
    ((handleCallback .none (sampleCallback 0)
      (handleCallback .none (sampleCallback 0) twoPendingScenario).2).2.orders.map
      (fun o => o.paymentStatus)) = ["completed", "completed"] ∧
    (handleCallback .none (sampleCallback 0)
      (handleCallback .none (sampleCallback 0) twoPendingScenario).2).2 ≠
      (handleCallback .none (sampleCallback 0) twoPendingScenario).2 := by
  refine ⟨by decide, by decide, by decide, by decide, by decide⟩

/-- Redelivery is harmless when the phone is unambiguous: for every store state
with unique order ids in which at most one pending order stores the normalised
phone of the callback, delivering the same callback twice leaves orders and
products as delivering it once. -/
theorem callback_twice_same (req : CallbackRequest) (s : PayState)
    (hids : (s.orders.map (fun x => x._id)).Nodup)
    (hone : ∀ phone, callbackPhone req = some phone →
      (s.orders.filter (matchesPending phone)).length ≤ 1) :
    (handleCallback .none req (handleCallback .none req s).2).2 =
      (handleCallback .none req s).2 := by
  cases hfin : finalizedOrder req s.orders with
  | none =>
    rw [handleCallback_idle req s hfin, handleCallback_idle req s hfin]
  | some o =>
    obtain ⟨cb, metadata, _, _, _, heq⟩ := handleCallback_finalizes req s o hfin
    rw [heq]
    apply handleCallback_idle
    simp only
    unfold finalizedOrder at hfin ⊢
    cases hph : callbackPhone req with
    | none => rfl
    | some phone =>
      rw [hph] at hfin
      simp only at hfin ⊢
      obtain ⟨hmem, hp, hs, _⟩ := findPendingByPhone_some _ _ o hfin
      obtain ⟨pre, post, h1, h2⟩ := saveOrder_split s.orders o hmem hids
      rw [h2 (markPaid o (findValue metadata "MpesaReceiptNumber") cb.CheckoutRequestID) rfl,
        findPendingByPhone_none]
      have hm : matchesPending phone o = true := by simp [matchesPending, hp, hs]
      have hlen := hone phone hph
      rw [h1, List.filter_append, List.filter_cons, if_pos hm] at hlen
      simp only [List.length_append, List.length_cons] at hlen
      have hpre : pre.filter (matchesPending phone) = [] := by
        apply List.eq_nil_of_length_eq_zero; omega
      have hpost : post.filter (matchesPending phone) = [] := by
        apply List.eq_nil_of_length_eq_zero; omega
      rw [List.filter_eq_nil_iff] at hpre hpost
      intro x hx hmx
      have hxm : matchesPending phone x = true := by simp [matchesPending, hmx.1, hmx.2]
      rcases List.mem_append.mp hx with hx | hx
      · exact hpre x hx hxm
      · rcases List.mem_cons.mp hx with hx | hx
        · subst hx
          simp [markPaid] at hmx
        · exact hpost x hx hxm

/-- An instance of `callback_twice_same`: the scenario store has one pending order
for the callback's phone. -/
theorem callback_twice_same_witness :
    (handleCallback .none (sampleCallback 0)
      (handleCallback .none (sampleCallback 0) payScenario).2).2 =
      (handleCallback .none (sampleCallback 0) payScenario).2 :=
  callback_twice_same (sampleCallback 0) payScenario (by decide)
    (by
      intro phone h
      have hp : callbackPhone (sampleCallback 0) = some "254712345678" := by decide
      rw [hp] at h
      cases h
      decide)

/-- C15 (as stated, refuted): a callback without `Body` is answered with status
400 and the object `{ message: 'Invalid callback data' }`, which is not an
acknowledgement with `ResultCode` and `ResultDesc`. -/
theorem callback_malformed_not_ack :
    (handleCallback .none { Body := none } payScenario).1 =
      { code := 400, body := .message "Invalid callback data" } ∧
    (handleCallback .none { Body := none } payScenario).1.code ≠ 200 := by
  refine ⟨by decide, by decide⟩

/-- C15 (amended): for every callback that carries the `Body.stkCallback`
envelope (success or failure result code, complete or incomplete metadata,
with or without a matching order, and whichever store operation fails), the
answer has status 200 and is the acknowledgement `ResultCode` 0 / 'Success' or
`ResultCode` 1 / 'Failed'. -/
theorem handleCallback_acknowledges (fault : StoreFault) (req : CallbackRequest)
    (s : PayState) (body : CallbackBody) (cb : StkCallback)
    (hB : req.Body = some body) (hcb : body.stkCallback = some cb) :
    (handleCallback fault req s).1.code = 200 ∧
    ((handleCallback fault req s).1.body = .ack 0 "Success" ∨
      (handleCallback fault req s).1.body = .ack 1 "Failed") := by
  have key : (handleCallback fault req s).1 = successAck ∨
      (handleCallback fault req s).1 = failedAck := by
    unfold handleCallback
    rw [hB]
    simp only
    rw [hcb]
    simp only
    split
    · split
      · right; rfl
      · split
        · right; rfl
        · split
          · right; rfl
          · split
            · right; rfl
            · split
              · left; rfl
              · split
                · split
                  · right; rfl
                  · left; rfl
                · right; rfl
                · left; rfl
    · left; rfl
  rcases key with h | h <;> rw [h] <;> simp [successAck, failedAck]

/-- Witness for C15 (amended): the sample callback while `order.save()` fails. -/
theorem handleCallback_acknowledges_witness :
    (handleCallback .save (sampleCallback 0) payScenario).1.code = 200 ∧
    ((handleCallback .save (sampleCallback 0) payScenario).1.body = .ack 0 "Success" ∨
      (handleCallback .save (sampleCallback 0) payScenario).1.body = .ack 1 "Failed") :=
  handleCallback_acknowledges .save (sampleCallback 0) payScenario
    { stkCallback := some (sampleStk 0) } (sampleStk 0) rfl rfl

/-- C16 (as stated, refuted): a callback whose `Body` lacks `stkCallback` is not
answered with the failure acknowledgement (`ResultCode` 1) but with status 400
and a `message`. -/
theorem malformed_answer_is_message :
    (handleCallback .none { Body := some { stkCallback := none } } payScenario).1.body =
      .message "Invalid callback data" ∧
    (handleCallback .none { Body := some { stkCallback := none } } payScenario).1.body ≠
      .ack 1 "Failed" ∧
    (handleCallback .none { Body := some { stkCallback := none } } payScenario).1.code = 400 := by
  refine ⟨by decide, by decide, by decide⟩

/-- C16 (amended): a callback with a malformed body (`Body` absent, or `Body`
without `stkCallback`) is always answered with status 400 and the object
`{ message: 'Invalid callback data' }`, and modifies no order and no product. -/
theorem handleCallback_malformed (fault : StoreFault) (req : CallbackRequest) (s : PayState)
    (h : req.Body = none ∨ ∃ body, req.Body = some body ∧ body.stkCallback = none) :
    handleCallback fault req s =
      ({ code := 400, body := .message "Invalid callback data" }, s) := by
  unfold handleCallback
  rcases h with h | ⟨body, hB, hcb⟩
  · rw [h]; rfl
  · rw [hB]
    simp only
    rw [hcb]
    rfl

/-- Witness for C16 (amended): a callback without `Body`. -/
theorem handleCallback_malformed_witness :
    handleCallback .none { Body := none } twoPendingScenario =
      ({ code := 400, body := .message "Invalid callback data" }, twoPendingScenario) :=
  handleCallback_malformed .none { Body := none } twoPendingScenario (Or.inl rfl)

/-- C17: on a callback with `ResultCode` 0 (order ids being unique, and some
pending order storing the normalised callback phone), the order that is
finalized stores that phone, is pending, and has the greatest `createdAt`
among all such orders; every order that is not pending or stores another
phone is carried over unchanged. -/
theorem callback_selects_newest (s : PayState) (cb : StkCallback)
    (metadata : List MetadataItem) (phone : JsonValue) (hrc : cb.ResultCode = some 0)
    (hmd : cb.CallbackMetadata = some { Item := some metadata })
    (hph : findValue metadata "PhoneNumber" = some phone)
    (hex : ∃ x ∈ s.orders, x.phoneNumber = some (formatPhoneNumber (valueToString phone)) ∧
      x.paymentStatus = "pending")
    (hids : (s.orders.map (fun x => x._id)).Nodup) :
    ∃ pre o post, s.orders = pre ++ o :: post ∧
      (handleCallback .none { Body := some { stkCallback := some cb } } s).2.orders =
        pre ++ markPaid o (findValue metadata "MpesaReceiptNumber") cb.CheckoutRequestID
          :: post ∧
      o.phoneNumber = some (formatPhoneNumber (valueToString phone)) ∧
      o.paymentStatus = "pending" ∧
      (∀ x ∈ s.orders, x.phoneNumber = some (formatPhoneNumber (valueToString phone)) →
        x.paymentStatus = "pending" → x.createdAt ≤ o.createdAt) ∧
      (∀ x ∈ s.orders,
        ¬ (x.phoneNumber = some (formatPhoneNumber (valueToString phone)) ∧
          x.paymentStatus = "pending") →
        x ∈ (handleCallback .none { Body := some { stkCallback := some cb } } s).2.orders) := by
  obtain ⟨pre, o, post, h1, hp, hs, hmax, heq⟩ :=
    callback_effect s cb metadata phone hrc hmd hph hex hids
  refine ⟨pre, o, post, h1, by rw [heq], hp, hs, hmax, ?_⟩
  intro x hx hnot
  rw [heq]
  simp only
  rw [h1] at hx
  rcases List.mem_append.mp hx with hx | hx
  · exact List.mem_append.mpr (Or.inl hx)
  · rcases List.mem_cons.mp hx with hx | hx
    · subst hx; exact absurd ⟨hp, hs⟩ hnot
    · exact List.mem_append.mpr (Or.inr (List.mem_cons_of_mem _ hx))

/-- Witness for C17: on the scenario store the pending order 2 is selected, not the
completed order 1 created later nor order 3 of another phone. -/
theorem callback_selects_newest_witness :
    ∃ pre o post, payScenario.orders = pre ++ o :: post ∧
      (handleCallback .none { Body := some { stkCallback := some (sampleStk 0) } }
        payScenario).2.orders =
        pre ++ markPaid o (findValue sampleMetadata "MpesaReceiptNumber")
          (sampleStk 0).CheckoutRequestID :: post ∧
      o.phoneNumber = some (formatPhoneNumber (valueToString (.num 254712345678))) ∧
      o.paymentStatus = "pending" ∧
      (∀ x ∈ payScenario.orders,
        x.phoneNumber = some (formatPhoneNumber (valueToString (.num 254712345678))) →
        x.paymentStatus = "pending" → x.createdAt ≤ o.createdAt) ∧
      (∀ x ∈ payScenario.orders,
        ¬ (x.phoneNumber = some (formatPhoneNumber (valueToString (.num 254712345678))) ∧
          x.paymentStatus = "pending") →
        x ∈ (handleCallback .none { Body := some { stkCallback := some (sampleStk 0) } }
          payScenario).2.orders) :=
  callback_selects_newest payScenario (sampleStk 0) sampleMetadata (.num 254712345678)
    rfl rfl (by decide)
    ⟨sampleOrder 2 (some "254712345678") "pending" 20 2, by simp [payScenario], by decide, rfl⟩
    (by decide)

/-- C18: a callback with the envelope modifies no order and no product whenever its
`ResultCode` is not 0, and also whenever no pending order stores the
normalised phone of its metadata; in both cases the answer is an
acknowledgement only. -/
theorem handleCallback_no_effect (fault : StoreFault) (s : PayState) (cb : StkCallback)
    (h : cb.ResultCode ≠ some 0 ∨
      ∀ metadata phone, cb.CallbackMetadata = some { Item := some metadata } →
        findValue metadata "PhoneNumber" = some phone →
        ∀ x ∈ s.orders, ¬ (x.phoneNumber = some (formatPhoneNumber (valueToString phone)) ∧
          x.paymentStatus = "pending")) :
    (handleCallback fault { Body := some { stkCallback := some cb } } s).2 = s ∧
    ((handleCallback fault { Body := some { stkCallback := some cb } } s).1 = successAck ∨
      (handleCallback fault { Body := some { stkCallback := some cb } } s).1 = failedAck) := by
  unfold handleCallback
  simp only
  by_cases hrc : cb.ResultCode = some 0
  · rw [if_pos hrc]
    rcases h with h | h
    · exact absurd hrc h
    · cases hmd : cb.CallbackMetadata with
      | none => exact ⟨rfl, Or.inr rfl⟩
      | some md =>
        simp only
        cases hit : md.Item with
        | none => exact ⟨rfl, Or.inr rfl⟩
        | some metadata =>
          simp only
          cases hph : findValue metadata "PhoneNumber" with
          | none => exact ⟨rfl, Or.inr rfl⟩
          | some phone =>
            simp only
            have hmd2 : cb.CallbackMetadata = some { Item := some metadata } := by
              rw [hmd]; cases md; simp_all
            have hnone := (findPendingByPhone_none s.orders
              (formatPhoneNumber (valueToString phone))).mpr (h metadata phone hmd2 hph)
            rw [hnone]
            by_cases hf : fault = StoreFault.findOne
            · rw [if_pos hf]; exact ⟨rfl, Or.inr rfl⟩
            · rw [if_neg hf]; exact ⟨rfl, Or.inl rfl⟩
  · rw [if_neg hrc]; exact ⟨rfl, Or.inl rfl⟩

/-- Witness for C18: a callback with `ResultCode` 1032 (cancelled by the user). -/
theorem handleCallback_no_effect_witness :
    (handleCallback .none { Body := some { stkCallback := some (sampleStk 1032) } }
      payScenario).2 = payScenario ∧
    ((handleCallback .none { Body := some { stkCallback := some (sampleStk 1032) } }
      payScenario).1 = successAck ∨
      (handleCallback .none { Body := some { stkCallback := some (sampleStk 1032) } }
        payScenario).1 = failedAck) :=
  handleCallback_no_effect .none payScenario (sampleStk 1032) (Or.inl (by decide))

/-- C19 (as stated, refuted): for an absent order requested without a phone number
the answer is 400 'Order ID and phone number are required' and not 404, and
for the id `invalid-id`, which no order has, it is 500 'Server error'. -/
theorem initiate_absent_order_not_notFound :
    hexObjectId "0000000000000000000000ff" = some 255 ∧
    findOrderById payScenario.orders 255 = none ∧
    initiatePaymentRoute hexObjectId sampleConfig acceptingGateway 7
        { orderId := some "0000000000000000000000ff", phoneNumber := none } payScenario.orders =
      ({ code := 400, success := false, message := "Order ID and phone number are required"
         checkoutRequestId := none, merchantRequestId := none }, payScenario.orders, []) ∧
    hexObjectId "invalid-id" = none ∧
    initiatePaymentRoute hexObjectId sampleConfig acceptingGateway 7
        { orderId := some "invalid-id", phoneNumber := some "0712 345 678" } payScenario.orders =
      ({ code := 500, success := false, message := "Server error"
         checkoutRequestId := none, merchantRequestId := none }, payScenario.orders, []) := by
  refine ⟨by decide, by decide, by decide, by decide, by decide⟩

/-- C19 (amended): initiatePayment answers 400 'Order ID and phone number are
required' when the order id or the phone number is missing or empty;
otherwise 500 'Server error' when the order id is not a well-formed
`ObjectId`; otherwise 404 'Order not found' when the order is absent;
otherwise 403 'Not authorized' when the requester does not own the order;
otherwise 400 'Order already paid' when its `paymentStatus` is completed. In
each of these rejections no request is sent to the gateway and the orders are
unchanged. An order that is already completed is rejected for every requester
and phone field. -/
theorem initiatePaymentRoute_rejections (cast : IdCast) (cfg : MpesaConfig) (gw : Gateway)
    (requester : Nat) (body : InitiateBody) (orders : List Order) :
    (body.orderId = none ∨ body.orderId = some "" ∨
        body.phoneNumber = none ∨ body.phoneNumber = some "" →
      initiatePaymentRoute cast cfg gw requester body orders =
        ({ code := 400, success := false, message := "Order ID and phone number are required"
           checkoutRequestId := none, merchantRequestId := none }, orders, [])) ∧
    (∀ rawId phone, body.orderId = some rawId → rawId ≠ "" →
        body.phoneNumber = some phone → phone ≠ "" →
      (cast rawId = none →
        initiatePaymentRoute cast cfg gw requester body orders =
          ({ code := 500, success := false, message := "Server error"
             checkoutRequestId := none, merchantRequestId := none }, orders, [])) ∧
      (∀ id, cast rawId = some id →
        (findOrderById orders id = none →
          initiatePaymentRoute cast cfg gw requester body orders =
            ({ code := 404, success := false, message := "Order not found"
               checkoutRequestId := none, merchantRequestId := none }, orders, [])) ∧
        (∀ o, findOrderById orders id = some o → o.user ≠ requester →
          initiatePaymentRoute cast cfg gw requester body orders =
            ({ code := 403, success := false, message := "Not authorized"
               checkoutRequestId := none, merchantRequestId := none }, orders, [])) ∧
        (∀ o, findOrderById orders id = some o → o.user = requester →
          o.paymentStatus = "completed" →
          initiatePaymentRoute cast cfg gw requester body orders =
            ({ code := 400, success := false, message := "Order already paid"
               checkoutRequestId := none, merchantRequestId := none }, orders, [])))) ∧
    (∀ rawId id o, body.orderId = some rawId → cast rawId = some id →
        findOrderById orders id = some o → o.paymentStatus = "completed" →
      (initiatePaymentRoute cast cfg gw requester body orders).1.success = false ∧
      (initiatePaymentRoute cast cfg gw requester body orders).2 = (orders, [])) := by
  obtain ⟨bid, bphone⟩ := body
  refine ⟨?_, ?_, ?_⟩
  · intro h
    cases bid with
    | none => simp [initiatePaymentRoute, initiateRejection]
    | some rawId =>
      cases bphone with
      | none => simp [initiatePaymentRoute, initiateRejection]
      | some phone =>
        have h2 : rawId = "" ∨ phone = "" := by
          rcases h with h | h | h | h
          · cases h
          · exact Or.inl (by simpa using h)
          · cases h
          · exact Or.inr (by simpa using h)
        simp [initiatePaymentRoute, h2, initiateRejection]
  · intro rawId phone hid hne hp hpne
    simp only [Option.some.injEq] at hid hp
    subst hid hp
    refine ⟨?_, ?_⟩
    · intro hc
      simp [initiatePaymentRoute, hne, hpne, hc, initiateRejection]
    · intro id hc
      refine ⟨?_, ?_, ?_⟩
      · intro hf
        simp [initiatePaymentRoute, hne, hc, initiatePayment, hpne, hf, initiateRejection]
      · intro o hf hu
        simp [initiatePaymentRoute, hne, hc, initiatePayment, hpne, hf, hu, initiateRejection]
      · intro o hf hu hcomp
        simp [initiatePaymentRoute, hne, hc, initiatePayment, hpne, hf, hu, hcomp,
          initiateRejection]
  · intro rawId id o hid hc hf hcomp
    simp only [Option.some.injEq] at hid
    subst hid
    cases bphone with
    | none => simp [initiatePaymentRoute, initiateRejection]
    | some phone =>
      by_cases h2 : rawId = "" ∨ phone = ""
      · simp [initiatePaymentRoute, h2, initiateRejection]
      · have hpne : phone ≠ "" := fun h => h2 (Or.inr h)
        have hne : rawId ≠ "" := fun h => h2 (Or.inl h)
        by_cases hu : o.user = requester
        · simp [initiatePaymentRoute, hne, hc, initiatePayment, hpne, hf, hu, hcomp,
            initiateRejection]
        · simp [initiatePaymentRoute, hne, hc, initiatePayment, hpne, hf, hu, initiateRejection]

/-- Witness for C19 (amended): on the scenario store, user 7 asking to pay the completed
order 1 is answered 'Order already paid', user 8 asking to pay order 2 of
user 7 is answered 403, and an id that no order has is answered 404. -/
theorem initiatePaymentRoute_rejections_witness :
    initiatePaymentRoute hexObjectId sampleConfig acceptingGateway 7
        { orderId := some "000000000000000000000001", phoneNumber := some "0712 345 678" }
        payScenario.orders =
      ({ code := 400, success := false, message := "Order already paid"
         checkoutRequestId := none, merchantRequestId := none }, payScenario.orders, []) ∧
    initiatePaymentRoute hexObjectId sampleConfig acceptingGateway 8
        { orderId := some "000000000000000000000002", phoneNumber := some "0712 345 678" }
        payScenario.orders =
      ({ code := 403, success := false, message := "Not authorized"
         checkoutRequestId := none, merchantRequestId := none }, payScenario.orders, []) ∧
    initiatePaymentRoute hexObjectId sampleConfig acceptingGateway 7
        { orderId := some "0000000000000000000000ff", phoneNumber := some "0712 345 678" }
        payScenario.orders =
      ({ code := 404, success := false, message := "Order not found"
         checkoutRequestId := none, merchantRequestId := none }, payScenario.orders, []) :=
  ⟨((initiatePaymentRoute_rejections hexObjectId sampleConfig acceptingGateway 7
      { orderId := some "000000000000000000000001", phoneNumber := some "0712 345 678" }
      payScenario.orders).2.1 "000000000000000000000001" "0712 345 678" rfl (by decide) rfl
      (by decide)).2 1 (by decide) |>.2.2
      (sampleOrder 1 (some "254712345678") "completed" 30 1) (by decide) rfl rfl,
   ((initiatePaymentRoute_rejections hexObjectId sampleConfig acceptingGateway 8
      { orderId := some "000000000000000000000002", phoneNumber := some "0712 345 678" }
      payScenario.orders).2.1 "000000000000000000000002" "0712 345 678" rfl (by decide) rfl
      (by decide)).2 2 (by decide) |>.2.1
      (sampleOrder 2 (some "254712345678") "pending" 20 2) (by decide) (by decide),
   ((initiatePaymentRoute_rejections hexObjectId sampleConfig acceptingGateway 7
      { orderId := some "0000000000000000000000ff", phoneNumber := some "0712 345 678" }
      payScenario.orders).2.1 "0000000000000000000000ff" "0712 345 678" rfl (by decide) rfl
      (by decide)).2 255 (by decide) |>.1 (by decide)⟩

/-- C20: when the gateway issues a token and accepts the push built for the order,
initiatePayment (by the owner, for an order not yet completed) stores
`formatPhoneNumber(phoneNumber)` as the order's `phoneNumber`, changes no other
field of it and no other order, and answers with the gateway's
`CheckoutRequestID` and `MerchantRequestID` as `checkoutRequestId` and
`merchantRequestId`. -/
theorem initiatePayment_accepted (cfg : MpesaConfig) (gw : Gateway) (requester : Nat)
    (req : InitiateRequest) (orders : List Order) (id : Nat) (phone : String) (o : Order)
    (token : String) (checkoutId merchantId : Option String)
    (hid : req.orderId = some id) (hp : req.phoneNumber = some phone) (hne : phone ≠ "")
    (hf : findOrderById orders id = some o) (hown : o.user = requester)
    (hpay : o.paymentStatus ≠ "completed") (htok : gw.token = some token)
    (hpush : gw.push token
      (stkPayload cfg phone o.totalAmount o.orderNumber ("Payment for order " ++ o.orderNumber))
      = .accepted checkoutId merchantId) :
    (initiatePayment cfg gw requester req orders).1 =
      { code := 200, success := true, message := "Payment initiated. Please check your phone."
        checkoutRequestId := checkoutId, merchantRequestId := merchantId } ∧
    ∃ pre post, orders = pre ++ o :: post ∧
      (initiatePayment cfg gw requester req orders).2.1 =
        pre ++ { o with phoneNumber := some (formatPhoneNumber phone) } :: post := by
  have hstk : initiateSTKPush cfg gw phone o.totalAmount o.orderNumber
      ("Payment for order " ++ o.orderNumber) =
      ({ success := true, CheckoutRequestID := checkoutId, MerchantRequestID := merchantId
         message := none },
       [.token, .stkPush token (stkPayload cfg phone o.totalAmount o.orderNumber
         ("Payment for order " ++ o.orderNumber))]) := by
    simp [initiateSTKPush, htok, hpush]
  have hid2 := (findOrderById_some orders id o hf).2
  obtain ⟨pre, post, h1, h2⟩ := saveOrder_first orders id o hf
  have hsave := h2 { o with phoneNumber := some (formatPhoneNumber phone) } hid2
  subst hown
  constructor
  · simp [initiatePayment, hid, hp, hne, hf, hpay, hstk]
  · refine ⟨pre, post, h1, ?_⟩
    simp [initiatePayment, hid, hp, hne, hf, hpay, hstk, hsave]

/-- Witness for C20: user 7 pays the pending order 2 of the scenario store. -/
theorem initiatePayment_accepted_witness :
    (initiatePayment sampleConfig acceptingGateway 7 (payRequest 2) payScenario.orders).1 =
      { code := 200, success := true, message := "Payment initiated. Please check your phone."
        checkoutRequestId := some "ws_CO_191220191020363925"
        merchantRequestId := some "29115-34620561-1" } ∧
    ∃ pre post, payScenario.orders =
        pre ++ sampleOrder 2 (some "254712345678") "pending" 20 2 :: post ∧
      (initiatePayment sampleConfig acceptingGateway 7 (payRequest 2) payScenario.orders).2.1 =
        pre ++ { sampleOrder 2 (some "254712345678") "pending" 20 2 with
                 phoneNumber := some (formatPhoneNumber "0712 345 678") } :: post :=
  initiatePayment_accepted sampleConfig acceptingGateway 7 (payRequest 2) payScenario.orders
    2 "0712 345 678" (sampleOrder 2 (some "254712345678") "pending" 20 2) "token"
    (some "ws_CO_191220191020363925") (some "29115-34620561-1")
    rfl rfl (by decide) (by decide) rfl (by decide) rfl rfl

/-- C14 (as stated, refuted): the success callback is delivered while
`order.save()` rejects and then delivered again. After the first delivery the
two units of order 2 are out of stock although the order is still pending and
nothing was finalized; after the second the order is completed and its units
have been taken out of stock twice. -/
theorem stock_taken_while_pending :
    (payRun [.callback .save (sampleCallback 0)] payScenario).products.map
      (fun p => (p.quantity, p.sold)) = [(8, 2), (5, 0)] ∧
    paymentStatusOf (payRun [.callback .save (sampleCallback 0)] payScenario).orders 2 =
      some "pending" ∧
    finalizedAlong [.callback .save (sampleCallback 0)] payScenario = [] ∧
    (payRun failedSaveSeries payScenario).products.map (fun p => (p.quantity, p.sold)) =
      [(6, 4), (5, 0)] ∧
    paymentStatusOf (payRun failedSaveSeries payScenario).orders 2 = some "completed" ∧
    (finalizedAlong failedSaveSeries payScenario).map (fun o => (o._id, o.items)) =
      [(2, [{ product := 1, quantity := 2, price := 100 }])] := by
  refine ⟨by decide, by decide, by decide, by decide, by decide, by decide⟩

/-- C14 (amended): along every series of initiatePayment, handleCallback and
operator order-status requests handled one after the other (order and product
ids unique), no order is finalized twice, every finalized order was pending,
and an order's payment status is completed exactly when it was finalized and
is otherwise what it was; and when no store operation rejects, every product's
quantity has gone down and its sold counter up by exactly the quantity that
the line items of the finalized orders ask of it, each order counted once. -/
theorem payment_finalized_once (ops : List PayOp) (s : PayState)
    (hids : (s.orders.map (fun x => x._id)).Nodup)
    (hpids : (s.products.map (fun p => p._id)).Nodup) :
    ((finalizedAlong ops s).map (fun o => o._id)).Nodup ∧
    (∀ o ∈ finalizedAlong ops s, paymentStatusOf s.orders o._id = some "pending") ∧
    (∀ id, paymentStatusOf (payRun ops s).orders id =
      if id ∈ (finalizedAlong ops s).map (fun o => o._id) then some "completed"
      else paymentStatusOf s.orders id) ∧
    (faultFree ops = true →
      (payRun ops s).products =
        s.products.map (fun p =>
          { p with
            quantity := p.quantity -
              orderedQty ((finalizedAlong ops s).flatMap (fun o => o.items)) p._id
            sold := p.sold +
              orderedQty ((finalizedAlong ops s).flatMap (fun o => o.items)) p._id })) := by
  have hprod : faultFree ops = true →
      (payRun ops s).products =
        s.products.map (fun p =>
          { p with
            quantity := p.quantity -
              orderedQty ((finalizedAlong ops s).flatMap (fun o => o.items)) p._id
            sold := p.sold +
              orderedQty ((finalizedAlong ops s).flatMap (fun o => o.items)) p._id }) := by
    intro hff
    rw [payRun_products, stockTakenAlong_faultFree ops s hff]
    exact applyItems_eq_map _ s.products hpids
  obtain ⟨h1, h2, h3⟩ := finalized_once_aux ops s hids
  exact ⟨h1, h2, h3, hprod⟩

/-- Witness for C14 (amended): on the scenario store the payment of order 2 is
initiated, the success callback is delivered twice and the operator ships the
order; no store operation rejects, order 2 is finalized once and its two
units are taken out of stock once. -/
theorem payment_finalized_once_witness :
    (faultFree paySeries = true ∧
      (finalizedAlong paySeries payScenario).map (fun o => o._id) = [2] ∧
      (payRun paySeries payScenario).products.map (fun p => (p.quantity, p.sold)) =
        [(8, 2), (5, 0)] ∧
      (payRun paySeries payScenario).orders.map (fun o => (o.paymentStatus, o.orderStatus)) =
        [("completed", "pending"), ("completed", "shipped"), ("pending", "pending")]) ∧
    ((finalizedAlong paySeries payScenario).map (fun o => o._id)).Nodup ∧
    (∀ o ∈ finalizedAlong paySeries payScenario,
      paymentStatusOf payScenario.orders o._id = some "pending") ∧
    (∀ id, paymentStatusOf (payRun paySeries payScenario).orders id =
      if id ∈ (finalizedAlong paySeries payScenario).map (fun o => o._id) then
        some "completed"
      else paymentStatusOf payScenario.orders id) ∧
    (faultFree paySeries = true →
      (payRun paySeries payScenario).products =
        payScenario.products.map (fun p =>
          { p with
            quantity := p.quantity -
              orderedQty ((finalizedAlong paySeries payScenario).flatMap (fun o => o.items))
                p._id
            sold := p.sold +
              orderedQty ((finalizedAlong paySeries payScenario).flatMap (fun o => o.items))
                p._id })) :=
  ⟨⟨by decide, by decide, by decide, by decide⟩,
    payment_finalized_once paySeries payScenario (by decide) (by decide)⟩

/-- C27 (as stated, refuted): the integer age 9007199254740993 (`2 ^ 53 + 1`), sent
as its decimal numeral, is answered with `currentAge` 9007199254740992,
because `parseInt` returns the nearest double. -/
theorem upcoming_age_rounded :
    toString (9007199254740993 : Int) = "9007199254740993" ∧
    getUpcoming { chickAge := some "9007199254740993", chickType := some "layer" } =
      .ok (.finite 9007199254740992) "layer" [] (sliceLast2 vaccinationSchedule) ∧
    JsNumber.finite 9007199254740992 ≠ .finite 9007199254740993 := by
  refine ⟨by decide, by decide, by decide⟩

/-- C27 (amended): for every integer chick age `a` that a double holds exactly
(every `a` of magnitude up to `2 ^ 53` is one), sent as its decimal numeral,
and every chick type, the answer of `GET /api/vaccinations/upcoming` has
`currentAge` equal to `a` and echoes the chick type; `upcomingVaccinations` is
the sublist, in schedule order, of that type's schedule entries with day above
`a`; `recentVaccinations` is the last at most two of the entries with day up
to `a`; every recent entry has an earlier day than every upcoming entry, and
the recent entries followed by the upcoming ones end the schedule. -/
theorem getUpcoming_contract (query : UpcomingQuery) (a : Int)
    (hq : query.chickAge = some (toString a)) (ha : exactDouble a) :
    ∃ upcoming recent, getUpcoming query =
        .ok (.finite a) (query.chickType.getD "layer") upcoming recent ∧
      upcoming = (getSchedule query.chickType).schedule.filter (fun v => decide (v.day > a)) ∧
      (∃ older, (getSchedule query.chickType).schedule.filter (fun v => decide (v.day ≤ a)) =
        older ++ recent) ∧
      recent.length = min 2
        ((getSchedule query.chickType).schedule.filter (fun v => decide (v.day ≤ a))).length ∧
      (∀ r ∈ recent, ∀ u ∈ upcoming, r.day ≤ a ∧ a < u.day ∧ r.day < u.day) ∧
      (∃ earlier, (getSchedule query.chickType).schedule = earlier ++ recent ++ upcoming) :=
  getUpcoming_of_age query (toString a) a hq (parseInt_toString a ha)

/-- Witness for C27 (amended): a ten-day-old layer chick; 10 is `10 * 2 ^ 0`. -/
theorem getUpcoming_contract_witness :
    toString (10 : Int) = "10" ∧ exactDouble 10 ∧
    ∃ upcoming recent, getUpcoming { chickAge := some "10", chickType := some "layer" } =
        .ok (.finite 10) ((some "layer").getD "layer") upcoming recent ∧
      upcoming = (getSchedule (some "layer")).schedule.filter (fun v => decide (v.day > 10)) ∧
      (∃ older, (getSchedule (some "layer")).schedule.filter (fun v => decide (v.day ≤ 10)) =
        older ++ recent) ∧
      recent.length = min 2
        ((getSchedule (some "layer")).schedule.filter (fun v => decide (v.day ≤ 10))).length ∧
      (∀ r ∈ recent, ∀ u ∈ upcoming, r.day ≤ 10 ∧ 10 < u.day ∧ r.day < u.day) ∧
      (∃ earlier, (getSchedule (some "layer")).schedule = earlier ++ recent ++ upcoming) :=
  ⟨by decide, ⟨10, 0, by decide, by decide, by decide⟩,
    getUpcoming_contract { chickAge := some "10", chickType := some "layer" } 10 rfl
      ⟨10, 0, by decide, by decide, by decide⟩⟩

/-- C28: `GET /api/vaccinations/schedule` answers 200 and echoes the requested
chick type ('layer' when none is given); for 'broiler' the schedule is the
entries of the full schedule with day at most 42 in their original order (its
first six entries); for every other chick type it is the full schedule; it is
never empty. -/
theorem getSchedule_contract (chickType : Option String) :
    (getSchedule chickType).code = 200 ∧
    (getSchedule chickType).success = true ∧
    (getSchedule chickType).chickType = chickType.getD "layer" ∧
    (getSchedule none).chickType = "layer" ∧
    (getSchedule (some "broiler")).schedule =
      vaccinationSchedule.filter (fun v => decide (v.day ≤ 42)) ∧
    (getSchedule (some "broiler")).schedule = vaccinationSchedule.take 6 ∧
    (chickType ≠ some "broiler" → (getSchedule chickType).schedule = vaccinationSchedule) ∧
    (getSchedule chickType).schedule ≠ [] := by
  refine ⟨rfl, rfl, rfl, rfl, rfl, by decide, ?_, ?_⟩
  · intro h
    have hne : ¬ chickType.getD "layer" = "broiler" := by
      cases chickType with
      | none => decide
      | some t => intro ht; exact h (by simpa using ht)
    simp [getSchedule, hne]
  · by_cases hb : chickType.getD "layer" = "broiler"
    · have : (getSchedule chickType).schedule = vaccinationSchedule.take 6 := by
        simp only [getSchedule, hb, if_true]
        decide
      rw [this]
      decide
    · have : (getSchedule chickType).schedule = vaccinationSchedule := by
        simp [getSchedule, hb]
      rw [this]
      decide

/-- C21: when the access-token request fails, or the push is rejected or fails in
transport, initiatePayment (reaching the gateway: order found, owned by the
requester, not completed) answers 400 with `success` false, leaves the orders,
the phone number of the order included, unchanged, and its message is the
gateway's `errorMessage` when there is a non-empty one and 'Payment initiation
failed' otherwise. -/
theorem initiatePayment_gateway_failure (cfg : MpesaConfig) (gw : Gateway) (requester : Nat)
    (req : InitiateRequest) (orders : List Order) (id : Nat) (phone : String) (o : Order)
    (hid : req.orderId = some id) (hp : req.phoneNumber = some phone) (hne : phone ≠ "")
    (hf : findOrderById orders id = some o) (hown : o.user = requester)
    (hpay : o.paymentStatus ≠ "completed")
    (hfail : gw.token = none ∨ ∃ token errorMessage, gw.token = some token ∧
      gw.push token (stkPayload cfg phone o.totalAmount o.orderNumber
        ("Payment for order " ++ o.orderNumber)) = .rejected errorMessage) :
    (initiatePayment cfg gw requester req orders).2.1 = orders ∧
    (initiatePayment cfg gw requester req orders).1.code = 400 ∧
    (initiatePayment cfg gw requester req orders).1.success = false ∧
    (gw.token = none →
      (initiatePayment cfg gw requester req orders).1.message = "Payment initiation failed") ∧
    (∀ token, gw.token = some token →
      gw.push token (stkPayload cfg phone o.totalAmount o.orderNumber
        ("Payment for order " ++ o.orderNumber)) = .rejected none →
      (initiatePayment cfg gw requester req orders).1.message = "Payment initiation failed") ∧
    (∀ token m, gw.token = some token → m ≠ "" →
      gw.push token (stkPayload cfg phone o.totalAmount o.orderNumber
        ("Payment for order " ++ o.orderNumber)) = .rejected (some m) →
      (initiatePayment cfg gw requester req orders).1.message = m) := by
  subst hown
  have hres : initiatePayment cfg gw o.user req orders =
      (initiateRejection 400 (orInitiationFailed
        (initiateSTKPush cfg gw phone o.totalAmount o.orderNumber
          ("Payment for order " ++ o.orderNumber)).1.message), orders,
        (initiateSTKPush cfg gw phone o.totalAmount o.orderNumber
          ("Payment for order " ++ o.orderNumber)).2) := by
    have hs : (initiateSTKPush cfg gw phone o.totalAmount o.orderNumber
        ("Payment for order " ++ o.orderNumber)).1.success = false := by
      rcases hfail with ht | ⟨token, em, ht, hpush⟩
      · simp [initiateSTKPush, ht]
      · simp [initiateSTKPush, ht, hpush]
    simp [initiatePayment, hid, hp, hne, hf, hpay, hs]
  rw [hres]
  refine ⟨rfl, rfl, rfl, ?_, ?_, ?_⟩
  · intro ht
    simp [initiateRejection, initiateSTKPush, ht, orInitiationFailed]
  · intro token ht hpush
    simp [initiateRejection, initiateSTKPush, ht, hpush, orInitiationFailed]
  · intro token m ht hm hpush
    simp [initiateRejection, initiateSTKPush, ht, hpush, orInitiationFailed, hm]

/-- Witness for C21: the gateway rejects the push for order 2 with a message. -/
theorem initiatePayment_gateway_failure_witness :
    (initiatePayment sampleConfig rejectingGateway 7 (payRequest 2) payScenario.orders).1.message
      = "Invalid PhoneNumber" :=
  (initiatePayment_gateway_failure sampleConfig rejectingGateway 7 (payRequest 2)
    payScenario.orders 2 "0712 345 678" (sampleOrder 2 (some "254712345678") "pending" 20 2)
    rfl rfl (by decide) (by decide) rfl (by decide)
    (Or.inr ⟨"token", some "Invalid PhoneNumber", rfl, rfl⟩)).2.2.2.2.2
    "token" "Invalid PhoneNumber" rfl (by decide) rfl

/-- C22 (as stated, refuted): no booking has the id `invalid-id`, yet cancelVisit
answers 500 'Server error' and not 404, because the lookup throws on an id
that is not an `ObjectId`. -/
theorem cancelVisit_malformed_id :
    hexObjectId "invalid-id" = none ∧
    (∀ v ∈ scenarioStore, hexObjectId "invalid-id" ≠ some v._id) ∧
    cancelVisitRoute hexObjectId "invalid-id" 7 scenarioStore =
      ({ code := 500, success := false, message := "Server error", visit := none },
       scenarioStore) := by
  refine ⟨by decide, by decide, by decide⟩

/-- C22 (amended): cancelVisit answers 500 'Server error' when the given id is not
a well-formed `ObjectId`, 404 'Visit not found' when it is one that no booking
has, and 403 'Not authorized' when the booking exists but the requester is not
its owner; in all three cases the store is unchanged. -/
theorem cancelVisitRoute_errors (cast : IdCast) (rawId : String) (requester : Nat)
    (store : List Visit) :
    (cast rawId = none →
      cancelVisitRoute cast rawId requester store =
        ({ code := 500, success := false, message := "Server error", visit := none },
         store)) ∧
    (∀ id, cast rawId = some id → findById store id = none →
      cancelVisitRoute cast rawId requester store =
        ({ code := 404, success := false, message := "Visit not found", visit := none },
         store)) ∧
    (∀ id v, cast rawId = some id → findById store id = some v → v.user ≠ requester →
      cancelVisitRoute cast rawId requester store =
        ({ code := 403, success := false, message := "Not authorized", visit := none },
         store)) := by
  refine ⟨?_, ?_, ?_⟩
  · intro h
    simp [cancelVisitRoute, h, serverError]
  · intro id hc h
    simp [cancelVisitRoute, hc, cancelVisit, h]
  · intro id v hc h hu
    simp [cancelVisitRoute, hc, cancelVisit, h, hu]

/-- Witness for C22 (amended): on the scenario store, a well-formed id that no booking has
is answered 404, and the booking 1 of user 7 asked for by user 8 is answered
403. -/
theorem cancelVisitRoute_errors_witness :
    cancelVisitRoute hexObjectId "0000000000000000000000ff" 7 scenarioStore =
      ({ code := 404, success := false, message := "Visit not found", visit := none },
       scenarioStore) ∧
    cancelVisitRoute hexObjectId "000000000000000000000001" 8 scenarioStore =
      ({ code := 403, success := false, message := "Not authorized", visit := none },
       scenarioStore) :=
  ⟨(cancelVisitRoute_errors hexObjectId "0000000000000000000000ff" 7 scenarioStore).2.1
      255 (by decide) (by decide),
   (cancelVisitRoute_errors hexObjectId "000000000000000000000001" 8 scenarioStore).2.2
      1 (bookingOn1June 1 5 "pending") (by decide) (by decide) (by decide)⟩

/-- C23: every booking in the store after scheduleVisit was there before or has a
visitor count between 1 and 10; a request whose count lies outside [1,10]
leaves the store unchanged and returns no booking, as do the requests for 0,
-3 and 11 visitors on a day without bookings. -/
theorem scheduleVisit_count_bounds (env : Env) (now : Int) (user : Nat)
    (req : VisitRequest) (store : List Visit) :
    (∀ v ∈ (scheduleVisit env now user req store).2,
      v ∈ store ∨ (1 ≤ v.numberOfVisitors ∧ v.numberOfVisitors ≤ 10)) ∧
    (∀ n, req.numberOfVisitors = some n → n < 1 ∨ 10 < n →
      (scheduleVisit env now user req store).2 = store ∧
      (scheduleVisit env now user req store).1.code ≠ 201) ∧
    (scheduleVisit defaultEnv 0 9 (requestFor 0) []).2 = [] ∧
    (scheduleVisit defaultEnv 0 9 (requestFor (-3)) []).2 = [] ∧
    (scheduleVisit defaultEnv 0 9 (requestFor 11) []).2 = [] := by
  refine ⟨?_, ?_, by decide, by decide, by decide⟩
  · intro v hv
    rcases scheduleVisit_cases env now user req store with hsame | ⟨d, t, n, _, _, _, h1, h10, _, _, heq⟩
    · rw [hsame.1] at hv; exact Or.inl hv
    · rw [heq] at hv
      rcases List.mem_append.mp hv with hv | hv
      · exact Or.inl hv
      · simp only [List.mem_singleton] at hv
        subst hv
        exact Or.inr ⟨h1, h10⟩
  · intro n hn hout
    rcases scheduleVisit_cases env now user req store with hsame | ⟨d, t, m, _, _, hm, h1, h10, _, _, _⟩
    · exact hsame
    · rw [hn] at hm
      cases hm
      omega

/-- C24: for a success callback whose metadata item list has no item of a given
tag, the lookup of the tag yields no value and the handler still answers with
an acknowledgement, whichever store operation fails; when the missing tag is
`PhoneNumber` the answer is the failure acknowledgement and no order and no
product is modified. -/
theorem handleCallback_missing_tag (fault : StoreFault) (s : PayState) (cb : StkCallback)
    (metadata : List MetadataItem) (tag : String) (hrc : cb.ResultCode = some 0)
    (hmd : cb.CallbackMetadata = some { Item := some metadata })
    (hmiss : ∀ item ∈ metadata, item.Name ≠ tag) :
    findValue metadata tag = none ∧
    ((handleCallback fault { Body := some { stkCallback := some cb } } s).1 = successAck ∨
      (handleCallback fault { Body := some { stkCallback := some cb } } s).1 = failedAck) ∧
    (tag = "PhoneNumber" →
      handleCallback fault { Body := some { stkCallback := some cb } } s = (failedAck, s)) := by
  have hnone := findValue_none_of_absent metadata tag hmiss
  refine ⟨hnone, handleCallback_answer fault cb s, ?_⟩
  intro htag
  subst htag
  simp [handleCallback, hrc, hmd, hnone]

/-- Witness for C24: a success callback whose metadata lacks `PhoneNumber`. -/
theorem handleCallback_missing_tag_witness :
    findValue [{ Name := "Amount", Value := some (.num 200) }] "PhoneNumber" = none ∧
    ((handleCallback .none { Body := some { stkCallback := some amountOnlyStk } }
        payScenario).1 = successAck ∨
      (handleCallback .none { Body := some { stkCallback := some amountOnlyStk } }
        payScenario).1 = failedAck) ∧
    ("PhoneNumber" = "PhoneNumber" →
      handleCallback .none { Body := some { stkCallback := some amountOnlyStk } }
        payScenario = (failedAck, payScenario)) :=
  handleCallback_missing_tag .none payScenario amountOnlyStk
    [{ Name := "Amount", Value := some (.num 200) }] "PhoneNumber" rfl rfl (by decide)

/-- C25: every push request sent by `initiateSTKPush` carries as `Amount` the
amount rounded up to a whole unit: the least integer not below the amount,
equal to the amount when that is whole and otherwise strictly between the
amount and the amount plus one. -/
theorem stkPush_amount_ceiling (cfg : MpesaConfig) (gw : Gateway) (phone : String)
    (amount : Rat) (accountReference : String) (transactionDesc : String)
    (token : String) (payload : StkPayload)
    (hsent : GatewayCall.stkPush token payload ∈
      (initiateSTKPush cfg gw phone amount accountReference transactionDesc).2) :
    amount ≤ (payload.Amount : Rat) ∧
    (∀ m : Int, amount ≤ (m : Rat) → payload.Amount ≤ m) ∧
    (∀ k : Int, amount = (k : Rat) → payload.Amount = k) ∧
    ((∀ k : Int, amount ≠ (k : Rat)) →
      amount < (payload.Amount : Rat) ∧ (payload.Amount : Rat) < amount + 1) := by
  have hpay : payload.Amount = ⌈amount⌉ := by
    unfold initiateSTKPush at hsent
    cases ht : gw.token with
    | none => rw [ht] at hsent; simp at hsent
    | some t =>
      rw [ht] at hsent
      simp only at hsent
      split at hsent
      · simp only [List.mem_cons, List.mem_singleton, GatewayCall.stkPush.injEq,
          List.not_mem_nil, or_false] at hsent
        rcases hsent with h | h
        · cases h
        · rw [h.2]; exact ratCeil_eq amount
      · simp only [List.mem_cons, List.mem_singleton, GatewayCall.stkPush.injEq,
          List.not_mem_nil, or_false] at hsent
        rcases hsent with h | h
        · cases h
        · rw [h.2]; exact ratCeil_eq amount
  rw [hpay]
  refine ⟨Int.le_ceil amount, ?_, ?_, ?_⟩
  · intro m hm
    exact Int.ceil_le.mpr hm
  · intro k hk
    rw [hk]; exact Int.ceil_intCast k
  · intro hnot
    have hle := Int.le_ceil amount
    exact ⟨lt_of_le_of_ne hle (fun he => hnot ⌈amount⌉ he), Int.ceil_lt_add_one amount⟩

/-- Witness for C25: the push sent for an amount of 200 to the accepting gateway. -/
theorem stkPush_amount_ceiling_witness :
    (200 : Rat) ≤ ((stkPayload sampleConfig "0712 345 678" 200 "ORD-1" "Payment").Amount : Rat) ∧
    (∀ m : Int, (200 : Rat) ≤ (m : Rat) →
      (stkPayload sampleConfig "0712 345 678" 200 "ORD-1" "Payment").Amount ≤ m) ∧
    (∀ k : Int, (200 : Rat) = (k : Rat) →
      (stkPayload sampleConfig "0712 345 678" 200 "ORD-1" "Payment").Amount = k) ∧
    ((∀ k : Int, (200 : Rat) ≠ (k : Rat)) →
      (200 : Rat) < ((stkPayload sampleConfig "0712 345 678" 200 "ORD-1" "Payment").Amount : Rat) ∧
      ((stkPayload sampleConfig "0712 345 678" 200 "ORD-1" "Payment").Amount : Rat) < 200 + 1) :=
  stkPush_amount_ceiling sampleConfig acceptingGateway "0712 345 678" 200 "ORD-1" "Payment"
    "token" (stkPayload sampleConfig "0712 345 678" 200 "ORD-1" "Payment")
    (List.mem_cons_of_mem _ (List.mem_singleton.mpr rfl))

/-- C26: for every request of the payment interface, whichever store operation
rejects (order ids unique), and every stored order: if the request is a
callback that finalizes the order, or an operator status update addressed to
it, the order's history afterwards is its previous history followed by exactly
one entry, whose status ('processing', respectively the given status) is the
order's new `orderStatus`; for every other request and order the history and
the order status are unchanged. -/
theorem statusHistory_append_only (s : PayState) (op : PayOp) (id : Nat) (o : Order)
    (hids : (s.orders.map (fun x => x._id)).Nodup)
    (hf : findOrderById s.orders id = some o) :
    ∃ o2, findOrderById (payStep s op).orders id = some o2 ∧
      (∀ status, historyEntryFor s op id = some status →
        o2.orderStatus = status ∧
        ∃ note, o2.statusHistory = o.statusHistory ++ [{ status := status, note := note }]) ∧
      (historyEntryFor s op id = none →
        o2.statusHistory = o.statusHistory ∧ o2.orderStatus = o.orderStatus) := by
  cases op with
  | initiate cfg gw requester req =>
    simp only [payStep, historyEntryFor]
    rcases initiatePayment_orders cfg gw requester req s.orders with h | ⟨oid, o1, phone, hf1, h⟩
    · rw [h]
      refine ⟨o, hf, ?_, ?_⟩
      · intro st hst; cases hst
      · intro _; exact ⟨rfl, rfl⟩
    · rw [h, findOrderById_saveOrder]
      by_cases hid : id = oid
      · have hid1 := (findOrderById_some s.orders oid o1 hf1).2
        rw [hid, hf1] at hf
        cases hf
        have hcond : id = ({ o with phoneNumber := some phone } : Order)._id := by
          rw [hid]; exact hid1.symm
        rw [if_pos hcond, hid, hf1]
        refine ⟨_, rfl, ?_, ?_⟩
        · intro st hst; cases hst
        · intro _; exact ⟨rfl, rfl⟩
      · have hid1 := (findOrderById_some s.orders oid o1 hf1).2
        have hcond : ¬ id = ({ o1 with phoneNumber := some phone } : Order)._id := by
          intro he; apply hid; rw [he]; exact hid1
        rw [if_neg hcond]
        refine ⟨o, hf, ?_, ?_⟩
        · intro st hst; cases hst
        · intro _; exact ⟨rfl, rfl⟩
  | callback fault req =>
    cases hfin : finalizedBy s (.callback fault req) with
    | none =>
      have hnone : historyEntryFor s (.callback fault req) id = none := by
        simp [historyEntryFor, hfin]
      rw [hnone]
      have h := handleCallback_orders_kept fault req s hfin
      simp only [payStep]
      rw [h]
      refine ⟨o, hf, ?_, ?_⟩
      · intro st hst; cases hst
      · intro _; exact ⟨rfl, rfl⟩
    | some o1 =>
      obtain ⟨hmem, _, r, c, h⟩ := payStep_orders_final s (.callback fault req) o1 hfin
      rw [h, findOrderById_saveOrder]
      have h1 := findOrderById_of_mem s.orders o1 hmem hids
      by_cases hid : id = o1._id
      · have hcond : id = (markPaid o1 r c)._id := hid
        rw [hid, h1] at hf
        cases hf
        have hentry : historyEntryFor s (.callback fault req) id = some "processing" := by
          simp [historyEntryFor, hfin, hid]
        rw [if_pos hcond, hid, h1, ← hid, hentry]
        refine ⟨_, rfl, ?_, by intro hn; cases hn⟩
        intro st hst
        cases hst
        exact ⟨rfl, "Payment received successfully", rfl⟩
      · have hcond : ¬ id = (markPaid o1 r c)._id := hid
        have hentry : historyEntryFor s (.callback fault req) id = none := by
          have : ¬ o1._id = id := fun he => hid he.symm
          simp [historyEntryFor, hfin, this]
        rw [if_neg hcond, hentry]
        refine ⟨o, hf, ?_, ?_⟩
        · intro st hst; cases hst
        · intro _; exact ⟨rfl, rfl⟩
  | adminStatus oid status note =>
    simp only [payStep, updateOrderStatus, historyEntryFor]
    cases hf1 : findOrderById s.orders oid with
    | none =>
      have hne : ¬ oid = id := by
        intro he; rw [he, hf] at hf1; cases hf1
      simp only [hne, if_false]
      refine ⟨o, hf, ?_, ?_⟩
      · intro st hst; cases hst
      · intro _; exact ⟨rfl, rfl⟩
    | some o1 =>
      simp only
      rw [findOrderById_saveOrder]
      have hid1 := (findOrderById_some s.orders oid o1 hf1).2
      by_cases hid : oid = id
      · rw [← hid, hf1] at hf
        cases hf
        simp only [hid1, hid, if_true]
        rw [← hid, hf1]
        refine ⟨_, rfl, ?_, by intro hn; cases hn⟩
        intro st hst
        cases hst
        exact ⟨rfl, _, rfl⟩
      · have hcond : ¬ id = o1._id := by
          intro he; apply hid; rw [he]; exact hid1.symm
        simp only [hid, if_false, hcond]
        refine ⟨o, hf, ?_, ?_⟩
        · intro st hst; cases hst
        · intro _; exact ⟨rfl, rfl⟩

/-- Witness for C26: the operator ships order 2 of the scenario store, whose
history gets the entry 'shipped'; the finalizing callback gives it the entry
'processing'. -/
theorem statusHistory_append_only_witness :
    (historyEntryFor payScenario (.adminStatus 2 "shipped" none) 2 = some "shipped" ∧
      (findOrderById (payStep payScenario (.adminStatus 2 "shipped" none)).orders 2).map
        (fun o => (o.orderStatus, o.statusHistory)) =
        some ("shipped",
          [{ status := "shipped", note := "Status updated to shipped by admin" }]) ∧
      historyEntryFor payScenario (.callback .none (sampleCallback 0)) 2 = some "processing" ∧
      (findOrderById (payStep payScenario (.callback .none (sampleCallback 0))).orders 2).map
        (fun o => (o.orderStatus, o.statusHistory)) =
        some ("processing",
          [{ status := "processing", note := "Payment received successfully" }])) ∧
    ∃ o2, findOrderById (payStep payScenario (.adminStatus 2 "shipped" none)).orders 2 = some o2 ∧
      (∀ status, historyEntryFor payScenario (.adminStatus 2 "shipped" none) 2 = some status →
        o2.orderStatus = status ∧
        ∃ note, o2.statusHistory =
          (sampleOrder 2 (some "254712345678") "pending" 20 2).statusHistory ++
            [{ status := status, note := note }]) ∧
      (historyEntryFor payScenario (.adminStatus 2 "shipped" none) 2 = none →
        o2.statusHistory = (sampleOrder 2 (some "254712345678") "pending" 20 2).statusHistory ∧
        o2.orderStatus = (sampleOrder 2 (some "254712345678") "pending" 20 2).orderStatus) :=
  ⟨⟨by decide, by decide, by decide, by decide⟩,
    statusHistory_append_only payScenario (.adminStatus 2 "shipped" none) 2
      (sampleOrder 2 (some "254712345678") "pending" 20 2) (by decide) (by decide)⟩

/-- C29: two callbacks that differ only in the values of their `Amount` and
`TransactionDate` metadata items are handled identically: same
acknowledgement, same orders and same products, whatever the order total. -/
theorem handleCallback_ignores_amount (fault : StoreFault) (s : PayState) (cb : StkCallback)
    (m1 m2 : List MetadataItem) (h : sameButAmount m1 m2 = true) :
    handleCallback fault (withMetadata cb m1) s = handleCallback fault (withMetadata cb m2) s := by
  have hr := findValue_sameButAmount m1 m2 "MpesaReceiptNumber" h (by decide) (by decide)
  have hp := findValue_sameButAmount m1 m2 "PhoneNumber" h (by decide) (by decide)
  simp only [handleCallback, withMetadata, hr, hp]

/-- Witness for C29: the sample callback paid with 200 and the same callback paid
with 1 and no transaction date. -/
theorem handleCallback_ignores_amount_witness :
    handleCallback .none (withMetadata (sampleStk 0) sampleMetadata) payScenario =
      handleCallback .none (withMetadata (sampleStk 0) otherAmountMetadata) payScenario :=
  handleCallback_ignores_amount .none payScenario (sampleStk 0) sampleMetadata
    otherAmountMetadata (by decide)

/-- C30 (the code at the failing input): with a stock of three and two pending
orders of two units each, every quantity is non-negative before the second
payment callback, which finalizes the second order, and the quantity of
product 1 is -1 after it. -/
theorem stock_goes_negative :
    (lowStockScenario.products.map (fun p => p.quantity)) = [3] ∧
    ((handleCallback .none (callbackFrom 254712345678) lowStockScenario).2.products.map
      (fun p => p.quantity)) = [1] ∧
    (finalizedOrder (callbackFrom 254700000000)
      (handleCallback .none (callbackFrom 254712345678) lowStockScenario).2.orders).isSome
      = true ∧
    ((handleCallback .none (callbackFrom 254700000000)
      (handleCallback .none (callbackFrom 254712345678) lowStockScenario).2).2.products.map
      (fun p => p.quantity)) = [-1] := by
  refine ⟨by decide, by decide, by decide, by decide⟩

/-- Stock stays non-negative when it covers the order: with unique product ids, if
every product holds at least the quantity the finalized order asks of it, no
quantity is negative after the callback. -/
theorem stock_nonneg_of_covered (req : CallbackRequest) (s : PayState) (o : Order)
    (hfin : finalizedOrder req s.orders = some o)
    (hids : (s.products.map (fun p => p._id)).Nodup)
    (hcov : ∀ p ∈ s.products, orderedQty o.items p._id ≤ p.quantity) :
    ∀ p ∈ (handleCallback .none req s).2.products, 0 ≤ p.quantity := by
  obtain ⟨cb, metadata, _, _, _, heq⟩ := handleCallback_finalizes req s o hfin
  rw [heq]
  simp only
  rw [applyItems_eq_map o.items s.products hids]
  intro p hp
  obtain ⟨p0, hp0, hpe⟩ := List.mem_map.mp hp
  rw [← hpe]
  have := hcov p0 hp0
  simp only [settle]
  omega

end GmChicks
